import Mathlib

/-!
# Shallow embedding of the NSX-T Terraform provider resources

The Go sources under `nsxt/` are translated function by function:

* Go `interface{}` values are the inductive type `Value`; a type assertion
  `v.(T)` is a function into `Except String`, whose error is the runtime panic.
* Go `error` results are `Option String` (`none` is `nil`).
* Go `int` and `int64` are `Int`; widening `int64(x)` of an `int` keeps the value,
  narrowing `int32(x)` wraps into the signed 32-bit range.
* Slices are lists (a `nil` slice is the empty list), pointers are `Option`.
* `schema.ResourceData` is a record holding the resource schema, the identifier
  and the stored attributes.
* A `schema.Set` is the list of its elements: one element per hash key, in the
  order of the keys.
-/

namespace nsxt

/-! ## Dynamic values -/

/-- Go dynamic value, as held in an `interface{}`. -/
inductive Value where
  | nil : Value
  | str (s : String) : Value
  | bool (b : Bool) : Value
  | int (i : Int) : Value
  | int32 (i : Int) : Value
  | int64 (i : Int) : Value
  | list (xs : List Value) : Value
  | set (xs : List Value) : Value
  | map (kvs : List (String × Value)) : Value

/-- Go map with string keys, `map[string]interface{}`. -/
abbrev GoMap := List (String × Value)

/-- Map index expression `data[k]`: the zero value `nil` when the key is absent. -/
def index (data : GoMap) (k : String) : Value :=
  (data.lookup k).getD Value.nil

/-- Map assignment `elem[k] = v`. -/
def assign (elem : GoMap) (k : String) (v : Value) : GoMap :=
  elem.filter (fun kv => kv.1 != k) ++ [(k, v)]

/-- Type assertion `v.(string)`. -/
def Value.assertString : Value → Except String String
  | .str s => .ok s
  | _ => .error "interface conversion: interface {} is not string"

/-- Type assertion `v.(bool)`. -/
def Value.assertBool : Value → Except String Bool
  | .bool b => .ok b
  | _ => .error "interface conversion: interface {} is not bool"

/-- Type assertion `v.(int)`. -/
def Value.assertInt : Value → Except String Int
  | .int i => .ok i
  | _ => .error "interface conversion: interface {} is not int"

/-- Type assertion `v.(int64)`. -/
def Value.assertInt64 : Value → Except String Int
  | .int64 i => .ok i
  | _ => .error "interface conversion: interface {} is not int64"

/-- Type assertion `v.([]interface{})`. -/
def Value.assertList : Value → Except String (List Value)
  | .list xs => .ok xs
  | _ => .error "interface conversion: interface {} is not []interface {}"

/-- Type assertion `v.(map[string]interface{})`. -/
def Value.assertMap : Value → Except String GoMap
  | .map kvs => .ok kvs
  | _ => .error "interface conversion: interface {} is not map[string]interface {}"

/-- Type assertion `v.(*schema.Set)` followed by `.List()`. -/
def Value.assertSetList : Value → Except String (List Value)
  | .set xs => .ok xs
  | _ => .error "interface conversion: interface {} is not *schema.Set"

/-- Conversion `int64(x)` of a Go `int`: widening, the value is kept. -/
def int64 (x : Int) : Int := x

/-- Conversion `int32(x)` of a Go `int`: the low 32 bits, read as a signed number. -/
def int32 (x : Int) : Int := (x + 2147483648) % 4294967296 - 2147483648

/-! ## Schema and resource data (the configuration layer) -/

/-- Shape of a `schema.Schema`: its `Type` and `Elem`. Descriptions, validators,
the Optional/Required/Computed flags and defaults act when a configuration is
accepted, before the functions below run, and are not kept. -/
inductive Schema where
  | TypeBool : Schema
  | TypeInt : Schema
  | TypeString : Schema
  | TypeList (elem : Schema) : Schema
  | TypeSet (elem : Schema) : Schema
  | Resource (fields : List (String × Schema)) : Schema

mutual
/-- Equality of two dynamic values, by structure. -/
def Value.beq : Value → Value → Bool
  | .nil, .nil => true
  | .str a, .str b => a == b
  | .bool a, .bool b => a == b
  | .int a, .int b => a == b
  | .int32 a, .int32 b => a == b
  | .int64 a, .int64 b => a == b
  | .list a, .list b => Value.beqList a b
  | .set a, .set b => Value.beqList a b
  | .map a, .map b => Value.beqMap a b
  | _, _ => false
/-- Equality of two lists of dynamic values, element by element. -/
def Value.beqList : List Value → List Value → Bool
  | [], [] => true
  | a :: as, b :: bs => Value.beq a b && Value.beqList as bs
  | _, _ => false
/-- Equality of two maps, entry by entry. -/
def Value.beqMap : List (String × Value) → List (String × Value) → Bool
  | [], [] => true
  | (k, a) :: as, (l, b) :: bs => k == l && Value.beq a b && Value.beqMap as bs
  | _, _ => false
end

/-! ### Sets of the configuration layer

A `schema.Set` stores each element under the decimal string of its hash code, keeps
the first element added under a key, and lists its elements in the order of the
sorted keys. The hash code of an element is `hashcode.String` (the CRC-32 checksum) of
the serialisation of the element under the schema of the set elements. -/

/-- Bytes of a character in UTF-8. -/
def utf8Bytes (c : Char) : List Nat :=
  let n := c.toNat
  if n < 128 then [n]
  else if n < 2048 then [192 + n / 64, 128 + n % 64]
  else if n < 65536 then [224 + n / 4096, 128 + n / 64 % 64, 128 + n % 64]
  else [240 + n / 262144, 128 + n / 4096 % 64, 128 + n / 64 % 64, 128 + n % 64]

/-- CRC-32 register after the given number of bit steps (reflected polynomial
`0xEDB88320`). -/
def crc32Shift : Nat → Nat → Nat
  | 0, crc => crc
  | n + 1, crc => crc32Shift n (if crc % 2 = 1 then (crc / 2) ^^^ 3988292384 else crc / 2)

/-- CRC-32 register after one more byte. -/
def crc32Update (crc : Nat) (b : Nat) : Nat := crc32Shift 8 (crc ^^^ b)

/-- Checksum `crc32.ChecksumIEEE` of the bytes of a string, a 32-bit number. -/
def ChecksumIEEE (s : String) : Nat :=
  ((s.data.flatMap utf8Bytes).foldl crc32Update 4294967295) ^^^ 4294967295

/-- Hash `hashcode.String`: the checksum as a Go `int` (64 bits wide, so never
negative). -/
def hashcodeString (s : String) : Int := (ChecksumIEEE s : Int)

/-- Order of Go strings (byte by byte), on the characters of two strings. -/
def keyLess : List Char → List Char → Bool
  | [], [] => false
  | [], _ :: _ => true
  | _ :: _, [] => false
  | a :: as, b :: bs =>
    if a.toNat < b.toNat then true else if b.toNat < a.toNat then false else keyLess as bs

/-- The serialised field `p` of key `k` put at its place among the fields serialised so
far, which are kept in the order of their keys (`sort.Strings(keys)`). -/
def insertPiece (k : String) (p : String) : List (String × String) → List (String × String)
  | [] => [(k, p)]
  | (k2, p2) :: rest =>
    if keyLess k.data k2.data then (k, p) :: (k2, p2) :: rest
    else (k2, p2) :: insertPiece k p rest

mutual
/-- Serialisation `SerializeValueForHash` of a value under a schema; under a nested
resource, the serialisation `serializeCollectionMemberForHash` of a collection member.
A value that is not of the type of the schema is never met: the values serialised are
those handed out under the same schema. -/
def SerializeValueForHash : Schema → Value → String
  | .Resource fs, .map m => "<" ++ String.join ((resourcePieces fs m).map Prod.snd) ++ ">;"
  | .Resource _, _ => "<>;"
  | _, .nil => ";"
  | .TypeBool, .bool b => (if b then "1" else "0") ++ ";"
  | .TypeInt, .int i => toString i ++ ";"
  | .TypeString, .str s => s ++ ";"
  | .TypeList e, .list xs =>
    "(" ++ String.join (xs.map (SerializeValueForHash e)) ++ ")" ++ ";"
  | .TypeSet e, .set xs =>
    "\x7b" ++ String.join (xs.map (SerializeValueForHash e)) ++ "\x7d" ++ ";"
  | _, _ => ";"
/-- The fields of a resource, each serialised as its key, a colon and the serialisation
of its value (which ends in a semicolon), in the order of their keys. Every field of
the set elements of this provider is Required or Optional, so none is left out. -/
def resourcePieces : List (String × Schema) → GoMap → List (String × String)
  | [], _ => []
  | (k, s) :: rest, m =>
    insertPiece k (k ++ ":" ++ SerializeValueForHash s (index m k)) (resourcePieces rest m)
end

/-- Serialisation `SerializeResourceForHash` of a set element that is a resource;
nothing for `nil`. -/
def SerializeResourceForHash (fs : List (String × Schema)) : Value → String
  | .map m => String.join ((resourcePieces fs m).map Prod.snd)
  | _ => ""

/-- Hash code of a set element: `HashResource` for elements that are resources,
`HashSchema` for the others (no schema of this provider sets its own hash function). -/
def setCode : Schema → Value → Int
  | .Resource fs, v => hashcodeString (SerializeResourceForHash fs v)
  | s, v => hashcodeString (SerializeValueForHash s v)

/-- Key `Set.hash` under which a set stores an element: the decimal string of its hash
code, made non-negative. -/
def setKey (e : Schema) (v : Value) : String :=
  let code := setCode e v
  toString (if code < 0 then -code else code)

/-- An element entered under a new key, at the place of the key among the sorted
keys. -/
def setInsert {α : Type} (key : String) (v : α) : List (String × α) → List (String × α)
  | [] => [(key, v)]
  | (k, w) :: rest =>
    if keyLess key.data k.data then (key, v) :: (k, w) :: rest
    else (k, w) :: setInsert key v rest

/-- Method `Set.Add`: the element is stored under its key unless an element is already
stored under that key. The content is kept in the order of the keys. -/
def setAdd {α : Type} (hash : α → String) (m : List (String × α)) (v : α) :
    List (String × α) :=
  if (m.lookup (hash v)).isSome then m else setInsert (hash v) v m

/-- The elements `Set.List()` of the set built by adding the given elements in turn:
one element per key, in the order of the sorted keys. -/
def setList {α : Type} (hash : α → String) (xs : List α) : List α :=
  (xs.foldl (setAdd hash) []).map Prod.snd

/-- The elements of the set that the configuration layer builds from the given
elements, under the schema of the elements. -/
def setElements (e : Schema) (xs : List Value) : List Value :=
  setList (setKey e) xs

mutual
/-- Value the configuration layer hands out for a stored value under a schema:
always of the schema's type, the zero value when nothing usable is stored.
Integers of any width are handed out as Go `int` (64 bits wide). -/
def readValue : Schema → Value → Value
  | .TypeBool, .bool b => .bool b
  | .TypeBool, _ => .bool false
  | .TypeInt, .int i => .int i
  | .TypeInt, .int32 i => .int i
  | .TypeInt, .int64 i => .int i
  | .TypeInt, _ => .int 0
  | .TypeString, .str s => .str s
  | .TypeString, _ => .str ""
  | .TypeList e, .list xs => .list (xs.map (readValue e))
  | .TypeList _, _ => .list []
  | .TypeSet e, .list xs => .set (setElements e (xs.map (readValue e)))
  | .TypeSet e, .set xs => .set (setElements e (xs.map (readValue e)))
  | .TypeSet _, _ => .set []
  | .Resource fs, .map kvs => .map (readFields fs kvs)
  | .Resource fs, _ => .map (readFields fs [])
/-- Every field a nested resource declares, read from the stored map. -/
def readFields : List (String × Schema) → GoMap → GoMap
  | [], _ => []
  | (k, s) :: rest, kvs => (k, readValue s (index kvs k)) :: readFields rest kvs
end

/-- State of one managed resource, `schema.ResourceData`. -/
structure ResourceData where
  /-- attribute table of the resource -/
  schema : List (String × Schema)
  /-- identifier, empty when unset -/
  id : String
  /-- stored attribute values -/
  attrs : GoMap

/-- Call `d.Id()`. -/
def ResourceData.Id (d : ResourceData) : String := d.id

/-- Call `d.SetId(v)`. -/
def ResourceData.SetId (d : ResourceData) (v : String) : ResourceData :=
  { d with id := v }

/-- Call `d.Get(key)`: the stored value read through the schema of `key`; `nil` for
a key the schema does not declare. -/
def ResourceData.Get (d : ResourceData) (key : String) : Value :=
  match d.schema.lookup key with
  | some s => readValue s (index d.attrs key)
  | none => Value.nil

/-- Call `d.Set(key, value)`: stores the value; an error, and no change, for a key the
schema does not declare. -/
def ResourceData.Set (d : ResourceData) (key : String) (value : Value) :
    ResourceData × Option String :=
  match d.schema.lookup key with
  | some _ => ({ d with attrs := assign d.attrs key value }, none)
  | none => (d, some ("Invalid address to set: " ++ key))

/-! ## Load balancer pool: vendor structs -/

/-- Struct `loadbalancer.LbSnatIpElement`. -/
structure LbSnatIpElement where
  IpAddress : String
  deriving DecidableEq, Repr

/-- Struct `loadbalancer.LbSnatTranslation`. -/
structure LbSnatTranslation where
  Type_ : String
  IpAddresses : List LbSnatIpElement
  PortOverload : Int
  deriving DecidableEq, Repr

/-- Struct `loadbalancer.PoolMember`. -/
structure PoolMember where
  AdminState : String
  BackupMember : Bool
  DisplayName : String
  IpAddress : String
  Port : String
  Weight : Int
  MaxConcurrentConnections : Int
  deriving DecidableEq, Repr

/-- Struct `common.ResourceReference`. -/
structure ResourceReference where
  IsValid : Bool
  TargetDisplayName : String
  TargetId : String
  TargetType : String
  deriving DecidableEq, Repr

/-- Struct `loadbalancer.PoolMemberGroup`; `Port` is an `int32`. -/
structure PoolMemberGroup where
  GroupingObject : Option ResourceReference
  IpRevisionFilter : String
  MaxIpListSize : Option Int
  Port : Int
  deriving DecidableEq, Repr

set_option linter.dupNamespace false in
/-- Struct `common.Tag`. -/
structure Tag where
  Scope : String
  Tag : String
  deriving DecidableEq, Repr

/-- Struct `loadbalancer.LbPool`; `Revision` is an `int32`. -/
structure LbPool where
  Id : String
  Revision : Int
  Description : String
  DisplayName : String
  Tags : List Tag
  ActiveMonitorIds : List String
  Algorithm : String
  MinActiveMembers : Int
  PassiveMonitorId : String
  SnatTranslation : Option LbSnatTranslation
  TcpMultiplexingEnabled : Bool
  TcpMultiplexingNumber : Int
  Members : List PoolMember
  MemberGroup : Option PoolMemberGroup
  deriving DecidableEq, Repr

/-- Struct `manager.IpSet`; `Revision` is an `int64`. -/
structure IpSet where
  Id : String
  Revision : Int
  Description : String
  DisplayName : String
  Tags : List Tag
  IpAddresses : List String
  deriving DecidableEq, Repr

/-- Struct `loadbalancer.LbFastTcpProfile`; `Revision` is an `int32`. -/
structure LbFastTcpProfile where
  Id : String
  Revision : Int
  Description : String
  DisplayName : String
  Tags : List Tag
  CloseTimeout : Int
  HaFlowMirroringEnabled : Bool
  IdleTimeout : Int
  deriving DecidableEq, Repr

/-- Struct `manager.NsService`, embedded in `manager.IcmpTypeNsService`. -/
structure NsService where
  Id : String
  Revision : Int
  Description : String
  DisplayName : String
  Tags : List Tag
  DefaultService : Bool
  deriving DecidableEq, Repr

/-- Struct `manager.IcmpTypeNsServiceEntry`. -/
structure IcmpTypeNsServiceEntry where
  ResourceType : String
  IcmpCode : Int
  IcmpType : Int
  Protocol : String
  deriving DecidableEq, Repr

/-- Struct `manager.IcmpTypeNsService`. -/
structure IcmpTypeNsService where
  NsService : NsService
  NsserviceElement : IcmpTypeNsServiceEntry
  deriving DecidableEq, Repr

/-! ## The vendor client and the helpers taken as given -/

/-- The part of `http.Response` the handlers look at. -/
structure Response where
  StatusCode : Int
  deriving DecidableEq, Repr

/-- Constant `http.StatusOK`. -/
def StatusOK : Int := 200

/-- Constant `http.StatusCreated`. -/
def StatusCreated : Int := 201

/-- Constant `http.StatusNotFound`. -/
def StatusNotFound : Int := 404

/-- The endpoints of `api.APIClient` the four resources call. Each returns the decoded
object (where there is one), the response pointer (which may be nil) and the error.
The context argument is left out. -/
structure APIClient where
  CreateIPSet : IpSet → IpSet × Option Response × Option String
  ReadIPSet : String → IpSet × Option Response × Option String
  UpdateIPSet : String → IpSet → IpSet × Option Response × Option String
  DeleteIPSet : String → GoMap → Option Response × Option String
  CreateLoadBalancerPool : LbPool → LbPool × Option Response × Option String
  ReadLoadBalancerPool : String → LbPool × Option Response × Option String
  UpdateLoadBalancerPool : String → LbPool → LbPool × Option Response × Option String
  DeleteLoadBalancerPool : String → Option Response × Option String
  CreateLoadBalancerFastTcpProfile :
    LbFastTcpProfile → LbFastTcpProfile × Option Response × Option String
  ReadLoadBalancerFastTcpProfile :
    String → LbFastTcpProfile × Option Response × Option String
  UpdateLoadBalancerFastTcpProfile :
    String → LbFastTcpProfile → LbFastTcpProfile × Option Response × Option String
  DeleteLoadBalancerApplicationProfile : String → Option Response × Option String
  CreateIcmpTypeNSService :
    IcmpTypeNsService → IcmpTypeNsService × Option Response × Option String
  ReadIcmpTypeNSService : String → IcmpTypeNsService × Option Response × Option String
  UpdateIcmpTypeNSService :
    String → IcmpTypeNsService → IcmpTypeNsService × Option Response × Option String
  DeleteNSService : String → GoMap → Option Response × Option String

/-- Helpers the resource files call that are defined elsewhere in the package; they are
parameters of the handlers. -/
structure Helpers where
  getTagsFromSchema : ResourceData → List Tag
  setTagsInSchema : ResourceData → List Tag → ResourceData
  getStringListFromSchemaSet : ResourceData → String → List String
  getSingleResourceReference : List Value → Option ResourceReference
  returnResourceReferences : List ResourceReference → Value

/-- One remote call, with the arguments the handler passed. -/
inductive Call where
  | CreateIPSet (ipSet : IpSet)
  | ReadIPSet (id : String)
  | UpdateIPSet (id : String) (ipSet : IpSet)
  | DeleteIPSet (id : String) (localVarOptionals : GoMap)
  | CreateLoadBalancerPool (lbPool : LbPool)
  | ReadLoadBalancerPool (id : String)
  | UpdateLoadBalancerPool (id : String) (lbPool : LbPool)
  | DeleteLoadBalancerPool (id : String)
  | CreateLoadBalancerFastTcpProfile (lbFastTCPProfile : LbFastTcpProfile)
  | ReadLoadBalancerFastTcpProfile (id : String)
  | UpdateLoadBalancerFastTcpProfile (id : String) (lbFastTCPProfile : LbFastTcpProfile)
  | DeleteLoadBalancerApplicationProfile (id : String)
  | CreateIcmpTypeNSService (nsService : IcmpTypeNsService)
  | ReadIcmpTypeNSService (id : String)
  | UpdateIcmpTypeNSService (id : String) (nsService : IcmpTypeNsService)
  | DeleteNSService (id : String) (localVarOptionals : GoMap)

/-- What a lifecycle handler leaves behind: the state, the returned error and the
remote calls it issued, in order. -/
structure Result where
  d : ResourceData
  err : Option String
  calls : List Call

/-- The call `return resourceNsxt...Read(d, m)` that ends a create or an update: the
result of the read, after the calls already issued. -/
def thenRead (calls : List Call) (read : Except String Result) : Except String Result :=
  read.map (fun r => { r with calls := calls ++ r.calls })

/-- Rendering of an error by the verb `%v`. -/
def fmtErr : Option String → String
  | some e => e
  | none => "<nil>"

/-- Rendering of a status code by the verb `%v`. -/
def fmtStatus (code : Int) : String := toString code

/-- Rendering of a response pointer by the verb `%v`; only the status code is shown. -/
def fmtResp : Option Response → String
  | some r => "&\x7b" ++ toString r.StatusCode ++ "\x7d"
  | none => "<nil>"

/-- Panic raised by `resp.StatusCode` on a nil response. -/
def nilDereference : String :=
  "runtime error: invalid memory address or nil pointer dereference"

/-- Function `Interface2StringList` of `utils.go` (the resource files call it by its
unexported spelling). -/
def Interface2StringList : List Value → List String
  | [] => []
  | .str val :: configured =>
    if val ≠ "" then val :: Interface2StringList configured
    else Interface2StringList configured
  | _ :: configured => Interface2StringList configured

/-! ## Load balancer pool: schema -/

/-- Schema of `snat_translation` (`getSnatTranslationSchema`). -/
def getSnatTranslationSchema : Schema :=
  .TypeList (.Resource [
    ("type", .TypeString),
    ("ip", .TypeString),
    ("port_overload", .TypeInt)])

/-- Schema of `revision` (`GetRevisionSchema` in `utils.go`; the resource files call it
by its unexported spelling). -/
def GetRevisionSchema : Schema := .TypeInt

/-- Schema of the tag set (`GetTagsSchema` in `utils.go`). -/
def GetTagsSchema : Schema :=
  .TypeSet (.Resource [("scope", .TypeString), ("tag", .TypeString)])

/-- Schema of a list of resource references (`GetResourceReferencesSchema` in
`utils.go`). -/
def GetResourceReferencesSchema : Schema :=
  .TypeList (.Resource [
    ("is_valid", .TypeBool),
    ("target_display_name", .TypeString),
    ("target_id", .TypeString),
    ("target_type", .TypeString)])

/-- Schema of `member` (`getPoolMembersSchema`). -/
def getPoolMembersSchema : Schema :=
  .TypeList (.Resource [
    ("display_name", .TypeString),
    ("admin_state", .TypeString),
    ("backup_member", .TypeBool),
    ("ip_address", .TypeString),
    ("max_concurrent_connections", .TypeInt),
    ("port", .TypeString),
    ("weight", .TypeInt)])

/-- Schema of `member_group` (`getPoolMemberGroupSchema`). The schema of
`grouping_object` comes from `getSingleResourceReferencesSchema`, which is defined
elsewhere in the package, and is a parameter. -/
def getPoolMemberGroupSchema (groupingObject : Schema) : Schema :=
  .TypeList (.Resource [
    ("grouping_object", groupingObject),
    ("ip_version_filter", .TypeString),
    ("limit_ip_list_size", .TypeBool),
    ("max_ip_list_size", .TypeInt),
    ("port", .TypeInt)])

/-- The attribute table `Schema` of `resourceNsxtLbPool`. -/
def resourceNsxtLbPoolSchema (groupingObject : Schema) : List (String × Schema) := [
  ("revision", GetRevisionSchema),
  ("description", .TypeString),
  ("display_name", .TypeString),
  ("tag", GetTagsSchema),
  ("algorithm", .TypeString),
  ("min_active_members", .TypeInt),
  ("tcp_multiplexing_enabled", .TypeBool),
  ("tcp_multiplexing_number", .TypeInt),
  ("active_monitor_id", .TypeString),
  ("passive_monitor_id", .TypeString),
  ("snat_translation", getSnatTranslationSchema),
  ("member", getPoolMembersSchema),
  ("member_group", getPoolMemberGroupSchema groupingObject)]

/-! ## Conversion helpers of `utils.go` -/

/-- Function `StringList2Interface`. -/
def StringList2Interface : List String → List Value
  | [] => []
  | v :: list => Value.str v :: StringList2Interface list

/-- Body of the loop of `GetTagsFromSchema`, over the remaining elements. -/
def GetTagsLoop : List Value → Except String (List Tag)
  | [] => pure []
  | tag :: tags => do
    let data ← tag.assertMap
    let scope ← (index data "scope").assertString
    let tagValue ← (index data "tag").assertString
    let elem : Tag := { Scope := scope, Tag := tagValue }
    let tagList ← GetTagsLoop tags
    pure (elem :: tagList)

/-- Function `GetTagsFromSchema`. -/
def GetTagsFromSchema (d : ResourceData) : Except String (List Tag) := do
  let tags ← (d.Get "tags").assertSetList
  GetTagsLoop tags

/-- The list `tagList` that `SetTagsInSchema` builds and hands to `d.Set`. -/
def tagList : List Tag → List GoMap
  | [] => []
  | tag :: tags =>
    let elem : GoMap := []
    let elem := assign elem "scope" (.str tag.Scope)
    let elem := assign elem "tag" (.str tag.Tag)
    elem :: tagList tags

/-- Function `SetTagsInSchema`; the error of `d.Set` is dropped. -/
def SetTagsInSchema (d : ResourceData) (tags : List Tag) : ResourceData :=
  (d.Set "tags" (.list ((tagList tags).map Value.map))).1

/-- Struct `manager.IpSubnet`. -/
structure IpSubnet where
  IpAddresses : List String
  PrefixLength : Int
  deriving DecidableEq, Repr

/-- Schema of the subnet list (`GetIpSubnetsSchema`); its two arguments only set the
Required, Optional and Computed flags. -/
def GetIpSubnetsSchema : Schema :=
  .TypeList (.Resource [
    ("ip_addresses", .TypeList .TypeString),
    ("prefix_length", .TypeInt)])

/-- Body of the loop of `GetIpSubnetsFromSchema`, over the remaining elements. -/
def GetIpSubnetsLoop : List Value → Except String (List IpSubnet)
  | [] => pure []
  | subnet :: subnets => do
    let data ← subnet.assertMap
    let ipAddresses ← (index data "ip_addresses").assertList
    let prefixLength ← (index data "prefix_length").assertInt
    let elem : IpSubnet := {
      IpAddresses := Interface2StringList ipAddresses,
      PrefixLength := int64 prefixLength }
    let subnetList ← GetIpSubnetsLoop subnets
    pure (elem :: subnetList)

/-- Function `GetIpSubnetsFromSchema`. -/
def GetIpSubnetsFromSchema (d : ResourceData) : Except String (List IpSubnet) := do
  let subnets ← (d.Get "subnets").assertList
  GetIpSubnetsLoop subnets

/-- The list `subnetList` that `SetIpSubnetsInSchema` builds and hands to `d.Set`. -/
def subnetList : List IpSubnet → List GoMap
  | [] => []
  | subnet :: subnets =>
    let elem : GoMap := []
    let elem := assign elem "ip_addresses" (.list (StringList2Interface subnet.IpAddresses))
    let elem := assign elem "prefix_length" (.int64 subnet.PrefixLength)
    elem :: subnetList subnets

/-- Function `SetIpSubnetsInSchema`; the error of `d.Set` is dropped. -/
def SetIpSubnetsInSchema (d : ResourceData) (subnets : List IpSubnet) : ResourceData :=
  (d.Set "subnets" (.list ((subnetList subnets).map Value.map))).1

/-- Struct `manager.PacketAddressClassifier`; `Vlan` is an `int64`. -/
structure PacketAddressClassifier where
  IpAddress : String
  MacAddress : String
  Vlan : Int
  deriving DecidableEq, Repr

/-- Schema of the address binding set (`GetAddressBindingsSchema`): `vlan` is declared
with `schema.TypeInt`. -/
def GetAddressBindingsSchema : Schema :=
  .TypeSet (.Resource [
    ("ip_address", .TypeString),
    ("mac_address", .TypeString),
    ("vlan", .TypeInt)])

/-- Body of the loop of `GetAddressBindingsFromSchema`, over the remaining elements;
`vlan` is asserted to be an `int64`. -/
def GetAddressBindingsLoop : List Value → Except String (List PacketAddressClassifier)
  | [] => pure []
  | binding :: bindings => do
    let data ← binding.assertMap
    let ipAddress ← (index data "ip_address").assertString
    let macAddress ← (index data "mac_address").assertString
    let vlan ← (index data "vlan").assertInt64
    let elem : PacketAddressClassifier := {
      IpAddress := ipAddress,
      MacAddress := macAddress,
      Vlan := vlan }
    let bindingList ← GetAddressBindingsLoop bindings
    pure (elem :: bindingList)

/-- Function `GetAddressBindingsFromSchema`. -/
def GetAddressBindingsFromSchema (d : ResourceData) :
    Except String (List PacketAddressClassifier) := do
  let bindings ← (d.Get "address_bindings").assertSetList
  GetAddressBindingsLoop bindings

/-! ## Load balancer pool: SNAT translation -/

/-- Function `getSnatTranslationFromSchema`: the loop returns in its first iteration. -/
def getSnatTranslationFromSchema (d : ResourceData) :
    Except String (Option LbSnatTranslation) := do
  let snatConfs ← (d.Get "snat_translation").assertList
  match snatConfs with
  | [] => pure none
  | snatConf :: _ =>
    let data ← snatConf.assertMap
    let trType ← (index data "type").assertString
    if trType = "TRANSPARENT" then
      pure none
    else
      let portOverloadInt ← (index data "port_overload").assertInt
      let portOverload := int64 portOverloadInt
      if trType = "SNAT_IP_POOL" then
        let ipAddress ← (index data "ip").assertString
        let elem : LbSnatIpElement := { IpAddress := ipAddress }
        let ipAddresses := [] ++ [elem]
        pure (some { Type_ := "LbSnatIpPool", IpAddresses := ipAddresses,
                     PortOverload := portOverload })
      else
        pure (some { Type_ := "LbSnatAutoMap", IpAddresses := [],
                     PortOverload := portOverload })

/-- The list `snatTranslationList` that `setSnatTranslationInSchema` builds and
hands to `d.Set`. -/
def snatTranslationList (snatTranslation : Option LbSnatTranslation) : List GoMap :=
  let elem : GoMap := []
  let elem :=
    match snatTranslation with
    | some t =>
      let elem :=
        if t.Type_ = "LbSnatIpPool" then
          let elem := assign elem "type" (.str "SNAT_IP_POOL")
          match t.IpAddresses with
          | a :: _ => assign elem "ip" (.str a.IpAddress)
          | [] => elem
        else
          assign elem "type" (.str "SNAT_AUTO_MAP")
      assign elem "port_overload" (.int64 t.PortOverload)
    | none => assign elem "type" (.str "TRANSPARENT")
  [] ++ [elem]

/-- Function `setSnatTranslationInSchema`: returns the new state and the error of `d.Set`. -/
def setSnatTranslationInSchema (d : ResourceData)
    (snatTranslation : Option LbSnatTranslation) : ResourceData × Option String :=
  d.Set "snat_translation" (.list ((snatTranslationList snatTranslation).map Value.map))


/-! ## Load balancer pool: members -/

/-- The list `membersList` that `setPoolMembersInSchema` builds and hands to `d.Set`. -/
def membersList : List PoolMember → List GoMap
  | [] => []
  | member :: members =>
    let elem : GoMap := []
    let elem := assign elem "display_name" (.str member.DisplayName)
    let elem := assign elem "admin_state" (.str member.AdminState)
    let elem := assign elem "backup_member" (.bool member.BackupMember)
    let elem := assign elem "ip_address" (.str member.IpAddress)
    let elem := assign elem "max_concurrent_connections" (.int64 member.MaxConcurrentConnections)
    let elem := assign elem "port" (.str member.Port)
    let elem := assign elem "weight" (.int64 member.Weight)
    elem :: membersList members

/-- Function `setPoolMembersInSchema`: returns the new state and the error of `d.Set`. -/
def setPoolMembersInSchema (d : ResourceData) (members : List PoolMember) :
    ResourceData × Option String :=
  d.Set "member" (.list ((membersList members).map Value.map))

/-- Body of the loop of `getPoolMembersFromSchema`, over the remaining elements. -/
def getPoolMembersLoop : List Value → Except String (List PoolMember)
  | [] => pure []
  | member :: members => do
    let data ← member.assertMap
    let adminState ← (index data "admin_state").assertString
    let backupMember ← (index data "backup_member").assertBool
    let displayName ← (index data "display_name").assertString
    let ipAddress ← (index data "ip_address").assertString
    let port ← (index data "port").assertString
    let weight ← (index data "weight").assertInt
    let maxConcurrentConnections ← (index data "max_concurrent_connections").assertInt
    let elem : PoolMember := {
      AdminState := adminState,
      BackupMember := backupMember,
      DisplayName := displayName,
      IpAddress := ipAddress,
      Port := port,
      Weight := int64 weight,
      MaxConcurrentConnections := int64 maxConcurrentConnections }
    let memberList ← getPoolMembersLoop members
    pure (elem :: memberList)

/-- Function `getPoolMembersFromSchema`. -/
def getPoolMembersFromSchema (d : ResourceData) : Except String (List PoolMember) := do
  let members ← (d.Get "member").assertList
  getPoolMembersLoop members

/-! ## Load balancer pool: member group -/

/-- Function `getPoolMemberGroupFromSchema`: the loop returns in its first iteration.
The helper `getSingleResourceReference` is defined elsewhere in the package and is a
parameter. -/
def getPoolMemberGroupFromSchema
    (getSingleResourceReference : List Value → Option ResourceReference)
    (d : ResourceData) : Except String (Option PoolMemberGroup) := do
  let memberGroups ← (d.Get "member_group").assertList
  match memberGroups with
  | [] => pure none
  | member :: _ =>
    let data ← member.assertMap
    let refs ← (index data "grouping_object").assertList
    let groupingObject := getSingleResourceReference refs
    let ipVersionFilter ← (index data "ip_version_filter").assertString
    let port ← (index data "port").assertInt
    let memberGroup : PoolMemberGroup := {
      IpRevisionFilter := ipVersionFilter,
      Port := int32 port,
      GroupingObject := groupingObject,
      MaxIpListSize := none }
    let limit ← (index data "limit_ip_list_size").assertBool
    if limit then
      let maxIpListSize ← (index data "max_ip_list_size").assertInt
      let maxSize := int64 maxIpListSize
      pure (some { memberGroup with MaxIpListSize := some maxSize })
    else
      pure (some memberGroup)

/-- The list `groupMembersList` that `setPoolGroupMemberInSchema` builds and hands to
`d.Set`. The helper `returnResourceReferences` is defined elsewhere in the package and
is a parameter. -/
def groupMembersList (returnResourceReferences : List ResourceReference → Value)
    (groupMember : Option PoolMemberGroup) : List GoMap :=
  match groupMember with
  | some g =>
    let elem : GoMap := []
    let refList : List ResourceReference :=
      match g.GroupingObject with
      | some r => [] ++ [r]
      | none => []
    let elem := assign elem "grouping_object" (returnResourceReferences refList)
    let elem := assign elem "ip_version_filter" (.str g.IpRevisionFilter)
    let elem :=
      match g.MaxIpListSize with
      | some m =>
        let elem := assign elem "max_ip_list_size" (.int64 m)
        assign elem "limit_ip_list_size" (.bool true)
      | none => assign elem "limit_ip_list_size" (.bool false)
    let elem := assign elem "port" (.int32 g.Port)
    [] ++ [elem]
  | none => []

/-- Function `setPoolGroupMemberInSchema`: returns the new state and the error of
`d.Set`. -/
def setPoolGroupMemberInSchema (returnResourceReferences : List ResourceReference → Value)
    (d : ResourceData) (groupMember : Option PoolMemberGroup) :
    ResourceData × Option String :=
  d.Set "member_group"
    (.list ((groupMembersList returnResourceReferences groupMember).map Value.map))

/-- Function `getActiveMonitorIdsFromSchema`. -/
def getActiveMonitorIdsFromSchema (d : ResourceData) : Except String (List String) := do
  let activeMonitorID ← (d.Get "active_monitor_id").assertString
  let activeMonitorIds : List String := []
  if activeMonitorID ≠ "" then
    pure (activeMonitorIds ++ [activeMonitorID])
  else
    pure activeMonitorIds

/-! ## Load balancer pool: lifecycle handlers -/

/-- Function `resourceNsxtLbPoolRead`. -/
def resourceNsxtLbPoolRead (h : Helpers) (nsxClient : APIClient) (d : ResourceData) :
    Except String Result :=
  let id := d.Id
  if id = "" then
    pure { d := d, err := some "Error obtaining logical object id", calls := [] }
  else
    match nsxClient.ReadLoadBalancerPool id with
    | (lbPool, resp, err) =>
      match err with
      | some e =>
        pure { d := d, err := some ("Error during LbPool read: " ++ e),
               calls := [.ReadLoadBalancerPool id] }
      | none =>
        match resp with
        | none => throw nilDereference
        | some r =>
          if r.StatusCode = StatusNotFound then
            pure { d := d.SetId "", err := none, calls := [.ReadLoadBalancerPool id] }
          else
            let d := (d.Set "revision" (.int32 lbPool.Revision)).1
            let d := (d.Set "description" (.str lbPool.Description)).1
            let d := (d.Set "display_name" (.str lbPool.DisplayName)).1
            let d := h.setTagsInSchema d lbPool.Tags
            let d :=
              match lbPool.ActiveMonitorIds with
              | first :: _ => (d.Set "active_monitor_id" (.str first)).1
              | [] => (d.Set "active_monitor_id" (.str "")).1
            let d := (d.Set "passive_monitor_id" (.str lbPool.PassiveMonitorId)).1
            let d := (d.Set "algorithm" (.str lbPool.Algorithm)).1
            match setPoolMembersInSchema d lbPool.Members with
            | (d, some e) =>
              pure { d := d,
                     err := some ("Error during LB Pool members set in schema: " ++ e),
                     calls := [.ReadLoadBalancerPool id] }
            | (d, none) =>
              match setPoolGroupMemberInSchema h.returnResourceReferences d
                  lbPool.MemberGroup with
              | (d, some e) =>
                pure { d := d,
                       err := some ("Error during LB Pool group member set in schema: " ++ e),
                       calls := [.ReadLoadBalancerPool id] }
              | (d, none) =>
                let d := (d.Set "min_active_members" (.int64 lbPool.MinActiveMembers)).1
                match setSnatTranslationInSchema d lbPool.SnatTranslation with
                | (d, some e) =>
                  pure { d := d,
                         err := some
                           ("Error during LB Pool SNAT translation set in schema: " ++ e),
                         calls := [.ReadLoadBalancerPool id] }
                | (d, none) =>
                  let d := (d.Set "tcp_multiplexing_enabled"
                    (.bool lbPool.TcpMultiplexingEnabled)).1
                  let d := (d.Set "tcp_multiplexing_number"
                    (.int64 lbPool.TcpMultiplexingNumber)).1
                  pure { d := d, err := none, calls := [.ReadLoadBalancerPool id] }

/-- Function `resourceNsxtLbPoolCreate`. -/
def resourceNsxtLbPoolCreate (h : Helpers) (nsxClient : APIClient) (d : ResourceData) :
    Except String Result := do
  let description ← (d.Get "description").assertString
  let displayName ← (d.Get "display_name").assertString
  let tags := h.getTagsFromSchema d
  let activeMonitorIds ← getActiveMonitorIdsFromSchema d
  let passiveMonitorID ← (d.Get "passive_monitor_id").assertString
  let algorithm ← (d.Get "algorithm").assertString
  let members ← getPoolMembersFromSchema d
  let memberGroup ← getPoolMemberGroupFromSchema h.getSingleResourceReference d
  let minActiveMembersInt ← (d.Get "min_active_members").assertInt
  let minActiveMembers := int64 minActiveMembersInt
  let tcpMultiplexingEnabled ← (d.Get "tcp_multiplexing_enabled").assertBool
  let tcpMultiplexingNumberInt ← (d.Get "tcp_multiplexing_number").assertInt
  let tcpMultiplexingNumber := int64 tcpMultiplexingNumberInt
  let snatTranslation ← getSnatTranslationFromSchema d
  let lbPool : LbPool := {
    Id := "", Revision := 0,
    Description := description,
    DisplayName := displayName,
    Tags := tags,
    ActiveMonitorIds := activeMonitorIds,
    Algorithm := algorithm,
    MinActiveMembers := minActiveMembers,
    PassiveMonitorId := passiveMonitorID,
    SnatTranslation := snatTranslation,
    TcpMultiplexingEnabled := tcpMultiplexingEnabled,
    TcpMultiplexingNumber := tcpMultiplexingNumber,
    Members := members,
    MemberGroup := memberGroup }
  let request := lbPool
  match nsxClient.CreateLoadBalancerPool lbPool with
  | (lbPool, resp, err) =>
    match err with
    | some e =>
      pure { d := d, err := some ("Error during LbPool create: " ++ e),
             calls := [.CreateLoadBalancerPool request] }
    | none =>
      match resp with
      | none => throw nilDereference
      | some r =>
        if r.StatusCode ≠ StatusCreated ∧ r.StatusCode ≠ StatusOK then
          pure { d := d,
                 err := some ("Unexpected status returned during LbPool create: " ++
                   fmtStatus r.StatusCode),
                 calls := [.CreateLoadBalancerPool request] }
        else
          let d := d.SetId lbPool.Id
          thenRead [.CreateLoadBalancerPool request] (resourceNsxtLbPoolRead h nsxClient d)

/-- Function `resourceNsxtLbPoolUpdate`. -/
def resourceNsxtLbPoolUpdate (h : Helpers) (nsxClient : APIClient) (d : ResourceData) :
    Except String Result :=
  let id := d.Id
  if id = "" then
    pure { d := d, err := some "Error obtaining logical object id", calls := [] }
  else do
    let revisionInt ← (d.Get "revision").assertInt
    let revision := int32 revisionInt
    let description ← (d.Get "description").assertString
    let displayName ← (d.Get "display_name").assertString
    let tags := h.getTagsFromSchema d
    let activeMonitorIds ← getActiveMonitorIdsFromSchema d
    let passiveMonitorID ← (d.Get "passive_monitor_id").assertString
    let algorithm ← (d.Get "algorithm").assertString
    let members ← getPoolMembersFromSchema d
    let memberGroup ← getPoolMemberGroupFromSchema h.getSingleResourceReference d
    let minActiveMembersInt ← (d.Get "min_active_members").assertInt
    let minActiveMembers := int64 minActiveMembersInt
    let snatTranslation ← getSnatTranslationFromSchema d
    let tcpMultiplexingEnabled ← (d.Get "tcp_multiplexing_enabled").assertBool
    let tcpMultiplexingNumberInt ← (d.Get "tcp_multiplexing_number").assertInt
    let tcpMultiplexingNumber := int64 tcpMultiplexingNumberInt
    let lbPool : LbPool := {
      Id := "",
      Revision := revision,
      Description := description,
      DisplayName := displayName,
      Tags := tags,
      ActiveMonitorIds := activeMonitorIds,
      Algorithm := algorithm,
      MinActiveMembers := minActiveMembers,
      PassiveMonitorId := passiveMonitorID,
      SnatTranslation := snatTranslation,
      TcpMultiplexingEnabled := tcpMultiplexingEnabled,
      TcpMultiplexingNumber := tcpMultiplexingNumber,
      Members := members,
      MemberGroup := memberGroup }
    match nsxClient.UpdateLoadBalancerPool id lbPool with
    | (_, resp, err) =>
      match err with
      | some e =>
        pure { d := d, err := some ("Error during LbPool update: " ++ fmtErr (some e)),
               calls := [.UpdateLoadBalancerPool id lbPool] }
      | none =>
        match resp with
        | none => throw nilDereference
        | some r =>
          if r.StatusCode = StatusNotFound then
            pure { d := d, err := some ("Error during LbPool update: " ++ fmtErr none),
                   calls := [.UpdateLoadBalancerPool id lbPool] }
          else
            thenRead [.UpdateLoadBalancerPool id lbPool] (resourceNsxtLbPoolRead h nsxClient d)

/-- Function `resourceNsxtLbPoolDelete`. -/
def resourceNsxtLbPoolDelete (nsxClient : APIClient) (d : ResourceData) :
    Except String Result :=
  let id := d.Id
  if id = "" then
    pure { d := d, err := some "Error obtaining logical object id", calls := [] }
  else
    match nsxClient.DeleteLoadBalancerPool id with
    | (resp, err) =>
      match err with
      | some e =>
        pure { d := d, err := some ("Error during LbPool delete: " ++ e),
               calls := [.DeleteLoadBalancerPool id] }
      | none =>
        match resp with
        | none => throw nilDereference
        | some r =>
          if r.StatusCode = StatusNotFound then
            pure { d := d.SetId "", err := none, calls := [.DeleteLoadBalancerPool id] }
          else
            pure { d := d, err := none, calls := [.DeleteLoadBalancerPool id] }

/-! ## IP set: schema and lifecycle handlers -/

/-- The attribute table `Schema` of `resourceNsxtIPSet`. -/
def resourceNsxtIPSetSchema : List (String × Schema) := [
  ("revision", GetRevisionSchema),
  ("description", .TypeString),
  ("display_name", .TypeString),
  ("tag", GetTagsSchema),
  ("ip_addresses", .TypeSet .TypeString)]

/-- Function `resourceNsxtIPSetRead`. -/
def resourceNsxtIPSetRead (h : Helpers) (nsxClient : APIClient) (d : ResourceData) :
    Except String Result :=
  let id := d.Id
  if id = "" then
    pure { d := d, err := some "Error obtaining logical object id", calls := [] }
  else
    match nsxClient.ReadIPSet id with
    | (ipSet, resp, err) =>
      match err with
      | some e =>
        pure { d := d, err := some ("Error during IpSet read: " ++ e), calls := [.ReadIPSet id] }
      | none =>
        match resp with
        | none => throw nilDereference
        | some r =>
          if r.StatusCode = StatusNotFound then
            pure { d := d.SetId "", err := none, calls := [.ReadIPSet id] }
          else
            let d := (d.Set "revision" (.int64 ipSet.Revision)).1
            let d := (d.Set "description" (.str ipSet.Description)).1
            let d := (d.Set "display_name" (.str ipSet.DisplayName)).1
            let d := h.setTagsInSchema d ipSet.Tags
            let d := (d.Set "ip_addresses" (.list (ipSet.IpAddresses.map Value.str))).1
            pure { d := d, err := none, calls := [.ReadIPSet id] }

/-- Function `resourceNsxtIPSetCreate`. -/
def resourceNsxtIPSetCreate (h : Helpers) (nsxClient : APIClient) (d : ResourceData) :
    Except String Result := do
  let description ← (d.Get "description").assertString
  let displayName ← (d.Get "display_name").assertString
  let tags := h.getTagsFromSchema d
  let ipAddresses := h.getStringListFromSchemaSet d "ip_addresses"
  let ipSet : IpSet := {
    Id := "", Revision := 0,
    Description := description,
    DisplayName := displayName,
    Tags := tags,
    IpAddresses := ipAddresses }
  let request := ipSet
  match nsxClient.CreateIPSet ipSet with
  | (ipSet, resp, err) =>
    match err with
    | some e =>
      pure { d := d, err := some ("Error during IpSet create: " ++ e), calls := [.CreateIPSet request] }
    | none =>
      match resp with
      | none => throw nilDereference
      | some r =>
        if r.StatusCode ≠ StatusCreated then
          pure { d := d,
                 err := some ("Unexpected status returned during IpSet create: " ++
                   fmtStatus r.StatusCode),
                 calls := [.CreateIPSet request] }
        else
          let d := d.SetId ipSet.Id
          thenRead [.CreateIPSet request] (resourceNsxtIPSetRead h nsxClient d)

/-- Function `resourceNsxtIPSetUpdate`. -/
def resourceNsxtIPSetUpdate (h : Helpers) (nsxClient : APIClient) (d : ResourceData) :
    Except String Result :=
  let id := d.Id
  if id = "" then
    pure { d := d, err := some "Error obtaining logical object id", calls := [] }
  else do
    let revisionInt ← (d.Get "revision").assertInt
    let revision := int64 revisionInt
    let description ← (d.Get "description").assertString
    let displayName ← (d.Get "display_name").assertString
    let tags := h.getTagsFromSchema d
    let ipAddressesSet ← (d.Get "ip_addresses").assertSetList
    let ipAddresses := Interface2StringList ipAddressesSet
    let ipSet : IpSet := {
      Id := "",
      Revision := revision,
      Description := description,
      DisplayName := displayName,
      Tags := tags,
      IpAddresses := ipAddresses }
    match nsxClient.UpdateIPSet id ipSet with
    | (_, resp, err) =>
      match err with
      | some e =>
        pure { d := d, err := some ("Error during IpSet update: " ++ fmtErr (some e)),
               calls := [.UpdateIPSet id ipSet] }
      | none =>
        match resp with
        | none => throw nilDereference
        | some r =>
          if r.StatusCode = StatusNotFound then
            pure { d := d, err := some ("Error during IpSet update: " ++ fmtErr none),
                   calls := [.UpdateIPSet id ipSet] }
          else
            thenRead [.UpdateIPSet id ipSet] (resourceNsxtIPSetRead h nsxClient d)

/-- Function `resourceNsxtIPSetDelete`. -/
def resourceNsxtIPSetDelete (nsxClient : APIClient) (d : ResourceData) :
    Except String Result :=
  let id := d.Id
  if id = "" then
    pure { d := d, err := some "Error obtaining logical object id", calls := [] }
  else
    let localVarOptionals : GoMap := []
    match nsxClient.DeleteIPSet id localVarOptionals with
    | (resp, err) =>
      match err with
      | some e =>
        pure { d := d, err := some ("Error during IpSet delete: " ++ e),
               calls := [.DeleteIPSet id localVarOptionals] }
      | none =>
        match resp with
        | none => throw nilDereference
        | some r =>
          if r.StatusCode = StatusNotFound then
            pure { d := d.SetId "", err := none, calls := [.DeleteIPSet id localVarOptionals] }
          else
            pure { d := d, err := none, calls := [.DeleteIPSet id localVarOptionals] }

/-! ## Fast TCP application profile: schema and lifecycle handlers -/

/-- The attribute table `Schema` of `resourceNsxtLbFastTCPApplicationProfile`. -/
def resourceNsxtLbFastTCPApplicationProfileSchema : List (String × Schema) := [
  ("revision", GetRevisionSchema),
  ("description", .TypeString),
  ("display_name", .TypeString),
  ("tag", GetTagsSchema),
  ("close_timeout", .TypeInt),
  ("idle_timeout", .TypeInt),
  ("ha_flow_mirroring", .TypeBool)]

/-- Function `resourceNsxtLbFastTCPApplicationProfileRead`. -/
def resourceNsxtLbFastTCPApplicationProfileRead (h : Helpers) (nsxClient : APIClient)
    (d : ResourceData) : Except String Result :=
  let id := d.Id
  if id = "" then
    pure { d := d, err := some "Error obtaining logical object id", calls := [] }
  else
    match nsxClient.ReadLoadBalancerFastTcpProfile id with
    | (lbFastTCPProfile, resp, err) =>
      match err with
      | some e =>
        pure { d := d, err := some ("Error during LbFastTcpProfile read: " ++ e),
               calls := [.ReadLoadBalancerFastTcpProfile id] }
      | none =>
        match resp with
        | none => throw nilDereference
        | some r =>
          if r.StatusCode = StatusNotFound then
            pure { d := d.SetId "", err := none,
                   calls := [.ReadLoadBalancerFastTcpProfile id] }
          else
            let d := (d.Set "revision" (.int32 lbFastTCPProfile.Revision)).1
            let d := (d.Set "description" (.str lbFastTCPProfile.Description)).1
            let d := (d.Set "display_name" (.str lbFastTCPProfile.DisplayName)).1
            let d := h.setTagsInSchema d lbFastTCPProfile.Tags
            let d := (d.Set "close_timeout" (.int64 lbFastTCPProfile.CloseTimeout)).1
            let d := (d.Set "ha_flow_mirroring"
              (.bool lbFastTCPProfile.HaFlowMirroringEnabled)).1
            let d := (d.Set "idle_timeout" (.int64 lbFastTCPProfile.IdleTimeout)).1
            pure { d := d, err := none, calls := [.ReadLoadBalancerFastTcpProfile id] }

/-- Function `resourceNsxtLbFastTCPApplicationProfileCreate`. -/
def resourceNsxtLbFastTCPApplicationProfileCreate (h : Helpers) (nsxClient : APIClient)
    (d : ResourceData) : Except String Result := do
  let description ← (d.Get "description").assertString
  let displayName ← (d.Get "display_name").assertString
  let tags := h.getTagsFromSchema d
  let closeTimeoutInt ← (d.Get "close_timeout").assertInt
  let closeTimeout := int64 closeTimeoutInt
  let haFlowMirroringEnabled ← (d.Get "ha_flow_mirroring").assertBool
  let idleTimeoutInt ← (d.Get "idle_timeout").assertInt
  let idleTimeout := int64 idleTimeoutInt
  let lbFastTCPProfile : LbFastTcpProfile := {
    Id := "", Revision := 0,
    Description := description,
    DisplayName := displayName,
    Tags := tags,
    CloseTimeout := closeTimeout,
    HaFlowMirroringEnabled := haFlowMirroringEnabled,
    IdleTimeout := idleTimeout }
  let request := lbFastTCPProfile
  match nsxClient.CreateLoadBalancerFastTcpProfile lbFastTCPProfile with
  | (lbFastTCPProfile, resp, err) =>
    match err with
    | some e =>
      pure { d := d, err := some ("Error during LbFastTcpProfile create: " ++ e),
             calls := [.CreateLoadBalancerFastTcpProfile request] }
    | none =>
      match resp with
      | none => throw nilDereference
      | some r =>
        if r.StatusCode ≠ StatusCreated ∧ r.StatusCode ≠ StatusOK then
          pure { d := d,
                 err := some ("Unexpected status returned during LbFastTcpProfile create: " ++
                   fmtStatus r.StatusCode),
                 calls := [.CreateLoadBalancerFastTcpProfile request] }
        else
          let d := d.SetId lbFastTCPProfile.Id
          thenRead [.CreateLoadBalancerFastTcpProfile request]
            (resourceNsxtLbFastTCPApplicationProfileRead h nsxClient d)

/-- Function `resourceNsxtLbFastTCPApplicationProfileUpdate`. -/
def resourceNsxtLbFastTCPApplicationProfileUpdate (h : Helpers) (nsxClient : APIClient)
    (d : ResourceData) : Except String Result :=
  let id := d.Id
  if id = "" then
    pure { d := d, err := some "Error obtaining logical object id", calls := [] }
  else do
    let revisionInt ← (d.Get "revision").assertInt
    let revision := int32 revisionInt
    let description ← (d.Get "description").assertString
    let displayName ← (d.Get "display_name").assertString
    let tags := h.getTagsFromSchema d
    let closeTimeoutInt ← (d.Get "close_timeout").assertInt
    let closeTimeout := int64 closeTimeoutInt
    let haFlowMirroringEnabled ← (d.Get "ha_flow_mirroring").assertBool
    let idleTimeoutInt ← (d.Get "idle_timeout").assertInt
    let idleTimeout := int64 idleTimeoutInt
    let lbFastTCPProfile : LbFastTcpProfile := {
      Id := "",
      Revision := revision,
      Description := description,
      DisplayName := displayName,
      Tags := tags,
      CloseTimeout := closeTimeout,
      HaFlowMirroringEnabled := haFlowMirroringEnabled,
      IdleTimeout := idleTimeout }
    match nsxClient.UpdateLoadBalancerFastTcpProfile id lbFastTCPProfile with
    | (_, resp, err) =>
      match err with
      | some e =>
        pure { d := d,
               err := some ("Error during LbFastTcpProfile update: " ++ fmtErr (some e)),
               calls := [.UpdateLoadBalancerFastTcpProfile id lbFastTCPProfile] }
      | none =>
        match resp with
        | none => throw nilDereference
        | some r =>
          if r.StatusCode = StatusNotFound then
            pure { d := d,
                   err := some ("Error during LbFastTcpProfile update: " ++ fmtErr none),
                   calls := [.UpdateLoadBalancerFastTcpProfile id lbFastTCPProfile] }
          else
            thenRead [.UpdateLoadBalancerFastTcpProfile id lbFastTCPProfile]
              (resourceNsxtLbFastTCPApplicationProfileRead h nsxClient d)

/-- Function `resourceNsxtLbFastTCPApplicationProfileDelete`. -/
def resourceNsxtLbFastTCPApplicationProfileDelete (nsxClient : APIClient)
    (d : ResourceData) : Except String Result :=
  let id := d.Id
  if id = "" then
    pure { d := d, err := some "Error obtaining logical object id", calls := [] }
  else
    match nsxClient.DeleteLoadBalancerApplicationProfile id with
    | (resp, err) =>
      match err with
      | some e =>
        pure { d := d, err := some ("Error during LbFastTcpProfile delete: " ++ e),
               calls := [.DeleteLoadBalancerApplicationProfile id] }
      | none =>
        match resp with
        | none => throw nilDereference
        | some r =>
          if r.StatusCode = StatusNotFound then
            pure { d := d.SetId "", err := none,
                   calls := [.DeleteLoadBalancerApplicationProfile id] }
          else
            pure { d := d, err := none,
                   calls := [.DeleteLoadBalancerApplicationProfile id] }

/-! ## ICMP type NS service: schema and lifecycle handlers -/

/-- The attribute table `Schema` of `resourceNsxtIcmpTypeNsService`. -/
def resourceNsxtIcmpTypeNsServiceSchema : List (String × Schema) := [
  ("revision", GetRevisionSchema),
  ("description", .TypeString),
  ("display_name", .TypeString),
  ("tag", GetTagsSchema),
  ("default_service", .TypeBool),
  ("icmp_code", .TypeInt),
  ("icmp_type", .TypeInt),
  ("protocol", .TypeString)]

/-- Function `resourceNsxtIcmpTypeNsServiceRead`: the status is looked at before the
error. -/
def resourceNsxtIcmpTypeNsServiceRead (h : Helpers) (nsxClient : APIClient)
    (d : ResourceData) : Except String Result :=
  let id := d.Id
  if id = "" then
    pure { d := d, err := some "Error obtaining ns service id", calls := [] }
  else
    match nsxClient.ReadIcmpTypeNSService id with
    | (nsService, resp, err) =>
      match resp with
      | none => throw nilDereference
      | some r =>
        if r.StatusCode = StatusNotFound then
          pure { d := d.SetId "", err := none, calls := [.ReadIcmpTypeNSService id] }
        else
          match err with
          | some e =>
            pure { d := d, err := some ("Error during NsService read: " ++ e),
                   calls := [.ReadIcmpTypeNSService id] }
          | none =>
            let nsserviceElement := nsService.NsserviceElement
            let d := (d.Set "revision" (.int64 nsService.NsService.Revision)).1
            let d := (d.Set "description" (.str nsService.NsService.Description)).1
            let d := (d.Set "display_name" (.str nsService.NsService.DisplayName)).1
            let d := h.setTagsInSchema d nsService.NsService.Tags
            let d := (d.Set "default_service" (.bool nsService.NsService.DefaultService)).1
            let d := (d.Set "icmp_type" (.int64 nsserviceElement.IcmpType)).1
            let d := (d.Set "icmp_code" (.int64 nsserviceElement.IcmpCode)).1
            let d := (d.Set "protocol" (.str nsserviceElement.Protocol)).1
            pure { d := d, err := none, calls := [.ReadIcmpTypeNSService id] }

/-- Function `resourceNsxtIcmpTypeNsServiceCreate`. -/
def resourceNsxtIcmpTypeNsServiceCreate (h : Helpers) (nsxClient : APIClient)
    (d : ResourceData) : Except String Result := do
  let description ← (d.Get "description").assertString
  let displayName ← (d.Get "display_name").assertString
  let tags := h.getTagsFromSchema d
  let defaultService ← (d.Get "default_service").assertBool
  let icmpCodeInt ← (d.Get "icmp_code").assertInt
  let icmpCode := int64 icmpCodeInt
  let icmpTypeInt ← (d.Get "icmp_type").assertInt
  let icmpType := int64 icmpTypeInt
  let protocol ← (d.Get "protocol").assertString
  let nsService : IcmpTypeNsService := {
    NsService := {
      Id := "", Revision := 0,
      Description := description,
      DisplayName := displayName,
      Tags := tags,
      DefaultService := defaultService },
    NsserviceElement := {
      ResourceType := "ICMPTypeNSService",
      IcmpCode := icmpCode,
      IcmpType := icmpType,
      Protocol := protocol } }
  let request := nsService
  match nsxClient.CreateIcmpTypeNSService nsService with
  | (nsService, resp, err) =>
    match err with
    | some e =>
      pure { d := d, err := some ("Error during NsService create: " ++ e),
             calls := [.CreateIcmpTypeNSService request] }
    | none =>
      match resp with
      | none => throw nilDereference
      | some r =>
        if r.StatusCode ≠ StatusCreated then
          pure { d := d,
                 err := some ("Unexpected status returned during NsService create: " ++
                   fmtStatus r.StatusCode),
                 calls := [.CreateIcmpTypeNSService request] }
        else
          let d := d.SetId nsService.NsService.Id
          thenRead [.CreateIcmpTypeNSService request]
            (resourceNsxtIcmpTypeNsServiceRead h nsxClient d)

/-- Function `resourceNsxtIcmpTypeNsServiceUpdate`. -/
def resourceNsxtIcmpTypeNsServiceUpdate (h : Helpers) (nsxClient : APIClient)
    (d : ResourceData) : Except String Result :=
  let id := d.Id
  if id = "" then
    pure { d := d, err := some "Error obtaining ns service id", calls := [] }
  else do
    let description ← (d.Get "description").assertString
    let displayName ← (d.Get "display_name").assertString
    let tags := h.getTagsFromSchema d
    let defaultService ← (d.Get "default_service").assertBool
    let icmpCodeInt ← (d.Get "icmp_code").assertInt
    let icmpCode := int64 icmpCodeInt
    let icmpTypeInt ← (d.Get "icmp_type").assertInt
    let icmpType := int64 icmpTypeInt
    let protocol ← (d.Get "protocol").assertString
    let revisionInt ← (d.Get "revision").assertInt
    let revision := int64 revisionInt
    let nsService : IcmpTypeNsService := {
      NsService := {
        Id := "",
        Description := description,
        DisplayName := displayName,
        Tags := tags,
        DefaultService := defaultService,
        Revision := revision },
      NsserviceElement := {
        ResourceType := "ICMPTypeNSService",
        IcmpCode := icmpCode,
        IcmpType := icmpType,
        Protocol := protocol } }
    match nsxClient.UpdateIcmpTypeNSService id nsService with
    | (_, resp, err) =>
      match err with
      | some e =>
        pure { d := d,
               err := some ("Error during NsService update: " ++ fmtErr (some e) ++ " " ++
                 fmtResp resp),
               calls := [.UpdateIcmpTypeNSService id nsService] }
      | none =>
        match resp with
        | none => throw nilDereference
        | some r =>
          if r.StatusCode = StatusNotFound then
            pure { d := d,
                   err := some ("Error during NsService update: " ++ fmtErr none ++ " " ++
                     fmtResp resp),
                   calls := [.UpdateIcmpTypeNSService id nsService] }
          else
            thenRead [.UpdateIcmpTypeNSService id nsService]
              (resourceNsxtIcmpTypeNsServiceRead h nsxClient d)

/-- Function `resourceNsxtIcmpTypeNsServiceDelete`. -/
def resourceNsxtIcmpTypeNsServiceDelete (nsxClient : APIClient) (d : ResourceData) :
    Except String Result :=
  let id := d.Id
  if id = "" then
    pure { d := d, err := some "Error obtaining ns service id", calls := [] }
  else
    let localVarOptionals : GoMap := []
    match nsxClient.DeleteNSService id localVarOptionals with
    | (resp, err) =>
      match err with
      | some e =>
        pure { d := d, err := some ("Error during NsService delete: " ++ e),
               calls := [.DeleteNSService id localVarOptionals] }
      | none =>
        match resp with
        | none => throw nilDereference
        | some r =>
          if r.StatusCode = StatusNotFound then
            pure { d := d.SetId "", err := none,
                   calls := [.DeleteNSService id localVarOptionals] }
          else
            pure { d := d, err := none, calls := [.DeleteNSService id localVarOptionals] }

/-! ## The shape the handlers share

The four create handlers, and the four update handlers, differ only in the request they
build, the endpoint they call, the statuses they accept and the wording of their
errors. The two functions below spell out what each of them does with the outcome of
its remote call; the theorems relate every handler to them. -/

/-- What a create handler does with the outcome `(id of the returned object, resp,
err)` of its remote call: an error when the client reports one, an error on a status
that is not accepted, otherwise the identifier is stored and the read handler runs. -/
def createTail (accepted : Int → Bool) (errText statusText : String) (call : Call)
    (read : ResourceData → Except String Result) (d : ResourceData)
    (id : String) (resp : Option Response) (err : Option String) : Except String Result :=
  match err with
  | some e => pure { d := d, err := some (errText ++ e), calls := [call] }
  | none =>
    match resp with
    | none => throw nilDereference
    | some r =>
      if accepted r.StatusCode then
        thenRead [call] (read (d.SetId id))
      else
        pure { d := d, err := some (statusText ++ fmtStatus r.StatusCode), calls := [call] }

/-- What an update handler does with the outcome `(resp, err)` of its remote call: an
error when the client reports one or the status is 404, otherwise the read handler
runs. -/
def updateTail (errText : Option String → Option Response → String) (call : Call)
    (read : Except String Result) (d : ResourceData)
    (resp : Option Response) (err : Option String) : Except String Result :=
  match err with
  | some e => pure { d := d, err := some (errText (some e) resp), calls := [call] }
  | none =>
    match resp with
    | none => throw nilDereference
    | some r =>
      if r.StatusCode = StatusNotFound then
        pure { d := d, err := some (errText none resp), calls := [call] }
      else
        thenRead [call] read

/-! ## The lifecycle step relation -/

/-- The four resources. -/
inductive Kind where
  | IpSet
  | LbPool
  | LbFastTcpProfile
  | IcmpTypeNsService
  deriving DecidableEq, Repr

/-- The four lifecycle operations. -/
inductive Op where
  | Create
  | Read
  | Update
  | Delete
  deriving DecidableEq, Repr

/-- The handler a resource registers for an operation (the `Create`, `Read`, `Update`
and `Delete` fields of its `schema.Resource`). -/
def handler : Kind → Op → Helpers → APIClient → ResourceData → Except String Result
  | .IpSet, .Create, h, c, d => resourceNsxtIPSetCreate h c d
  | .IpSet, .Read, h, c, d => resourceNsxtIPSetRead h c d
  | .IpSet, .Update, h, c, d => resourceNsxtIPSetUpdate h c d
  | .IpSet, .Delete, _, c, d => resourceNsxtIPSetDelete c d
  | .LbPool, .Create, h, c, d => resourceNsxtLbPoolCreate h c d
  | .LbPool, .Read, h, c, d => resourceNsxtLbPoolRead h c d
  | .LbPool, .Update, h, c, d => resourceNsxtLbPoolUpdate h c d
  | .LbPool, .Delete, _, c, d => resourceNsxtLbPoolDelete c d
  | .LbFastTcpProfile, .Create, h, c, d => resourceNsxtLbFastTCPApplicationProfileCreate h c d
  | .LbFastTcpProfile, .Read, h, c, d => resourceNsxtLbFastTCPApplicationProfileRead h c d
  | .LbFastTcpProfile, .Update, h, c, d => resourceNsxtLbFastTCPApplicationProfileUpdate h c d
  | .LbFastTcpProfile, .Delete, _, c, d => resourceNsxtLbFastTCPApplicationProfileDelete c d
  | .IcmpTypeNsService, .Create, h, c, d => resourceNsxtIcmpTypeNsServiceCreate h c d
  | .IcmpTypeNsService, .Read, h, c, d => resourceNsxtIcmpTypeNsServiceRead h c d
  | .IcmpTypeNsService, .Update, h, c, d => resourceNsxtIcmpTypeNsServiceUpdate h c d
  | .IcmpTypeNsService, .Delete, _, c, d => resourceNsxtIcmpTypeNsServiceDelete c d

/-- The attribute table a resource registers (the `Schema` field of its
`schema.Resource`); `groupingObject` is the schema of the pool's `grouping_object`. -/
def kindSchema (groupingObject : Schema) : Kind → List (String × Schema)
  | .IpSet => resourceNsxtIPSetSchema
  | .LbPool => resourceNsxtLbPoolSchema groupingObject
  | .LbFastTcpProfile => resourceNsxtLbFastTCPApplicationProfileSchema
  | .IcmpTypeNsService => resourceNsxtIcmpTypeNsServiceSchema

/-- One step of the lifecycle of a resource: its handler for the operation runs on the
state and returns. A create starts from the state without identifier (`absent`). -/
def Step (h : Helpers) (c : APIClient) (k : Kind) (d : ResourceData) (op : Op)
    (r : Result) : Prop :=
  handler k op h c d = .ok r ∧ (op = Op.Create → d.id = "")

/-- The Id of the object the client returns on a create call; nothing for other
calls. -/
def createdId (c : APIClient) : Call → Option String
  | .CreateIPSet req => some (c.CreateIPSet req).1.Id
  | .CreateLoadBalancerPool req => some (c.CreateLoadBalancerPool req).1.Id
  | .CreateLoadBalancerFastTcpProfile req =>
    some (c.CreateLoadBalancerFastTcpProfile req).1.Id
  | .CreateIcmpTypeNSService req => some (c.CreateIcmpTypeNSService req).1.NsService.Id
  | _ => none

/-- The response the client gives to a read call; nothing for other calls. -/
def readResponse (c : APIClient) : Call → Option Response
  | .ReadIPSet id => (c.ReadIPSet id).2.1
  | .ReadLoadBalancerPool id => (c.ReadLoadBalancerPool id).2.1
  | .ReadLoadBalancerFastTcpProfile id => (c.ReadLoadBalancerFastTcpProfile id).2.1
  | .ReadIcmpTypeNSService id => (c.ReadIcmpTypeNSService id).2.1
  | _ => none

/-- The response the client gives to a delete call; nothing for other calls. -/
def deleteResponse (c : APIClient) : Call → Option Response
  | .DeleteIPSet id localVarOptionals => (c.DeleteIPSet id localVarOptionals).1
  | .DeleteLoadBalancerPool id => (c.DeleteLoadBalancerPool id).1
  | .DeleteLoadBalancerApplicationProfile id =>
    (c.DeleteLoadBalancerApplicationProfile id).1
  | .DeleteNSService id localVarOptionals => (c.DeleteNSService id localVarOptionals).1
  | _ => none

/-! ## Configuration blocks, as their schemas declare them -/

/-- One `member` block, with the seven fields its schema declares. -/
structure MemberConf where
  display_name : String
  admin_state : String
  backup_member : Bool
  ip_address : String
  max_concurrent_connections : Int
  port : String
  weight : Int
  deriving DecidableEq, Repr

/-- The block as the configuration layer hands it out. -/
def MemberConf.toValue (b : MemberConf) : Value :=
  .map [("display_name", .str b.display_name),
    ("admin_state", .str b.admin_state),
    ("backup_member", .bool b.backup_member),
    ("ip_address", .str b.ip_address),
    ("max_concurrent_connections", .int b.max_concurrent_connections),
    ("port", .str b.port),
    ("weight", .int b.weight)]

/-- The pool member carrying the fields of a `member` block. -/
def MemberConf.toPoolMember (b : MemberConf) : PoolMember :=
  { AdminState := b.admin_state,
    BackupMember := b.backup_member,
    DisplayName := b.display_name,
    IpAddress := b.ip_address,
    Port := b.port,
    Weight := b.weight,
    MaxConcurrentConnections := b.max_concurrent_connections }

/-- The `member` block carrying the fields of a pool member. -/
def MemberConf.ofPoolMember (m : PoolMember) : MemberConf :=
  { display_name := m.DisplayName,
    admin_state := m.AdminState,
    backup_member := m.BackupMember,
    ip_address := m.IpAddress,
    max_concurrent_connections := m.MaxConcurrentConnections,
    port := m.Port,
    weight := m.Weight }

/-- One `member_group` block, with the five fields its schema declares. -/
structure MemberGroupConf where
  grouping_object : List Value
  ip_version_filter : String
  limit_ip_list_size : Bool
  max_ip_list_size : Int
  port : Int

/-- The block as the configuration layer hands it out. -/
def MemberGroupConf.toValue (b : MemberGroupConf) : Value :=
  .map [("grouping_object", .list b.grouping_object),
    ("ip_version_filter", .str b.ip_version_filter),
    ("limit_ip_list_size", .bool b.limit_ip_list_size),
    ("max_ip_list_size", .int b.max_ip_list_size),
    ("port", .int b.port)]

/-- One `snat_translation` block, with the three fields its schema declares. -/
structure SnatTranslationConf where
  type_ : String
  ip : String
  port_overload : Int
  deriving DecidableEq, Repr

/-- The block as the configuration layer hands it out. -/
def SnatTranslationConf.toValue (b : SnatTranslationConf) : Value :=
  .map [("type", .str b.type_), ("ip", .str b.ip), ("port_overload", .int b.port_overload)]

/-- A pool resource state holding the given attributes and no identifier. -/
def lbPoolData (attrs : GoMap) : ResourceData :=
  { schema := resourceNsxtLbPoolSchema GetResourceReferencesSchema, id := "", attrs := attrs }

/-- A pool configuration with one `snat_translation` block of the given type, ip
`192.168.1.1` and port overload 8. -/
def snatExampleData (type_ : String) : ResourceData :=
  lbPoolData [("snat_translation", .list [.map [("type", .str type_),
    ("ip", .str "192.168.1.1"), ("port_overload", .int 8)]])]

/-- A pool configuration with algorithm `ROUND_ROBIN`, the single member `10.0.0.5:80`,
weight 1, and no member group, with the defaults of the schema filled in (admin state
`ENABLED`, 1 active member, 6 multiplexed connections). -/
def memberExampleData : ResourceData :=
  lbPoolData [("algorithm", .str "ROUND_ROBIN"), ("min_active_members", .int 1),
    ("tcp_multiplexing_number", .int 6), ("member", .list [.map [("display_name", .str ""),
    ("admin_state", .str "ENABLED"), ("backup_member", .bool false),
    ("ip_address", .str "10.0.0.5"), ("max_concurrent_connections", .int 0),
    ("port", .str "80"), ("weight", .int 1)]])]

/-- A pool configuration with one `member_group` block: no grouping object, filter
`IPV4`, the given limit flag, list size and port. -/
def memberGroupExampleData (limit : Bool) (maxSize port : Int) : ResourceData :=
  lbPoolData [("member_group", .list [.map [("grouping_object", .list []),
    ("ip_version_filter", .str "IPV4"), ("limit_ip_list_size", .bool limit),
    ("max_ip_list_size", .int maxSize), ("port", .int port)]])]

/-- Helpers that find no tags and no references and write nothing. -/
def plainHelpers : Helpers :=
  { getTagsFromSchema := fun _ => [],
    setTagsInSchema := fun d _ => d,
    getStringListFromSchemaSet := fun _ _ => [],
    getSingleResourceReference := fun _ => none,
    returnResourceReferences := fun _ => Value.list [] }

/-- A client that answers every call with the same response and error, and with an
object whose fields are all zero. -/
def constClient (resp : Option Response) (err : Option String) : APIClient :=
  let ipSet : IpSet := ⟨"", 0, "", "", [], []⟩
  let lbPool : LbPool := ⟨"", 0, "", "", [], [], "", 0, "", none, false, 0, [], none⟩
  let profile : LbFastTcpProfile := ⟨"", 0, "", "", [], 0, false, 0⟩
  let nsService : IcmpTypeNsService := ⟨⟨"", 0, "", "", [], false⟩, ⟨"", 0, 0, ""⟩⟩
  { CreateIPSet := fun _ => (ipSet, resp, err),
    ReadIPSet := fun _ => (ipSet, resp, err),
    UpdateIPSet := fun _ _ => (ipSet, resp, err),
    DeleteIPSet := fun _ _ => (resp, err),
    CreateLoadBalancerPool := fun _ => (lbPool, resp, err),
    ReadLoadBalancerPool := fun _ => (lbPool, resp, err),
    UpdateLoadBalancerPool := fun _ _ => (lbPool, resp, err),
    DeleteLoadBalancerPool := fun _ => (resp, err),
    CreateLoadBalancerFastTcpProfile := fun _ => (profile, resp, err),
    ReadLoadBalancerFastTcpProfile := fun _ => (profile, resp, err),
    UpdateLoadBalancerFastTcpProfile := fun _ _ => (profile, resp, err),
    DeleteLoadBalancerApplicationProfile := fun _ => (resp, err),
    CreateIcmpTypeNSService := fun _ => (nsService, resp, err),
    ReadIcmpTypeNSService := fun _ => (nsService, resp, err),
    UpdateIcmpTypeNSService := fun _ _ => (nsService, resp, err),
    DeleteNSService := fun _ _ => (resp, err) }

/-- A client for which no object exists: every call is answered with status 404 and the
error `404 Not Found`. -/
def notFoundClient : APIClient :=
  constClient (some { StatusCode := 404 }) (some "404 Not Found")

/-- A state with the given attribute table and identifier and no stored attribute. -/
def stateOf (schema : List (String × Schema)) (id : String) : ResourceData :=
  { schema := schema, id := id, attrs := [] }

/-- A client that answers every create call with status 201, no error and the request
it was sent, completed with the given Id, and every other call with status 200, no
error and an object whose fields are all zero. -/
def createdClient (id : String) : APIClient :=
  { constClient (some { StatusCode := 200 }) none with
    CreateIPSet := fun req => ({ req with Id := id }, some { StatusCode := 201 }, none),
    CreateLoadBalancerPool := fun req =>
      ({ req with Id := id }, some { StatusCode := 201 }, none),
    CreateLoadBalancerFastTcpProfile := fun req =>
      ({ req with Id := id }, some { StatusCode := 201 }, none),
    CreateIcmpTypeNSService := fun req =>
      ({ req with NsService := { req.NsService with Id := id } },
        some { StatusCode := 201 }, none) }

/-- A client that refuses, with status 400 and an error, the creation of an IP set
without display name, and answers every other call as `createdClient id` does. -/
def pickyClient (id : String) : APIClient :=
  { createdClient id with
    CreateIPSet := fun req =>
      if req.DisplayName = "" then
        (req, some { StatusCode := 400 }, some "400 Bad Request")
      else ({ req with Id := id }, some { StatusCode := 201 }, none) }

/-- A client that answers the read of a pool with status 200, no error and a pool
holding the given active monitor ids, and every other call as `constClient` does with
status 200. -/
def monitorClient (ids : List String) : APIClient :=
  { constClient (some { StatusCode := 200 }) none with
    ReadLoadBalancerPool := fun _ =>
      (⟨"", 0, "", "", [], ids, "", 0, "", none, false, 0, [], none⟩,
        some { StatusCode := 200 }, none) }

/-- A state with the given attribute table, the identifier `id-1` and the given
revision stored. -/
def revisionState (schema : List (String × Schema)) (revision : Int) : ResourceData :=
  { schema := schema, id := "id-1", attrs := [("revision", .int revision)] }

/-- The tag block the configuration layer hands out for a tag. -/
def tagToValue (t : Tag) : Value :=
  .map [("scope", .str t.Scope), ("tag", .str t.Tag)]

/-- The key under which the tag set stores a tag. -/
def tagKey (t : Tag) : String :=
  setKey (.Resource [("scope", .TypeString), ("tag", .TypeString)]) (tagToValue t)

/-- A state that declares the tag set and the subnet list of `utils.go`, with no
identifier and no stored attribute. -/
def utilsData : ResourceData :=
  { schema := [("tags", GetTagsSchema), ("subnets", GetIpSubnetsSchema)], id := "",
    attrs := [] }

/-- One `address_bindings` block, with the three fields its schema declares. -/
structure AddressBindingConf where
  ip_address : String
  mac_address : String
  vlan : Int
  deriving DecidableEq, Repr

/-- The block as the configuration layer hands it out: `vlan`, declared with
`schema.TypeInt`, is a Go `int`. -/
def AddressBindingConf.toValue (b : AddressBindingConf) : Value :=
  .map [("ip_address", .str b.ip_address), ("mac_address", .str b.mac_address),
    ("vlan", .int b.vlan)]

/-- The binding `10.0.0.5`, `00:50:56:00:00:01`, vlan 5. -/
def bindingExample : AddressBindingConf :=
  { ip_address := "10.0.0.5", mac_address := "00:50:56:00:00:01", vlan := 5 }

/-- A state that declares the address binding set of `utils.go` and stores the given
bindings. -/
def addressBindingsData (bindings : List AddressBindingConf) : ResourceData :=
  { schema := [("address_bindings", GetAddressBindingsSchema)], id := "",
    attrs := [("address_bindings", .list (bindings.map AddressBindingConf.toValue))] }

/-- A client that answers every create call as `createdClient id` does, and every read
call with status 404, no error and an object whose fields are all zero: the object is
gone by the time it is read back. -/
def readGoneClient (id : String) : APIClient :=
  { createdClient id with
    ReadIPSet := (constClient (some { StatusCode := 404 }) none).ReadIPSet,
    ReadLoadBalancerPool :=
      (constClient (some { StatusCode := 404 }) none).ReadLoadBalancerPool,
    ReadLoadBalancerFastTcpProfile :=
      (constClient (some { StatusCode := 404 }) none).ReadLoadBalancerFastTcpProfile,
    ReadIcmpTypeNSService :=
      (constClient (some { StatusCode := 404 }) none).ReadIcmpTypeNSService }

/-- A client that answers every create call as `createdClient id` does, and every read
call as `notFoundClient` does, with status 404 and the error `404 Not Found`. -/
def readNotFoundClient (id : String) : APIClient :=
  { createdClient id with
    ReadIPSet := notFoundClient.ReadIPSet,
    ReadLoadBalancerPool := notFoundClient.ReadLoadBalancerPool,
    ReadLoadBalancerFastTcpProfile := notFoundClient.ReadLoadBalancerFastTcpProfile,
    ReadIcmpTypeNSService := notFoundClient.ReadIcmpTypeNSService }

/-! ## Theorems -/

/-- Reading a key that was just assigned gives the assigned value. -/
theorem index_assign_same (m : GoMap) (k : String) (v : Value) :
    index (assign m k v) k = v := by
  unfold index assign
  induction m with
  | nil => simp [List.lookup]
  | cons kv rest ih =>
    obtain ⟨k1, v1⟩ := kv
    by_cases hk : k1 = k
    · subst hk
      simpa [List.filter] using ih
    · have hne : (k1 != k) = true := by simpa using hk
      have hne2 : (k == k1) = false := by
        simpa using fun h : k = k1 => hk h.symm
      simp only [List.filter, hne, List.cons_append, List.lookup, hne2]
      exact ih

/-- After `d.Set(key, v)` on a declared key, `d.Get(key)` hands out `v` read through
the schema of the key, and `d.Set` reports no error. -/
theorem ResourceData.Get_Set_same (d : ResourceData) (key : String) (s : Schema) (v : Value)
    (hs : d.schema.lookup key = some s) :
    (d.Set key v).2 = none ∧ (d.Set key v).1.Get key = readValue s v := by
  simp [ResourceData.Set, ResourceData.Get, hs, index_assign_same]


/-- A first block of type `SNAT_IP_POOL` gives the IP-pool shape. -/
theorem getSnat_ip_pool (d : ResourceData) (b : SnatTranslationConf) (rest : List Value)
    (h : d.Get "snat_translation" = Value.list (b.toValue :: rest))
    (ht : b.type_ = "SNAT_IP_POOL") :
    getSnatTranslationFromSchema d =
      .ok (some { Type_ := "LbSnatIpPool", IpAddresses := [{ IpAddress := b.ip }],
                  PortOverload := b.port_overload }) := by
  simp [getSnatTranslationFromSchema, h, SnatTranslationConf.toValue, Value.assertList,
    Value.assertMap, Value.assertString, Value.assertInt, index, List.lookup, ht, int64,
    bind, Except.bind, pure, Except.pure]

/-- A first block whose type is neither `TRANSPARENT` nor `SNAT_IP_POOL` gives the
auto-map shape. -/
theorem getSnat_auto_map (d : ResourceData) (b : SnatTranslationConf) (rest : List Value)
    (h : d.Get "snat_translation" = Value.list (b.toValue :: rest))
    (ht : b.type_ ≠ "TRANSPARENT") (hp : b.type_ ≠ "SNAT_IP_POOL") :
    getSnatTranslationFromSchema d =
      .ok (some { Type_ := "LbSnatAutoMap", IpAddresses := [],
                  PortOverload := b.port_overload }) := by
  simp [getSnatTranslationFromSchema, h, SnatTranslationConf.toValue, Value.assertList,
    Value.assertMap, Value.assertString, Value.assertInt, index, List.lookup, ht, hp, int64,
    bind, Except.bind, pure, Except.pure]

/-- A first block of type `TRANSPARENT` gives no object. -/
theorem getSnat_transparent (d : ResourceData) (data : GoMap) (rest : List Value)
    (h : d.Get "snat_translation" = Value.list (Value.map data :: rest))
    (ht : index data "type" = Value.str "TRANSPARENT") :
    getSnatTranslationFromSchema d = .ok none := by
  simp [getSnatTranslationFromSchema, h, ht, Value.assertList, Value.assertMap,
    Value.assertString, bind, Except.bind, pure, Except.pure]

/-- An empty `snat_translation` list gives no object. -/
theorem getSnat_empty (d : ResourceData) (h : d.Get "snat_translation" = Value.list []) :
    getSnatTranslationFromSchema d = .ok none := by
  simp [getSnatTranslationFromSchema, h, Value.assertList, bind, Except.bind, pure,
    Except.pure]

/-- C1: for a configuration whose `snat_translation` list holds one block,
`getSnatTranslationFromSchema` returns, for type `SNAT_IP_POOL`, an object of type
`LbSnatIpPool` with exactly one address, the block's `ip`, and the block's
`port_overload`; for type `SNAT_AUTO_MAP`, an object of type `LbSnatAutoMap` with no
address and the block's `port_overload`. -/
theorem getSnatTranslationFromSchema_shapes (d : ResourceData) (b : SnatTranslationConf)
    (h : d.Get "snat_translation" = Value.list [b.toValue]) :
    (b.type_ = "SNAT_IP_POOL" →
      getSnatTranslationFromSchema d =
        .ok (some { Type_ := "LbSnatIpPool", IpAddresses := [{ IpAddress := b.ip }],
                    PortOverload := b.port_overload })) ∧
    (b.type_ = "SNAT_AUTO_MAP" →
      getSnatTranslationFromSchema d =
        .ok (some { Type_ := "LbSnatAutoMap", IpAddresses := [],
                    PortOverload := b.port_overload })) :=
  ⟨getSnat_ip_pool d b [] h,
   fun ht => getSnat_auto_map d b [] h (by simp [ht]) (by simp [ht])⟩

/-- C1, at the documented input: type `SNAT_IP_POOL`, ip `192.168.1.1`, port overload 8
give one address `192.168.1.1` and `PortOverload` 8. -/
theorem getSnatTranslationFromSchema_shapes_witness :
    (snatExampleData "SNAT_IP_POOL").Get "snat_translation" =
      Value.list [SnatTranslationConf.toValue
        { type_ := "SNAT_IP_POOL", ip := "192.168.1.1", port_overload := 8 }] ∧
    getSnatTranslationFromSchema (snatExampleData "SNAT_IP_POOL") =
      .ok (some { Type_ := "LbSnatIpPool", IpAddresses := [{ IpAddress := "192.168.1.1" }],
                  PortOverload := 8 }) :=
  ⟨rfl, (getSnatTranslationFromSchema_shapes (snatExampleData "SNAT_IP_POOL")
    { type_ := "SNAT_IP_POOL", ip := "192.168.1.1", port_overload := 8 } rfl).1 rfl⟩

/-- C2: `getSnatTranslationFromSchema` returns no translation object when the
`snat_translation` list is empty, and when its first block has type `TRANSPARENT`,
whatever else the block holds. -/
theorem getSnatTranslationFromSchema_transparent (d : ResourceData)
    (h : d.Get "snat_translation" = Value.list [] ∨
      ∃ data rest, d.Get "snat_translation" = Value.list (Value.map data :: rest) ∧
        index data "type" = Value.str "TRANSPARENT") :
    getSnatTranslationFromSchema d = .ok none := by
  rcases h with h | ⟨data, rest, h, ht⟩
  · exact getSnat_empty d h
  · exact getSnat_transparent d data rest h ht

/-- C2, at a `TRANSPARENT` block that also carries an ip and a port overload. -/
theorem getSnatTranslationFromSchema_transparent_witness :
    getSnatTranslationFromSchema (snatExampleData "TRANSPARENT") = .ok none :=
  getSnatTranslationFromSchema_transparent (snatExampleData "TRANSPARENT")
    (Or.inr ⟨[("type", .str "TRANSPARENT"), ("ip", .str "192.168.1.1"),
      ("port_overload", .int 8)], [], rfl, rfl⟩)

/-- C4 as stated fails: a `TRANSPARENT` block with ip `192.168.1.1` and port overload 8
maps to no translation object, the list written back holds only the type, and the
block read back has an empty ip and port overload 0. -/
theorem snat_round_trip_counterexample :
    getSnatTranslationFromSchema (snatExampleData "TRANSPARENT") = .ok none ∧
    snatTranslationList none = [[("type", Value.str "TRANSPARENT")]] ∧
    (setSnatTranslationInSchema (snatExampleData "TRANSPARENT") none).1.Get
        "snat_translation" =
      Value.list [SnatTranslationConf.toValue
        { type_ := "TRANSPARENT", ip := "", port_overload := 0 }] ∧
    (setSnatTranslationInSchema (snatExampleData "TRANSPARENT") none).1.Get
        "snat_translation" ≠
      Value.list [SnatTranslationConf.toValue
        { type_ := "TRANSPARENT", ip := "192.168.1.1", port_overload := 8 }] := by
  refine ⟨rfl, rfl, rfl, ?_⟩
  have h : (setSnatTranslationInSchema (snatExampleData "TRANSPARENT") none).1.Get
        "snat_translation" =
      Value.list [SnatTranslationConf.toValue
        { type_ := "TRANSPARENT", ip := "", port_overload := 0 }] := rfl
  rw [h]
  simp [SnatTranslationConf.toValue]

/-- C4, amended: for a block of type `TRANSPARENT`, `SNAT_IP_POOL` or `SNAT_AUTO_MAP`,
writing back the object made from the block succeeds and leaves a one-element list
with the block's type; the ip is the block's for `SNAT_IP_POOL` and empty otherwise;
the port overload is the block's for `SNAT_IP_POOL` and `SNAT_AUTO_MAP` and 0 for
`TRANSPARENT`. -/
theorem snat_round_trip (d : ResourceData) (b : SnatTranslationConf)
    (hs : d.schema.lookup "snat_translation" = some getSnatTranslationSchema)
    (hget : d.Get "snat_translation" = Value.list [b.toValue])
    (ht : b.type_ = "TRANSPARENT" ∨ b.type_ = "SNAT_IP_POOL" ∨ b.type_ = "SNAT_AUTO_MAP") :
    ∃ snat, getSnatTranslationFromSchema d = .ok snat ∧
      (setSnatTranslationInSchema d snat).2 = none ∧
      (setSnatTranslationInSchema d snat).1.Get "snat_translation" =
        Value.list [SnatTranslationConf.toValue
          { type_ := b.type_,
            ip := if b.type_ = "SNAT_IP_POOL" then b.ip else "",
            port_overload := if b.type_ = "TRANSPARENT" then 0 else b.port_overload }] := by
  rcases ht with ht | ht | ht
  · refine ⟨none, ?_, (ResourceData.Get_Set_same d _ _ _ hs).1, ?_⟩
    · exact getSnat_transparent d _ [] hget (by simp [ht, index, List.lookup])
    · rw [setSnatTranslationInSchema, (ResourceData.Get_Set_same d _ _ _ hs).2]
      simp [ht, SnatTranslationConf.toValue, snatTranslationList, getSnatTranslationSchema,
        readValue, readFields, assign, index, List.lookup, List.filter]
  · refine ⟨_, getSnat_ip_pool d b [] hget ht,
      (ResourceData.Get_Set_same d _ _ _ hs).1, ?_⟩
    rw [setSnatTranslationInSchema, (ResourceData.Get_Set_same d _ _ _ hs).2]
    simp [ht, SnatTranslationConf.toValue, snatTranslationList, getSnatTranslationSchema,
      readValue, readFields, assign, index, List.lookup, List.filter]
  · refine ⟨_, getSnat_auto_map d b [] hget (by simp [ht]) (by simp [ht]),
      (ResourceData.Get_Set_same d _ _ _ hs).1, ?_⟩
    rw [setSnatTranslationInSchema, (ResourceData.Get_Set_same d _ _ _ hs).2]
    simp [ht, SnatTranslationConf.toValue, snatTranslationList, getSnatTranslationSchema,
      readValue, readFields, assign, index, List.lookup, List.filter]

/-- C4 amended, at an `SNAT_IP_POOL` block: all three fields come back. -/
theorem snat_round_trip_witness :
    ∃ snat, getSnatTranslationFromSchema (snatExampleData "SNAT_IP_POOL") = .ok snat ∧
      (setSnatTranslationInSchema (snatExampleData "SNAT_IP_POOL") snat).2 = none ∧
      (setSnatTranslationInSchema (snatExampleData "SNAT_IP_POOL") snat).1.Get
          "snat_translation" =
        Value.list [SnatTranslationConf.toValue
          { type_ := "SNAT_IP_POOL", ip := "192.168.1.1", port_overload := 8 }] :=
  snat_round_trip (snatExampleData "SNAT_IP_POOL")
    { type_ := "SNAT_IP_POOL", ip := "192.168.1.1", port_overload := 8 } rfl rfl
    (Or.inr (Or.inl rfl))


/-- The member loop maps schema-conforming blocks one by one. -/
theorem getPoolMembersLoop_conf (c : List MemberConf) :
    getPoolMembersLoop (c.map MemberConf.toValue) = .ok (c.map MemberConf.toPoolMember) := by
  induction c with
  | nil => rfl
  | cons b rest ih =>
    simp [getPoolMembersLoop, ih, MemberConf.toValue, MemberConf.toPoolMember,
      Value.assertMap, Value.assertString, Value.assertBool, Value.assertInt, index,
      List.lookup, int64, bind, Except.bind, pure, Except.pure]

/-- The member list written by `setPoolMembersInSchema`, read through the schema of
`member`, is the list of blocks carrying the members. -/
theorem readValue_membersList (ms : List PoolMember) :
    readValue getPoolMembersSchema (Value.list ((membersList ms).map Value.map)) =
      Value.list ((ms.map MemberConf.ofPoolMember).map MemberConf.toValue) := by
  simp only [getPoolMembersSchema, readValue, List.map_map, Value.list.injEq]
  induction ms with
  | nil => rfl
  | cons m rest ih =>
    simp only [membersList, List.map_cons, List.cons.injEq]
    refine ⟨?_, ih⟩
    simp [readValue, readFields, MemberConf.toValue, MemberConf.ofPoolMember, assign, index,
      List.lookup, List.filter]

/-- Turning a member into a block and back gives the member. -/
theorem MemberConf.toPoolMember_ofPoolMember (m : PoolMember) :
    (MemberConf.ofPoolMember m).toPoolMember = m := rfl

/-- Turning a block into a member and back gives the block. -/
theorem MemberConf.ofPoolMember_toPoolMember (b : MemberConf) :
    MemberConf.ofPoolMember b.toPoolMember = b := rfl

/-- Members turned into blocks and back are the members. -/
theorem MemberConf.map_toPoolMember_ofPoolMember (ms : List PoolMember) :
    (ms.map MemberConf.ofPoolMember).map MemberConf.toPoolMember = ms := by
  induction ms with
  | nil => rfl
  | cons m rest ih => simpa [MemberConf.toPoolMember_ofPoolMember] using ih

/-- Blocks turned into members and back are the blocks. -/
theorem MemberConf.map_ofPoolMember_toPoolMember (c : List MemberConf) :
    (c.map MemberConf.toPoolMember).map MemberConf.ofPoolMember = c := by
  induction c with
  | nil => rfl
  | cons b rest ih => simpa [MemberConf.ofPoolMember_toPoolMember] using ih

/-- C5: `getPoolMembersFromSchema` maps the member list element by element: the result
has the length and the order of the list of blocks, and each pool member carries the
seven fields of its block. -/
theorem getPoolMembersFromSchema_maps (d : ResourceData) (c : List MemberConf)
    (h : d.Get "member" = Value.list (c.map MemberConf.toValue)) :
    getPoolMembersFromSchema d = .ok (c.map MemberConf.toPoolMember) ∧
    (c.map MemberConf.toPoolMember).length = c.length ∧
    ∀ i (hi : i < c.length) (hj : i < (c.map MemberConf.toPoolMember).length),
      ((c.map MemberConf.toPoolMember).get ⟨i, hj⟩).AdminState = (c.get ⟨i, hi⟩).admin_state ∧
      ((c.map MemberConf.toPoolMember).get ⟨i, hj⟩).BackupMember =
        (c.get ⟨i, hi⟩).backup_member ∧
      ((c.map MemberConf.toPoolMember).get ⟨i, hj⟩).DisplayName =
        (c.get ⟨i, hi⟩).display_name ∧
      ((c.map MemberConf.toPoolMember).get ⟨i, hj⟩).IpAddress = (c.get ⟨i, hi⟩).ip_address ∧
      ((c.map MemberConf.toPoolMember).get ⟨i, hj⟩).Port = (c.get ⟨i, hi⟩).port ∧
      ((c.map MemberConf.toPoolMember).get ⟨i, hj⟩).Weight = (c.get ⟨i, hi⟩).weight ∧
      ((c.map MemberConf.toPoolMember).get ⟨i, hj⟩).MaxConcurrentConnections =
        (c.get ⟨i, hi⟩).max_concurrent_connections := by
  refine ⟨?_, by simp, ?_⟩
  · simp [getPoolMembersFromSchema, h, Value.assertList, getPoolMembersLoop_conf, bind,
      Except.bind]
  · intro i hi hj
    simp [MemberConf.toPoolMember]

/-- C5, at the documented input: the member `10.0.0.5`, port `80`, weight 1, admin
state `ENABLED`. -/
theorem getPoolMembersFromSchema_maps_witness :
    getPoolMembersFromSchema memberExampleData =
      .ok [{ AdminState := "ENABLED", BackupMember := false, DisplayName := "",
             IpAddress := "10.0.0.5", Port := "80", Weight := 1,
             MaxConcurrentConnections := 0 }] :=
  (getPoolMembersFromSchema_maps memberExampleData
    [{ display_name := "", admin_state := "ENABLED", backup_member := false,
       ip_address := "10.0.0.5", max_concurrent_connections := 0, port := "80",
       weight := 1 }] rfl).1

/-- The documented scenario end to end: on the configuration with algorithm
`ROUND_ROBIN`, one member and no member group, `resourceNsxtLbPoolCreate` sends a
request with that one member and no member group. -/
theorem lbPoolCreate_member_scenario :
    ∃ r, resourceNsxtLbPoolCreate plainHelpers
        (constClient (some { StatusCode := 201 }) none) memberExampleData = .ok r ∧
      r.calls.head? = some (Call.CreateLoadBalancerPool
        { Id := "", Revision := 0, Description := "", DisplayName := "", Tags := [],
          ActiveMonitorIds := [], Algorithm := "ROUND_ROBIN", MinActiveMembers := 1,
          PassiveMonitorId := "", SnatTranslation := none, TcpMultiplexingEnabled := false,
          TcpMultiplexingNumber := 6,
          Members := [{ AdminState := "ENABLED", BackupMember := false, DisplayName := "",
                        IpAddress := "10.0.0.5", Port := "80", Weight := 1,
                        MaxConcurrentConnections := 0 }],
          MemberGroup := none }) :=
  ⟨_, rfl, rfl⟩

/-- C6: pool members convert without loss in both directions. Reading the members from
the state written by `setPoolMembersInSchema` gives back the members; writing the
members read from a list of blocks leaves that list of blocks in the state. -/
theorem pool_members_round_trip (d : ResourceData)
    (hs : d.schema.lookup "member" = some getPoolMembersSchema) :
    (∀ ms : List PoolMember,
      (setPoolMembersInSchema d ms).2 = none ∧
      getPoolMembersFromSchema (setPoolMembersInSchema d ms).1 = .ok ms) ∧
    (∀ c : List MemberConf, d.Get "member" = Value.list (c.map MemberConf.toValue) →
      ∃ ms, getPoolMembersFromSchema d = .ok ms ∧
        (setPoolMembersInSchema d ms).2 = none ∧
        (setPoolMembersInSchema d ms).1.Get "member" =
          Value.list (c.map MemberConf.toValue)) := by
  constructor
  · intro ms
    refine ⟨(ResourceData.Get_Set_same d _ _ _ hs).1, ?_⟩
    rw [getPoolMembersFromSchema, setPoolMembersInSchema,
      (ResourceData.Get_Set_same d _ _ _ hs).2, readValue_membersList]
    have hback := MemberConf.map_toPoolMember_ofPoolMember ms
    simp only [Value.assertList, bind, Except.bind]
    rw [getPoolMembersLoop_conf, hback]
  · intro c h
    refine ⟨c.map MemberConf.toPoolMember, ?_, (ResourceData.Get_Set_same d _ _ _ hs).1, ?_⟩
    · simp [getPoolMembersFromSchema, h, Value.assertList, getPoolMembersLoop_conf, bind,
        Except.bind]
    · rw [setPoolMembersInSchema, (ResourceData.Get_Set_same d _ _ _ hs).2,
        readValue_membersList]
      have hback := MemberConf.map_ofPoolMember_toPoolMember c
      rw [hback]

/-- C6, at the state holding the member `10.0.0.5:80`: the member is read, written back
and read again unchanged. -/
theorem pool_members_round_trip_witness :
    getPoolMembersFromSchema (setPoolMembersInSchema memberExampleData
        [{ AdminState := "ENABLED", BackupMember := false, DisplayName := "",
           IpAddress := "10.0.0.5", Port := "80", Weight := 1,
           MaxConcurrentConnections := 0 }]).1 =
      .ok [{ AdminState := "ENABLED", BackupMember := false, DisplayName := "",
             IpAddress := "10.0.0.5", Port := "80", Weight := 1,
             MaxConcurrentConnections := 0 }] :=
  ((pool_members_round_trip memberExampleData rfl).1 _).2


/-- Narrowing to `int32` keeps a value of the signed 32-bit range. -/
theorem int32_of_in_range (x : Int) (hlo : -2147483648 ≤ x) (hhi : x < 2147483648) :
    int32 x = x := by
  unfold int32
  omega

/-- An empty `member_group` list gives no member group. -/
theorem getPoolMemberGroup_empty (gsr : List Value → Option ResourceReference)
    (d : ResourceData) (h : d.Get "member_group" = Value.list []) :
    getPoolMemberGroupFromSchema gsr d = .ok none := by
  simp [getPoolMemberGroupFromSchema, h, Value.assertList, bind, Except.bind, pure,
    Except.pure]

/-- A non-empty `member_group` list gives the member group made from its first block. -/
theorem getPoolMemberGroup_first (gsr : List Value → Option ResourceReference)
    (d : ResourceData) (b : MemberGroupConf) (rest : List Value)
    (h : d.Get "member_group" = Value.list (b.toValue :: rest)) :
    getPoolMemberGroupFromSchema gsr d =
      .ok (some { GroupingObject := gsr b.grouping_object,
                  IpRevisionFilter := b.ip_version_filter,
                  MaxIpListSize :=
                    if b.limit_ip_list_size then some b.max_ip_list_size else none,
                  Port := int32 b.port }) := by
  cases hl : b.limit_ip_list_size <;>
    simp [getPoolMemberGroupFromSchema, h, hl, MemberGroupConf.toValue, Value.assertList,
      Value.assertMap, Value.assertString, Value.assertBool, Value.assertInt, index,
      List.lookup, int64, bind, Except.bind, pure, Except.pure]

/-- C7 as stated fails: a `member_group` block with port 2147483648 gives
`Port` -2147483648, the port narrowed to `int32`. -/
theorem member_group_port_counterexample :
    getPoolMemberGroupFromSchema (fun _ => none)
        (memberGroupExampleData false 0 2147483648) =
      .ok (some { GroupingObject := none, IpRevisionFilter := "IPV4",
                  MaxIpListSize := none, Port := -2147483648 }) ∧
    ∀ g, getPoolMemberGroupFromSchema (fun _ => none)
        (memberGroupExampleData false 0 2147483648) = .ok (some g) →
      g.Port ≠ 2147483648 := by
  have h : getPoolMemberGroupFromSchema (fun _ => none)
        (memberGroupExampleData false 0 2147483648) =
      .ok (some { GroupingObject := none, IpRevisionFilter := "IPV4",
                  MaxIpListSize := none, Port := -2147483648 }) := by
    rw [getPoolMemberGroup_first (fun _ => none) (memberGroupExampleData false 0 2147483648)
      { grouping_object := [], ip_version_filter := "IPV4", limit_ip_list_size := false,
        max_ip_list_size := 0, port := 2147483648 } [] rfl]
    simp [int32]
  refine ⟨h, ?_⟩
  intro g hg
  rw [h] at hg
  cases hg
  decide

/-- C7, amended: `getPoolMemberGroupFromSchema` returns no member group exactly when
the `member_group` list is empty. For a non-empty list the result is made from the
first block alone: the filter is `ip_version_filter`, the port is `port` narrowed to
`int32` (the port itself when it lies in the signed 32-bit range), and the list size is
present exactly when `limit_ip_list_size` is true, then equal to `max_ip_list_size`. -/
theorem getPoolMemberGroupFromSchema_first_block
    (gsr : List Value → Option ResourceReference) (d : ResourceData)
    (c : List MemberGroupConf)
    (h : d.Get "member_group" = Value.list (c.map MemberGroupConf.toValue)) :
    (getPoolMemberGroupFromSchema gsr d = .ok none ↔ c = []) ∧
    ∀ b rest, c = b :: rest →
      getPoolMemberGroupFromSchema gsr d =
        .ok (some { GroupingObject := gsr b.grouping_object,
                    IpRevisionFilter := b.ip_version_filter,
                    MaxIpListSize :=
                      if b.limit_ip_list_size then some b.max_ip_list_size else none,
                    Port := int32 b.port }) ∧
      (-2147483648 ≤ b.port → b.port < 2147483648 → int32 b.port = b.port) := by
  cases c with
  | nil =>
    refine ⟨⟨fun _ => rfl, fun _ => getPoolMemberGroup_empty gsr d h⟩, ?_⟩
    intro b rest hc
    cases hc
  | cons b rest =>
    have hfirst := getPoolMemberGroup_first gsr d b (rest.map MemberGroupConf.toValue) h
    refine ⟨⟨fun hn => ?_, fun hc => ?_⟩, ?_⟩
    · rw [hfirst] at hn
      cases hn
    · cases hc
    · intro b2 rest2 hc
      cases hc
      exact ⟨hfirst, int32_of_in_range b.port⟩

/-- C7 amended, at a block with port 80 and a list limited to 5 addresses. -/
theorem getPoolMemberGroupFromSchema_first_block_witness :
    getPoolMemberGroupFromSchema (fun _ => none) (memberGroupExampleData true 5 80) =
      .ok (some { GroupingObject := none, IpRevisionFilter := "IPV4",
                  MaxIpListSize := some 5, Port := int32 80 }) ∧
    int32 80 = 80 :=
  ⟨((getPoolMemberGroupFromSchema_first_block (fun _ => none)
      (memberGroupExampleData true 5 80)
      [{ grouping_object := [], ip_version_filter := "IPV4", limit_ip_list_size := true,
         max_ip_list_size := 5, port := 80 }] rfl).2 _ _ rfl).1,
   ((getPoolMemberGroupFromSchema_first_block (fun _ => none)
      (memberGroupExampleData true 5 80)
      [{ grouping_object := [], ip_version_filter := "IPV4", limit_ip_list_size := true,
         max_ip_list_size := 5, port := 80 }] rfl).2 _ _ rfl).2 (by decide) (by decide)⟩


/-- An integer attribute is always handed out as a Go `int`. -/
theorem assertInt_readValue (v : Value) :
    ∃ i, (readValue Schema.TypeInt v).assertInt = .ok i := by
  cases v <;> simp [readValue, Value.assertInt]

/-- A string attribute is always handed out as a string. -/
theorem assertString_readValue (v : Value) :
    ∃ x, (readValue Schema.TypeString v).assertString = .ok x := by
  cases v <;> simp [readValue, Value.assertString]

/-- A boolean attribute is always handed out as a bool. -/
theorem assertBool_readValue (v : Value) :
    ∃ b, (readValue Schema.TypeBool v).assertBool = .ok b := by
  cases v <;> simp [readValue, Value.assertBool]

/-- A set attribute is always handed out as a set. -/
theorem assertSetList_readValue (e : Schema) (v : Value) :
    ∃ xs, (readValue (Schema.TypeSet e) v).assertSetList = .ok xs := by
  cases v <;> simp [readValue, Value.assertSetList]

/-- A list attribute is always handed out as a list. -/
theorem assertList_readValue (e : Schema) (v : Value) :
    ∃ xs, (readValue (Schema.TypeList e) v).assertList = .ok xs := by
  cases v <;> simp [readValue, Value.assertList]

/-- What is handed out for a string field is a string. -/
theorem readValue_string (v : Value) : ∃ x, readValue Schema.TypeString v = Value.str x := by
  cases v <;> simp [readValue]

/-- What is handed out for an integer field is a Go `int`. -/
theorem readValue_int (v : Value) : ∃ i, readValue Schema.TypeInt v = Value.int i := by
  cases v <;> simp [readValue]

/-- What is handed out for a boolean field is a bool. -/
theorem readValue_bool (v : Value) : ∃ b, readValue Schema.TypeBool v = Value.bool b := by
  cases v <;> simp [readValue]

/-- What is handed out for a list field is a list. -/
theorem readValue_list (e : Schema) (v : Value) :
    ∃ xs, readValue (Schema.TypeList e) v = Value.list xs := by
  cases v <;> simp [readValue]

/-- What is handed out for a list of nested resources is the list of what is handed
out for its elements. -/
theorem readValue_list_resource (fs : List (String × Schema)) (v : Value) :
    ∃ xs : List Value, readValue (Schema.TypeList (Schema.Resource fs)) v =
      Value.list (xs.map (readValue (Schema.Resource fs))) := by
  cases v with
  | list xs => exact ⟨xs, by simp [readValue]⟩
  | _ => exact ⟨[], by simp [readValue]⟩

/-- What is handed out for a nested resource is the map of its declared fields. -/
theorem readValue_resource (fs : List (String × Schema)) (v : Value) :
    ∃ kvs, readValue (Schema.Resource fs) v = Value.map (readFields fs kvs) := by
  cases v with
  | map kvs => exact ⟨kvs, by simp [readValue]⟩
  | _ => exact ⟨[], by simp [readValue]⟩

/-- What is handed out for `member` is a list of member blocks. -/
theorem readValue_members_conf (v : Value) :
    ∃ c : List MemberConf, readValue getPoolMembersSchema v =
      Value.list (c.map MemberConf.toValue) := by
  obtain ⟨xs, hxs⟩ := readValue_list_resource _ v
  rw [getPoolMembersSchema, hxs]
  clear hxs
  induction xs with
  | nil => exact ⟨[], rfl⟩
  | cons x rest ih =>
    obtain ⟨c, hc⟩ := ih
    obtain ⟨kvs, hk⟩ := readValue_resource _ x
    obtain ⟨a1, h1⟩ := readValue_string (index kvs "display_name")
    obtain ⟨a2, h2⟩ := readValue_string (index kvs "admin_state")
    obtain ⟨a3, h3⟩ := readValue_bool (index kvs "backup_member")
    obtain ⟨a4, h4⟩ := readValue_string (index kvs "ip_address")
    obtain ⟨a5, h5⟩ := readValue_int (index kvs "max_concurrent_connections")
    obtain ⟨a6, h6⟩ := readValue_string (index kvs "port")
    obtain ⟨a7, h7⟩ := readValue_int (index kvs "weight")
    refine ⟨{ display_name := a1, admin_state := a2, backup_member := a3, ip_address := a4,
              max_concurrent_connections := a5, port := a6, weight := a7 } :: c, ?_⟩
    simp only [List.map_cons, Value.list.injEq, List.cons.injEq] at hc ⊢
    refine ⟨?_, hc⟩
    rw [hk]
    simp [readFields, h1, h2, h3, h4, h5, h6, h7, MemberConf.toValue]

/-- What is handed out for `member_group` is a list of member group blocks, when
`grouping_object` is declared as a list. -/
theorem readValue_member_group_conf (e : Schema) (v : Value) :
    ∃ c : List MemberGroupConf,
      readValue (getPoolMemberGroupSchema (Schema.TypeList e)) v =
        Value.list (c.map MemberGroupConf.toValue) := by
  obtain ⟨xs, hxs⟩ := readValue_list_resource _ v
  rw [getPoolMemberGroupSchema, hxs]
  clear hxs
  induction xs with
  | nil => exact ⟨[], rfl⟩
  | cons x rest ih =>
    obtain ⟨c, hc⟩ := ih
    obtain ⟨kvs, hk⟩ := readValue_resource _ x
    obtain ⟨a1, h1⟩ := readValue_list e (index kvs "grouping_object")
    obtain ⟨a2, h2⟩ := readValue_string (index kvs "ip_version_filter")
    obtain ⟨a3, h3⟩ := readValue_bool (index kvs "limit_ip_list_size")
    obtain ⟨a4, h4⟩ := readValue_int (index kvs "max_ip_list_size")
    obtain ⟨a5, h5⟩ := readValue_int (index kvs "port")
    refine ⟨{ grouping_object := a1, ip_version_filter := a2, limit_ip_list_size := a3,
              max_ip_list_size := a4, port := a5 } :: c, ?_⟩
    simp only [List.map_cons, Value.list.injEq, List.cons.injEq] at hc ⊢
    refine ⟨?_, hc⟩
    rw [hk]
    simp [readFields, h1, h2, h3, h4, h5, MemberGroupConf.toValue]

/-- What is handed out for `snat_translation` is a list of translation blocks. -/
theorem readValue_snat_conf (v : Value) :
    ∃ c : List SnatTranslationConf, readValue getSnatTranslationSchema v =
      Value.list (c.map SnatTranslationConf.toValue) := by
  obtain ⟨xs, hxs⟩ := readValue_list_resource _ v
  rw [getSnatTranslationSchema, hxs]
  clear hxs
  induction xs with
  | nil => exact ⟨[], rfl⟩
  | cons x rest ih =>
    obtain ⟨c, hc⟩ := ih
    obtain ⟨kvs, hk⟩ := readValue_resource _ x
    obtain ⟨a1, h1⟩ := readValue_string (index kvs "type")
    obtain ⟨a2, h2⟩ := readValue_string (index kvs "ip")
    obtain ⟨a3, h3⟩ := readValue_int (index kvs "port_overload")
    refine ⟨{ type_ := a1, ip := a2, port_overload := a3 } :: c, ?_⟩
    simp only [List.map_cons, Value.list.injEq, List.cons.injEq] at hc ⊢
    refine ⟨?_, hc⟩
    rw [hk]
    simp [readFields, h1, h2, h3, SnatTranslationConf.toValue]

/-- On a pool state the member list is read without a failed assertion. -/
theorem getPoolMembersFromSchema_total (d : ResourceData) (g : Schema)
    (hs : d.schema = resourceNsxtLbPoolSchema g) :
    ∃ ms, getPoolMembersFromSchema d = .ok ms := by
  obtain ⟨c, hc⟩ := readValue_members_conf (index d.attrs "member")
  have hget : d.Get "member" = Value.list (c.map MemberConf.toValue) := by
    simp [ResourceData.Get, hs, resourceNsxtLbPoolSchema, List.lookup, hc]
  exact ⟨c.map MemberConf.toPoolMember, by simp [getPoolMembersFromSchema, hget,
    Value.assertList, getPoolMembersLoop_conf, bind, Except.bind]⟩

/-- On a pool state the member group is read without a failed assertion. -/
theorem getPoolMemberGroupFromSchema_total (gsr : List Value → Option ResourceReference)
    (d : ResourceData) (e : Schema)
    (hs : d.schema = resourceNsxtLbPoolSchema (Schema.TypeList e)) :
    ∃ g, getPoolMemberGroupFromSchema gsr d = .ok g := by
  obtain ⟨c, hc⟩ := readValue_member_group_conf e (index d.attrs "member_group")
  have hget : d.Get "member_group" = Value.list (c.map MemberGroupConf.toValue) := by
    simp [ResourceData.Get, hs, resourceNsxtLbPoolSchema, List.lookup, hc]
  cases c with
  | nil => exact ⟨_, getPoolMemberGroup_empty gsr d hget⟩
  | cons b rest => exact ⟨_, getPoolMemberGroup_first gsr d b _ hget⟩

/-- On a pool state the SNAT translation is read without a failed assertion. -/
theorem getSnatTranslationFromSchema_total (d : ResourceData) (g : Schema)
    (hs : d.schema = resourceNsxtLbPoolSchema g) :
    ∃ snat, getSnatTranslationFromSchema d = .ok snat := by
  obtain ⟨c, hc⟩ := readValue_snat_conf (index d.attrs "snat_translation")
  have hget : d.Get "snat_translation" = Value.list (c.map SnatTranslationConf.toValue) := by
    simp [ResourceData.Get, hs, resourceNsxtLbPoolSchema, List.lookup, hc]
  cases c with
  | nil => exact ⟨_, getSnat_empty d hget⟩
  | cons b rest =>
    by_cases ht : b.type_ = "TRANSPARENT"
    · exact ⟨_, getSnat_transparent d _ _ hget (by simp [ht, index, List.lookup])⟩
    · by_cases hp : b.type_ = "SNAT_IP_POOL"
      · exact ⟨_, getSnat_ip_pool d b _ hget hp⟩
      · exact ⟨_, getSnat_auto_map d b _ hget ht hp⟩

/-- On a pool state the active monitor ids are read without a failed assertion. -/
theorem getActiveMonitorIdsFromSchema_total (d : ResourceData) (g : Schema)
    (hs : d.schema = resourceNsxtLbPoolSchema g) :
    ∃ ids, getActiveMonitorIdsFromSchema d = .ok ids := by
  obtain ⟨x, hx⟩ := readValue_string (index d.attrs "active_monitor_id")
  by_cases he : x = ""
  · exact ⟨[], by simp [getActiveMonitorIdsFromSchema, ResourceData.Get, hs,
      resourceNsxtLbPoolSchema, List.lookup, hx, he, Value.assertString, bind, Except.bind,
      pure, Except.pure]⟩
  · exact ⟨[x], by simp [getActiveMonitorIdsFromSchema, ResourceData.Get, hs,
      resourceNsxtLbPoolSchema, List.lookup, hx, he, Value.assertString, bind, Except.bind,
      pure, Except.pure]⟩

/-- An update of a pool answered with status 404 returns an error after the one update
call and leaves the state as it was. -/
theorem lbPoolUpdate_not_found (h : Helpers) (c : APIClient) (d : ResourceData) (e : Schema)
    (hs : d.schema = resourceNsxtLbPoolSchema (Schema.TypeList e)) (hid : d.id ≠ "")
    (hc : ∀ req, (c.UpdateLoadBalancerPool d.id req).2.1 = some { StatusCode := 404 }) :
    ∃ req msg, resourceNsxtLbPoolUpdate h c d =
      .ok { d := d, err := some msg, calls := [Call.UpdateLoadBalancerPool d.id req] } := by
  obtain ⟨rev, hrev⟩ := assertInt_readValue (index d.attrs "revision")
  obtain ⟨desc, hdesc⟩ := assertString_readValue (index d.attrs "description")
  obtain ⟨name, hname⟩ := assertString_readValue (index d.attrs "display_name")
  obtain ⟨ids, hids⟩ := getActiveMonitorIdsFromSchema_total d _ hs
  obtain ⟨pas, hpas⟩ := assertString_readValue (index d.attrs "passive_monitor_id")
  obtain ⟨alg, halg⟩ := assertString_readValue (index d.attrs "algorithm")
  obtain ⟨ms, hms⟩ := getPoolMembersFromSchema_total d _ hs
  obtain ⟨mg, hmg⟩ := getPoolMemberGroupFromSchema_total h.getSingleResourceReference d e hs
  obtain ⟨mam, hmam⟩ := assertInt_readValue (index d.attrs "min_active_members")
  obtain ⟨snat, hsnat⟩ := getSnatTranslationFromSchema_total d _ hs
  obtain ⟨tme, htme⟩ := assertBool_readValue (index d.attrs "tcp_multiplexing_enabled")
  obtain ⟨tmn, htmn⟩ := assertInt_readValue (index d.attrs "tcp_multiplexing_number")
  have hcall := hc (LbPool.mk "" (int32 rev) desc name (h.getTagsFromSchema d) ids alg
    (int64 mam) pas snat tme (int64 tmn) ms mg)
  rcases hres : c.UpdateLoadBalancerPool d.id (LbPool.mk "" (int32 rev) desc name
    (h.getTagsFromSchema d) ids alg (int64 mam) pas snat tme (int64 tmn) ms mg)
    with ⟨obj, resp, err⟩
  rw [hres] at hcall
  simp only at hcall
  subst hcall
  refine ⟨LbPool.mk "" (int32 rev) desc name (h.getTagsFromSchema d) ids alg
    (int64 mam) pas snat tme (int64 tmn) ms mg,
    "Error during LbPool update: " ++ fmtErr err, ?_⟩
  cases err <;>
    simp [resourceNsxtLbPoolUpdate, ResourceData.Id, ResourceData.Get, hs, hid,
      resourceNsxtLbPoolSchema, GetRevisionSchema, List.lookup, hrev, hdesc, hname, hids,
      hpas, halg, hms, hmg, hmam, hsnat, htme, htmn, hres, StatusNotFound, bind,
      Except.bind, pure, Except.pure]

/-- An update of an IP set answered with status 404 returns an error after the one
update call and leaves the state as it was. -/
theorem ipSetUpdate_not_found (h : Helpers) (c : APIClient) (d : ResourceData)
    (hs : d.schema = resourceNsxtIPSetSchema) (hid : d.id ≠ "")
    (hc : ∀ req, (c.UpdateIPSet d.id req).2.1 = some { StatusCode := 404 }) :
    ∃ req msg, resourceNsxtIPSetUpdate h c d =
      .ok { d := d, err := some msg, calls := [Call.UpdateIPSet d.id req] } := by
  obtain ⟨rev, hrev⟩ := assertInt_readValue (index d.attrs "revision")
  obtain ⟨desc, hdesc⟩ := assertString_readValue (index d.attrs "description")
  obtain ⟨name, hname⟩ := assertString_readValue (index d.attrs "display_name")
  obtain ⟨ips, hips⟩ := assertSetList_readValue Schema.TypeString (index d.attrs "ip_addresses")
  have hcall := hc (IpSet.mk "" (int64 rev) desc name (h.getTagsFromSchema d)
    (Interface2StringList ips))
  rcases hres : c.UpdateIPSet d.id (IpSet.mk "" (int64 rev) desc name (h.getTagsFromSchema d)
    (Interface2StringList ips)) with ⟨obj, resp, err⟩
  rw [hres] at hcall
  simp only at hcall
  subst hcall
  refine ⟨IpSet.mk "" (int64 rev) desc name (h.getTagsFromSchema d)
    (Interface2StringList ips), "Error during IpSet update: " ++ fmtErr err, ?_⟩
  cases err <;>
    simp [resourceNsxtIPSetUpdate, ResourceData.Id, ResourceData.Get, hs, hid,
      resourceNsxtIPSetSchema, GetRevisionSchema, List.lookup, hrev, hdesc, hname, hips,
      hres, StatusNotFound, bind, Except.bind, pure, Except.pure]


/-- An update of a fast TCP profile answered with status 404 returns an error after the
one update call and leaves the state as it was. -/
theorem lbFastTcpUpdate_not_found (h : Helpers) (c : APIClient) (d : ResourceData)
    (hs : d.schema = resourceNsxtLbFastTCPApplicationProfileSchema) (hid : d.id ≠ "")
    (hc : ∀ req,
      (c.UpdateLoadBalancerFastTcpProfile d.id req).2.1 = some { StatusCode := 404 }) :
    ∃ req msg, resourceNsxtLbFastTCPApplicationProfileUpdate h c d =
      .ok { d := d, err := some msg,
            calls := [Call.UpdateLoadBalancerFastTcpProfile d.id req] } := by
  obtain ⟨rev, hrev⟩ := assertInt_readValue (index d.attrs "revision")
  obtain ⟨desc, hdesc⟩ := assertString_readValue (index d.attrs "description")
  obtain ⟨name, hname⟩ := assertString_readValue (index d.attrs "display_name")
  obtain ⟨ct, hct⟩ := assertInt_readValue (index d.attrs "close_timeout")
  obtain ⟨ha, hha⟩ := assertBool_readValue (index d.attrs "ha_flow_mirroring")
  obtain ⟨it, hit⟩ := assertInt_readValue (index d.attrs "idle_timeout")
  have hcall := hc (LbFastTcpProfile.mk "" (int32 rev) desc name (h.getTagsFromSchema d)
    (int64 ct) ha (int64 it))
  rcases hres : c.UpdateLoadBalancerFastTcpProfile d.id (LbFastTcpProfile.mk "" (int32 rev)
    desc name (h.getTagsFromSchema d) (int64 ct) ha (int64 it)) with ⟨obj, resp, err⟩
  rw [hres] at hcall
  simp only at hcall
  subst hcall
  refine ⟨LbFastTcpProfile.mk "" (int32 rev) desc name (h.getTagsFromSchema d)
    (int64 ct) ha (int64 it), "Error during LbFastTcpProfile update: " ++ fmtErr err, ?_⟩
  cases err <;>
    simp [resourceNsxtLbFastTCPApplicationProfileUpdate, ResourceData.Id, ResourceData.Get,
      hs, hid, resourceNsxtLbFastTCPApplicationProfileSchema, GetRevisionSchema, List.lookup,
      hrev, hdesc, hname, hct, hha, hit, hres, StatusNotFound, bind, Except.bind, pure,
      Except.pure]

/-- An update of an ICMP service answered with status 404 returns an error after the one
update call and leaves the state as it was. -/
theorem icmpUpdate_not_found (h : Helpers) (c : APIClient) (d : ResourceData)
    (hs : d.schema = resourceNsxtIcmpTypeNsServiceSchema) (hid : d.id ≠ "")
    (hc : ∀ req, (c.UpdateIcmpTypeNSService d.id req).2.1 = some { StatusCode := 404 }) :
    ∃ req msg, resourceNsxtIcmpTypeNsServiceUpdate h c d =
      .ok { d := d, err := some msg, calls := [Call.UpdateIcmpTypeNSService d.id req] } := by
  obtain ⟨desc, hdesc⟩ := assertString_readValue (index d.attrs "description")
  obtain ⟨name, hname⟩ := assertString_readValue (index d.attrs "display_name")
  obtain ⟨ds, hds⟩ := assertBool_readValue (index d.attrs "default_service")
  obtain ⟨ic, hic⟩ := assertInt_readValue (index d.attrs "icmp_code")
  obtain ⟨it, hit⟩ := assertInt_readValue (index d.attrs "icmp_type")
  obtain ⟨pr, hpr⟩ := assertString_readValue (index d.attrs "protocol")
  obtain ⟨rev, hrev⟩ := assertInt_readValue (index d.attrs "revision")
  have hcall := hc (IcmpTypeNsService.mk
    (NsService.mk "" (int64 rev) desc name (h.getTagsFromSchema d) ds)
    (IcmpTypeNsServiceEntry.mk "ICMPTypeNSService" (int64 ic) (int64 it) pr))
  rcases hres : c.UpdateIcmpTypeNSService d.id (IcmpTypeNsService.mk
    (NsService.mk "" (int64 rev) desc name (h.getTagsFromSchema d) ds)
    (IcmpTypeNsServiceEntry.mk "ICMPTypeNSService" (int64 ic) (int64 it) pr))
    with ⟨obj, resp, err⟩
  rw [hres] at hcall
  simp only at hcall
  subst hcall
  refine ⟨IcmpTypeNsService.mk
    (NsService.mk "" (int64 rev) desc name (h.getTagsFromSchema d) ds)
    (IcmpTypeNsServiceEntry.mk "ICMPTypeNSService" (int64 ic) (int64 it) pr),
    "Error during NsService update: " ++ fmtErr err ++ " " ++
      fmtResp (some { StatusCode := 404 }), ?_⟩
  cases err <;>
    simp [resourceNsxtIcmpTypeNsServiceUpdate, ResourceData.Id, ResourceData.Get, hs, hid,
      resourceNsxtIcmpTypeNsServiceSchema, GetRevisionSchema, List.lookup, hrev, hdesc,
      hname, hds, hic, hit, hpr, hres, StatusNotFound, bind, Except.bind, pure, Except.pure]


/-- The read handlers of the IP set, the pool and the fast TCP profile return an error
and keep the state whenever the client returns an error, whatever the status. -/
theorem reads_error_first (h : Helpers) (c : APIClient) (d : ResourceData) (e : String)
    (hid : d.id ≠ "") :
    ((c.ReadIPSet d.id).2.2 = some e →
      resourceNsxtIPSetRead h c d =
        .ok { d := d, err := some ("Error during IpSet read: " ++ e),
              calls := [Call.ReadIPSet d.id] }) ∧
    ((c.ReadLoadBalancerPool d.id).2.2 = some e →
      resourceNsxtLbPoolRead h c d =
        .ok { d := d, err := some ("Error during LbPool read: " ++ e),
              calls := [Call.ReadLoadBalancerPool d.id] }) ∧
    ((c.ReadLoadBalancerFastTcpProfile d.id).2.2 = some e →
      resourceNsxtLbFastTCPApplicationProfileRead h c d =
        .ok { d := d, err := some ("Error during LbFastTcpProfile read: " ++ e),
              calls := [Call.ReadLoadBalancerFastTcpProfile d.id] }) := by
  refine ⟨?_, ?_, ?_⟩
  · intro he
    rcases hres : c.ReadIPSet d.id with ⟨obj, resp, err⟩
    rw [hres] at he
    simp only at he
    subst he
    simp [resourceNsxtIPSetRead, ResourceData.Id, hid, hres, pure, Except.pure]
  · intro he
    rcases hres : c.ReadLoadBalancerPool d.id with ⟨obj, resp, err⟩
    rw [hres] at he
    simp only at he
    subst he
    simp [resourceNsxtLbPoolRead, ResourceData.Id, hid, hres, pure, Except.pure]
  · intro he
    rcases hres : c.ReadLoadBalancerFastTcpProfile d.id with ⟨obj, resp, err⟩
    rw [hres] at he
    simp only at he
    subst he
    simp [resourceNsxtLbFastTCPApplicationProfileRead, ResourceData.Id, hid, hres, pure,
      Except.pure]

/-- A read answered with status 404 returns success and clears the identifier: for the
ICMP service whatever error comes with the status, for the other three resources when
no error comes with it. -/
theorem reads_not_found (h : Helpers) (c : APIClient) (d : ResourceData) (hid : d.id ≠ "") :
    ((c.ReadIcmpTypeNSService d.id).2.1 = some { StatusCode := 404 } →
      resourceNsxtIcmpTypeNsServiceRead h c d =
        .ok { d := d.SetId "", err := none, calls := [Call.ReadIcmpTypeNSService d.id] }) ∧
    ((c.ReadIPSet d.id).2 = (some { StatusCode := 404 }, none) →
      resourceNsxtIPSetRead h c d =
        .ok { d := d.SetId "", err := none, calls := [Call.ReadIPSet d.id] }) ∧
    ((c.ReadLoadBalancerPool d.id).2 = (some { StatusCode := 404 }, none) →
      resourceNsxtLbPoolRead h c d =
        .ok { d := d.SetId "", err := none, calls := [Call.ReadLoadBalancerPool d.id] }) ∧
    ((c.ReadLoadBalancerFastTcpProfile d.id).2 = (some { StatusCode := 404 }, none) →
      resourceNsxtLbFastTCPApplicationProfileRead h c d =
        .ok { d := d.SetId "", err := none,
              calls := [Call.ReadLoadBalancerFastTcpProfile d.id] }) := by
  refine ⟨?_, ?_, ?_, ?_⟩
  · intro he
    rcases hres : c.ReadIcmpTypeNSService d.id with ⟨obj, resp, err⟩
    rw [hres] at he
    simp only at he
    subst he
    simp [resourceNsxtIcmpTypeNsServiceRead, ResourceData.Id, hid, hres, StatusNotFound,
      pure, Except.pure]
  · intro he
    rcases hres : c.ReadIPSet d.id with ⟨obj, resp, err⟩
    rw [hres] at he
    simp only [Prod.mk.injEq] at he
    obtain ⟨h1, h2⟩ := he
    subst h1 h2
    simp [resourceNsxtIPSetRead, ResourceData.Id, hid, hres, StatusNotFound, pure,
      Except.pure]
  · intro he
    rcases hres : c.ReadLoadBalancerPool d.id with ⟨obj, resp, err⟩
    rw [hres] at he
    simp only [Prod.mk.injEq] at he
    obtain ⟨h1, h2⟩ := he
    subst h1 h2
    simp [resourceNsxtLbPoolRead, ResourceData.Id, hid, hres, StatusNotFound, pure,
      Except.pure]
  · intro he
    rcases hres : c.ReadLoadBalancerFastTcpProfile d.id with ⟨obj, resp, err⟩
    rw [hres] at he
    simp only [Prod.mk.injEq] at he
    obtain ⟨h1, h2⟩ := he
    subst h1 h2
    simp [resourceNsxtLbFastTCPApplicationProfileRead, ResourceData.Id, hid, hres,
      StatusNotFound, pure, Except.pure]

/-- C8, the failing input: with a client that reports status 404 together with an
error, the read handlers of the IP set, the pool and the fast TCP profile return an
error and keep the identifier; only the read handler of the ICMP service, which looks
at the status first, returns success and clears the identifier. -/
theorem read_not_found_with_error :
    resourceNsxtIPSetRead plainHelpers notFoundClient
        (stateOf resourceNsxtIPSetSchema "id-1") =
      .ok { d := stateOf resourceNsxtIPSetSchema "id-1",
            err := some "Error during IpSet read: 404 Not Found",
            calls := [Call.ReadIPSet "id-1"] } ∧
    resourceNsxtLbPoolRead plainHelpers notFoundClient
        (stateOf (resourceNsxtLbPoolSchema GetResourceReferencesSchema) "id-1") =
      .ok { d := stateOf (resourceNsxtLbPoolSchema GetResourceReferencesSchema) "id-1",
            err := some "Error during LbPool read: 404 Not Found",
            calls := [Call.ReadLoadBalancerPool "id-1"] } ∧
    resourceNsxtLbFastTCPApplicationProfileRead plainHelpers notFoundClient
        (stateOf resourceNsxtLbFastTCPApplicationProfileSchema "id-1") =
      .ok { d := stateOf resourceNsxtLbFastTCPApplicationProfileSchema "id-1",
            err := some "Error during LbFastTcpProfile read: 404 Not Found",
            calls := [Call.ReadLoadBalancerFastTcpProfile "id-1"] } ∧
    resourceNsxtIcmpTypeNsServiceRead plainHelpers notFoundClient
        (stateOf resourceNsxtIcmpTypeNsServiceSchema "id-1") =
      .ok { d := stateOf resourceNsxtIcmpTypeNsServiceSchema "",
            err := none,
            calls := [Call.ReadIcmpTypeNSService "id-1"] } :=
  ⟨rfl, rfl, rfl, rfl⟩

/-- Each delete handler returns an error and keeps the state whenever the client
returns an error, whatever the status. -/
theorem deletes_error_first (c : APIClient) (d : ResourceData) (e : String)
    (hid : d.id ≠ "") :
    ((c.DeleteIPSet d.id []).2 = some e →
      resourceNsxtIPSetDelete c d =
        .ok { d := d, err := some ("Error during IpSet delete: " ++ e),
              calls := [Call.DeleteIPSet d.id []] }) ∧
    ((c.DeleteLoadBalancerPool d.id).2 = some e →
      resourceNsxtLbPoolDelete c d =
        .ok { d := d, err := some ("Error during LbPool delete: " ++ e),
              calls := [Call.DeleteLoadBalancerPool d.id] }) ∧
    ((c.DeleteLoadBalancerApplicationProfile d.id).2 = some e →
      resourceNsxtLbFastTCPApplicationProfileDelete c d =
        .ok { d := d, err := some ("Error during LbFastTcpProfile delete: " ++ e),
              calls := [Call.DeleteLoadBalancerApplicationProfile d.id] }) ∧
    ((c.DeleteNSService d.id []).2 = some e →
      resourceNsxtIcmpTypeNsServiceDelete c d =
        .ok { d := d, err := some ("Error during NsService delete: " ++ e),
              calls := [Call.DeleteNSService d.id []] }) := by
  refine ⟨?_, ?_, ?_, ?_⟩
  · intro he
    rcases hres : c.DeleteIPSet d.id [] with ⟨resp, err⟩
    rw [hres] at he
    simp only at he
    subst he
    simp [resourceNsxtIPSetDelete, ResourceData.Id, hid, hres, pure, Except.pure]
  · intro he
    rcases hres : c.DeleteLoadBalancerPool d.id with ⟨resp, err⟩
    rw [hres] at he
    simp only at he
    subst he
    simp [resourceNsxtLbPoolDelete, ResourceData.Id, hid, hres, pure, Except.pure]
  · intro he
    rcases hres : c.DeleteLoadBalancerApplicationProfile d.id with ⟨resp, err⟩
    rw [hres] at he
    simp only at he
    subst he
    simp [resourceNsxtLbFastTCPApplicationProfileDelete, ResourceData.Id, hid, hres, pure,
      Except.pure]
  · intro he
    rcases hres : c.DeleteNSService d.id [] with ⟨resp, err⟩
    rw [hres] at he
    simp only at he
    subst he
    simp [resourceNsxtIcmpTypeNsServiceDelete, ResourceData.Id, hid, hres, pure,
      Except.pure]

/-- A delete answered with status 404 and no error returns success and clears the
identifier, for each of the four resources. -/
theorem deletes_not_found (c : APIClient) (d : ResourceData) (hid : d.id ≠ "") :
    (c.DeleteIPSet d.id [] = (some { StatusCode := 404 }, none) →
      resourceNsxtIPSetDelete c d =
        .ok { d := d.SetId "", err := none, calls := [Call.DeleteIPSet d.id []] }) ∧
    (c.DeleteLoadBalancerPool d.id = (some { StatusCode := 404 }, none) →
      resourceNsxtLbPoolDelete c d =
        .ok { d := d.SetId "", err := none, calls := [Call.DeleteLoadBalancerPool d.id] }) ∧
    (c.DeleteLoadBalancerApplicationProfile d.id = (some { StatusCode := 404 }, none) →
      resourceNsxtLbFastTCPApplicationProfileDelete c d =
        .ok { d := d.SetId "", err := none,
              calls := [Call.DeleteLoadBalancerApplicationProfile d.id] }) ∧
    (c.DeleteNSService d.id [] = (some { StatusCode := 404 }, none) →
      resourceNsxtIcmpTypeNsServiceDelete c d =
        .ok { d := d.SetId "", err := none, calls := [Call.DeleteNSService d.id []] }) := by
  refine ⟨?_, ?_, ?_, ?_⟩
  · intro hres
    simp [resourceNsxtIPSetDelete, ResourceData.Id, hid, hres, StatusNotFound, pure,
      Except.pure]
  · intro hres
    simp [resourceNsxtLbPoolDelete, ResourceData.Id, hid, hres, StatusNotFound, pure,
      Except.pure]
  · intro hres
    simp [resourceNsxtLbFastTCPApplicationProfileDelete, ResourceData.Id, hid, hres,
      StatusNotFound, pure, Except.pure]
  · intro hres
    simp [resourceNsxtIcmpTypeNsServiceDelete, ResourceData.Id, hid, hres, StatusNotFound,
      pure, Except.pure]

/-- C9, the failing input: with a client that reports status 404 together with an
error, each of the four delete handlers returns an error and keeps the identifier. -/
theorem delete_not_found_with_error :
    resourceNsxtIPSetDelete notFoundClient (stateOf resourceNsxtIPSetSchema "id-1") =
      .ok { d := stateOf resourceNsxtIPSetSchema "id-1",
            err := some "Error during IpSet delete: 404 Not Found",
            calls := [Call.DeleteIPSet "id-1" []] } ∧
    resourceNsxtLbPoolDelete notFoundClient
        (stateOf (resourceNsxtLbPoolSchema GetResourceReferencesSchema) "id-1") =
      .ok { d := stateOf (resourceNsxtLbPoolSchema GetResourceReferencesSchema) "id-1",
            err := some "Error during LbPool delete: 404 Not Found",
            calls := [Call.DeleteLoadBalancerPool "id-1"] } ∧
    resourceNsxtLbFastTCPApplicationProfileDelete notFoundClient
        (stateOf resourceNsxtLbFastTCPApplicationProfileSchema "id-1") =
      .ok { d := stateOf resourceNsxtLbFastTCPApplicationProfileSchema "id-1",
            err := some "Error during LbFastTcpProfile delete: 404 Not Found",
            calls := [Call.DeleteLoadBalancerApplicationProfile "id-1"] } ∧
    resourceNsxtIcmpTypeNsServiceDelete notFoundClient
        (stateOf resourceNsxtIcmpTypeNsServiceSchema "id-1") =
      .ok { d := stateOf resourceNsxtIcmpTypeNsServiceSchema "id-1",
            err := some "Error during NsService delete: 404 Not Found",
            calls := [Call.DeleteNSService "id-1" []] } :=
  ⟨rfl, rfl, rfl, rfl⟩


/-- C10: an update whose remote call is answered with status 404, with or without a
client error, returns an error for each of the four resources; the update call is the
only remote call issued, so no read follows, and the state is the one before the
call. -/
theorem update_not_found_is_error (h : Helpers) (c : APIClient) (d : ResourceData)
    (hid : d.id ≠ "") :
    (d.schema = resourceNsxtIPSetSchema →
      (∀ req, (c.UpdateIPSet d.id req).2.1 = some { StatusCode := 404 }) →
      ∃ req msg, resourceNsxtIPSetUpdate h c d =
        .ok { d := d, err := some msg, calls := [Call.UpdateIPSet d.id req] }) ∧
    (∀ e, d.schema = resourceNsxtLbPoolSchema (Schema.TypeList e) →
      (∀ req, (c.UpdateLoadBalancerPool d.id req).2.1 = some { StatusCode := 404 }) →
      ∃ req msg, resourceNsxtLbPoolUpdate h c d =
        .ok { d := d, err := some msg, calls := [Call.UpdateLoadBalancerPool d.id req] }) ∧
    (d.schema = resourceNsxtLbFastTCPApplicationProfileSchema →
      (∀ req,
        (c.UpdateLoadBalancerFastTcpProfile d.id req).2.1 = some { StatusCode := 404 }) →
      ∃ req msg, resourceNsxtLbFastTCPApplicationProfileUpdate h c d =
        .ok { d := d, err := some msg,
              calls := [Call.UpdateLoadBalancerFastTcpProfile d.id req] }) ∧
    (d.schema = resourceNsxtIcmpTypeNsServiceSchema →
      (∀ req, (c.UpdateIcmpTypeNSService d.id req).2.1 = some { StatusCode := 404 }) →
      ∃ req msg, resourceNsxtIcmpTypeNsServiceUpdate h c d =
        .ok { d := d, err := some msg, calls := [Call.UpdateIcmpTypeNSService d.id req] }) :=
  ⟨fun hs hc => ipSetUpdate_not_found h c d hs hid hc,
   fun e hs hc => lbPoolUpdate_not_found h c d e hs hid hc,
   fun hs hc => lbFastTcpUpdate_not_found h c d hs hid hc,
   fun hs hc => icmpUpdate_not_found h c d hs hid hc⟩

/-- C10, at the identifier `id-1`: status 404 without a client error for the IP set and
the fast TCP profile, status 404 with the error `404 Not Found` for the pool and the
ICMP service. -/
theorem update_not_found_is_error_witness :
    (∃ req msg, resourceNsxtIPSetUpdate plainHelpers
        (constClient (some { StatusCode := 404 }) none)
        (stateOf resourceNsxtIPSetSchema "id-1") =
      .ok { d := stateOf resourceNsxtIPSetSchema "id-1", err := some msg,
            calls := [Call.UpdateIPSet "id-1" req] }) ∧
    (∃ req msg, resourceNsxtLbPoolUpdate plainHelpers notFoundClient
        (stateOf (resourceNsxtLbPoolSchema GetResourceReferencesSchema) "id-1") =
      .ok { d := stateOf (resourceNsxtLbPoolSchema GetResourceReferencesSchema) "id-1",
            err := some msg, calls := [Call.UpdateLoadBalancerPool "id-1" req] }) ∧
    (∃ req msg, resourceNsxtLbFastTCPApplicationProfileUpdate plainHelpers
        (constClient (some { StatusCode := 404 }) none)
        (stateOf resourceNsxtLbFastTCPApplicationProfileSchema "id-1") =
      .ok { d := stateOf resourceNsxtLbFastTCPApplicationProfileSchema "id-1",
            err := some msg, calls := [Call.UpdateLoadBalancerFastTcpProfile "id-1" req] }) ∧
    (∃ req msg, resourceNsxtIcmpTypeNsServiceUpdate plainHelpers notFoundClient
        (stateOf resourceNsxtIcmpTypeNsServiceSchema "id-1") =
      .ok { d := stateOf resourceNsxtIcmpTypeNsServiceSchema "id-1", err := some msg,
            calls := [Call.UpdateIcmpTypeNSService "id-1" req] }) :=
  ⟨(update_not_found_is_error plainHelpers (constClient (some { StatusCode := 404 }) none)
      (stateOf resourceNsxtIPSetSchema "id-1") (by decide)).1 rfl (fun _ => rfl),
   (update_not_found_is_error plainHelpers notFoundClient
      (stateOf (resourceNsxtLbPoolSchema GetResourceReferencesSchema) "id-1")
      (by decide)).2.1 _ rfl (fun _ => rfl),
   (update_not_found_is_error plainHelpers (constClient (some { StatusCode := 404 }) none)
      (stateOf resourceNsxtLbFastTCPApplicationProfileSchema "id-1")
      (by decide)).2.2.1 rfl (fun _ => rfl),
   (update_not_found_is_error plainHelpers notFoundClient
      (stateOf resourceNsxtIcmpTypeNsServiceSchema "id-1") (by decide)).2.2.2 rfl
      (fun _ => rfl)⟩


/-- C11: with an empty identifier in state, every Read, Update and Delete handler of the
four resources returns an error, issues no remote call and leaves the state as it
was. -/
theorem empty_id_is_error (h : Helpers) (c : APIClient) (d : ResourceData)
    (hid : d.id = "") :
    resourceNsxtIPSetRead h c d =
      .ok { d := d, err := some "Error obtaining logical object id", calls := [] } ∧
    resourceNsxtIPSetUpdate h c d =
      .ok { d := d, err := some "Error obtaining logical object id", calls := [] } ∧
    resourceNsxtIPSetDelete c d =
      .ok { d := d, err := some "Error obtaining logical object id", calls := [] } ∧
    resourceNsxtLbPoolRead h c d =
      .ok { d := d, err := some "Error obtaining logical object id", calls := [] } ∧
    resourceNsxtLbPoolUpdate h c d =
      .ok { d := d, err := some "Error obtaining logical object id", calls := [] } ∧
    resourceNsxtLbPoolDelete c d =
      .ok { d := d, err := some "Error obtaining logical object id", calls := [] } ∧
    resourceNsxtLbFastTCPApplicationProfileRead h c d =
      .ok { d := d, err := some "Error obtaining logical object id", calls := [] } ∧
    resourceNsxtLbFastTCPApplicationProfileUpdate h c d =
      .ok { d := d, err := some "Error obtaining logical object id", calls := [] } ∧
    resourceNsxtLbFastTCPApplicationProfileDelete c d =
      .ok { d := d, err := some "Error obtaining logical object id", calls := [] } ∧
    resourceNsxtIcmpTypeNsServiceRead h c d =
      .ok { d := d, err := some "Error obtaining ns service id", calls := [] } ∧
    resourceNsxtIcmpTypeNsServiceUpdate h c d =
      .ok { d := d, err := some "Error obtaining ns service id", calls := [] } ∧
    resourceNsxtIcmpTypeNsServiceDelete c d =
      .ok { d := d, err := some "Error obtaining ns service id", calls := [] } := by
  refine ⟨?_, ?_, ?_, ?_, ?_, ?_, ?_, ?_, ?_, ?_, ?_, ?_⟩
  · simp [resourceNsxtIPSetRead, ResourceData.Id, hid, pure, Except.pure]
  · simp [resourceNsxtIPSetUpdate, ResourceData.Id, hid, pure, Except.pure]
  · simp [resourceNsxtIPSetDelete, ResourceData.Id, hid, pure, Except.pure]
  · simp [resourceNsxtLbPoolRead, ResourceData.Id, hid, pure, Except.pure]
  · simp [resourceNsxtLbPoolUpdate, ResourceData.Id, hid, pure, Except.pure]
  · simp [resourceNsxtLbPoolDelete, ResourceData.Id, hid, pure, Except.pure]
  · simp [resourceNsxtLbFastTCPApplicationProfileRead, ResourceData.Id, hid, pure,
      Except.pure]
  · simp [resourceNsxtLbFastTCPApplicationProfileUpdate, ResourceData.Id, hid, pure,
      Except.pure]
  · simp [resourceNsxtLbFastTCPApplicationProfileDelete, ResourceData.Id, hid, pure,
      Except.pure]
  · simp [resourceNsxtIcmpTypeNsServiceRead, ResourceData.Id, hid, pure, Except.pure]
  · simp [resourceNsxtIcmpTypeNsServiceUpdate, ResourceData.Id, hid, pure, Except.pure]
  · simp [resourceNsxtIcmpTypeNsServiceDelete, ResourceData.Id, hid, pure, Except.pure]

/-- C11, at the pool state with an empty identifier and a client that would answer every
call with status 200: the read handler still returns the error and calls nothing. -/
theorem empty_id_is_error_witness :
    resourceNsxtLbPoolRead plainHelpers (constClient (some { StatusCode := 200 }) none)
        (stateOf (resourceNsxtLbPoolSchema GetResourceReferencesSchema) "") =
      .ok { d := stateOf (resourceNsxtLbPoolSchema GetResourceReferencesSchema) "",
            err := some "Error obtaining logical object id", calls := [] } :=
  (empty_id_is_error plainHelpers (constClient (some { StatusCode := 200 }) none)
    (stateOf (resourceNsxtLbPoolSchema GetResourceReferencesSchema) "") rfl).2.2.2.1


/-- The create handler of the IP set builds a request and then treats the outcome of
`CreateIPSet` as every create handler does; only status 201 is accepted. -/
theorem ipSetCreate_shape (h : Helpers) (c : APIClient) (d : ResourceData)
    (hs : d.schema = resourceNsxtIPSetSchema) :
    ∃ req, resourceNsxtIPSetCreate h c d =
      createTail (fun code => decide (code = 201)) "Error during IpSet create: "
        "Unexpected status returned during IpSet create: " (Call.CreateIPSet req)
        (resourceNsxtIPSetRead h c) d (c.CreateIPSet req).1.Id (c.CreateIPSet req).2.1
        (c.CreateIPSet req).2.2 := by
  obtain ⟨desc, hdesc⟩ := assertString_readValue (index d.attrs "description")
  obtain ⟨name, hname⟩ := assertString_readValue (index d.attrs "display_name")
  refine ⟨IpSet.mk "" 0 desc name (h.getTagsFromSchema d)
    (h.getStringListFromSchemaSet d "ip_addresses"), ?_⟩
  rcases hres : c.CreateIPSet (IpSet.mk "" 0 desc name (h.getTagsFromSchema d)
    (h.getStringListFromSchemaSet d "ip_addresses")) with ⟨obj, resp, err⟩
  cases err with
  | some e =>
    simp [resourceNsxtIPSetCreate, createTail, ResourceData.Get, hs,
      resourceNsxtIPSetSchema, List.lookup, hdesc, hname, hres, bind, Except.bind, pure,
      Except.pure]
  | none =>
    cases resp with
    | none =>
      simp [resourceNsxtIPSetCreate, createTail, ResourceData.Get, hs,
        resourceNsxtIPSetSchema, List.lookup, hdesc, hname, hres, bind, Except.bind, pure,
        Except.pure, throw, throwThe, MonadExceptOf.throw]
    | some r =>
      by_cases hr : r.StatusCode = 201
      · simp [resourceNsxtIPSetCreate, createTail, ResourceData.Get, hs,
          resourceNsxtIPSetSchema, List.lookup, hdesc, hname, hres, hr, StatusCreated, bind,
          Except.bind, pure, Except.pure]
      · simp [resourceNsxtIPSetCreate, createTail, ResourceData.Get, hs,
          resourceNsxtIPSetSchema, List.lookup, hdesc, hname, hres, hr, StatusCreated, bind,
          Except.bind, pure, Except.pure]

/-- The create handler of the pool builds a request and then treats the outcome of
`CreateLoadBalancerPool` as every create handler does; statuses 201 and 200 are
accepted. -/
theorem lbPoolCreate_shape (h : Helpers) (c : APIClient) (d : ResourceData) (e : Schema)
    (hs : d.schema = resourceNsxtLbPoolSchema (Schema.TypeList e)) :
    ∃ req, resourceNsxtLbPoolCreate h c d =
      createTail (fun code => decide (code = 201 ∨ code = 200))
        "Error during LbPool create: " "Unexpected status returned during LbPool create: "
        (Call.CreateLoadBalancerPool req) (resourceNsxtLbPoolRead h c) d
        (c.CreateLoadBalancerPool req).1.Id (c.CreateLoadBalancerPool req).2.1
        (c.CreateLoadBalancerPool req).2.2 := by
  obtain ⟨desc, hdesc⟩ := assertString_readValue (index d.attrs "description")
  obtain ⟨name, hname⟩ := assertString_readValue (index d.attrs "display_name")
  obtain ⟨ids, hids⟩ := getActiveMonitorIdsFromSchema_total d _ hs
  obtain ⟨pas, hpas⟩ := assertString_readValue (index d.attrs "passive_monitor_id")
  obtain ⟨alg, halg⟩ := assertString_readValue (index d.attrs "algorithm")
  obtain ⟨ms, hms⟩ := getPoolMembersFromSchema_total d _ hs
  obtain ⟨mg, hmg⟩ := getPoolMemberGroupFromSchema_total h.getSingleResourceReference d e hs
  obtain ⟨mam, hmam⟩ := assertInt_readValue (index d.attrs "min_active_members")
  obtain ⟨snat, hsnat⟩ := getSnatTranslationFromSchema_total d _ hs
  obtain ⟨tme, htme⟩ := assertBool_readValue (index d.attrs "tcp_multiplexing_enabled")
  obtain ⟨tmn, htmn⟩ := assertInt_readValue (index d.attrs "tcp_multiplexing_number")
  refine ⟨(LbPool.mk "" 0 desc name (h.getTagsFromSchema d) ids alg
    (int64 mam) pas snat tme (int64 tmn) ms mg), ?_⟩
  rcases hres : c.CreateLoadBalancerPool (LbPool.mk "" 0 desc name (h.getTagsFromSchema d) ids alg
    (int64 mam) pas snat tme (int64 tmn) ms mg) with ⟨obj, resp, err⟩
  cases err with
  | some e =>
    simp [resourceNsxtLbPoolCreate, createTail, ResourceData.Get, hs,
      resourceNsxtLbPoolSchema, GetRevisionSchema, List.lookup, hdesc, hname, hids, hpas, halg,
      hms, hmg, hmam, hsnat, htme, htmn, hres, StatusCreated, StatusOK, bind, Except.bind, pure, Except.pure, throw,
      throwThe, MonadExceptOf.throw]
  | none =>
    cases resp with
    | none =>
      simp [resourceNsxtLbPoolCreate, createTail, ResourceData.Get, hs,
      resourceNsxtLbPoolSchema, GetRevisionSchema, List.lookup, hdesc, hname, hids, hpas, halg,
      hms, hmg, hmam, hsnat, htme, htmn, hres, StatusCreated, StatusOK, bind, Except.bind, pure, Except.pure, throw,
      throwThe, MonadExceptOf.throw]
    | some r =>
      by_cases hr : r.StatusCode = 201
      · simp [resourceNsxtLbPoolCreate, createTail, ResourceData.Get, hs,
      resourceNsxtLbPoolSchema, GetRevisionSchema, List.lookup, hdesc, hname, hids, hpas, halg,
      hms, hmg, hmam, hsnat, htme, htmn, hres, StatusCreated, StatusOK, bind, Except.bind, pure, Except.pure, throw,
      throwThe, MonadExceptOf.throw, hr]
      · by_cases hr2 : r.StatusCode = 200
        · simp [resourceNsxtLbPoolCreate, createTail, ResourceData.Get, hs,
      resourceNsxtLbPoolSchema, GetRevisionSchema, List.lookup, hdesc, hname, hids, hpas, halg,
      hms, hmg, hmam, hsnat, htme, htmn, hres, StatusCreated, StatusOK, bind, Except.bind, pure, Except.pure, throw,
      throwThe, MonadExceptOf.throw, hr2]
        · simp [resourceNsxtLbPoolCreate, createTail, ResourceData.Get, hs,
      resourceNsxtLbPoolSchema, GetRevisionSchema, List.lookup, hdesc, hname, hids, hpas, halg,
      hms, hmg, hmam, hsnat, htme, htmn, hres, StatusCreated, StatusOK, bind, Except.bind, pure, Except.pure, throw,
      throwThe, MonadExceptOf.throw, hr, hr2]

/-- The create handler of the fast TCP profile builds a request and then treats the
outcome of `CreateLoadBalancerFastTcpProfile` as every create handler does; statuses
201 and 200 are accepted. -/
theorem lbFastTcpCreate_shape (h : Helpers) (c : APIClient) (d : ResourceData)
    (hs : d.schema = resourceNsxtLbFastTCPApplicationProfileSchema) :
    ∃ req, resourceNsxtLbFastTCPApplicationProfileCreate h c d =
      createTail (fun code => decide (code = 201 ∨ code = 200))
        "Error during LbFastTcpProfile create: "
        "Unexpected status returned during LbFastTcpProfile create: "
        (Call.CreateLoadBalancerFastTcpProfile req)
        (resourceNsxtLbFastTCPApplicationProfileRead h c) d
        (c.CreateLoadBalancerFastTcpProfile req).1.Id
        (c.CreateLoadBalancerFastTcpProfile req).2.1
        (c.CreateLoadBalancerFastTcpProfile req).2.2 := by
  obtain ⟨desc, hdesc⟩ := assertString_readValue (index d.attrs "description")
  obtain ⟨name, hname⟩ := assertString_readValue (index d.attrs "display_name")
  obtain ⟨ct, hct⟩ := assertInt_readValue (index d.attrs "close_timeout")
  obtain ⟨ha, hha⟩ := assertBool_readValue (index d.attrs "ha_flow_mirroring")
  obtain ⟨it, hit⟩ := assertInt_readValue (index d.attrs "idle_timeout")
  refine ⟨(LbFastTcpProfile.mk "" 0 desc name (h.getTagsFromSchema d)
    (int64 ct) ha (int64 it)), ?_⟩
  rcases hres : c.CreateLoadBalancerFastTcpProfile (LbFastTcpProfile.mk "" 0 desc name (h.getTagsFromSchema d)
    (int64 ct) ha (int64 it)) with ⟨obj, resp, err⟩
  cases err with
  | some e =>
    simp [resourceNsxtLbFastTCPApplicationProfileCreate, createTail, ResourceData.Get, hs,
      resourceNsxtLbFastTCPApplicationProfileSchema, GetRevisionSchema, List.lookup, hdesc,
      hname, hct, hha, hit, hres, StatusCreated, StatusOK, bind, Except.bind, pure, Except.pure, throw,
      throwThe, MonadExceptOf.throw]
  | none =>
    cases resp with
    | none =>
      simp [resourceNsxtLbFastTCPApplicationProfileCreate, createTail, ResourceData.Get, hs,
      resourceNsxtLbFastTCPApplicationProfileSchema, GetRevisionSchema, List.lookup, hdesc,
      hname, hct, hha, hit, hres, StatusCreated, StatusOK, bind, Except.bind, pure, Except.pure, throw,
      throwThe, MonadExceptOf.throw]
    | some r =>
      by_cases hr : r.StatusCode = 201
      · simp [resourceNsxtLbFastTCPApplicationProfileCreate, createTail, ResourceData.Get, hs,
      resourceNsxtLbFastTCPApplicationProfileSchema, GetRevisionSchema, List.lookup, hdesc,
      hname, hct, hha, hit, hres, StatusCreated, StatusOK, bind, Except.bind, pure, Except.pure, throw,
      throwThe, MonadExceptOf.throw, hr]
      · by_cases hr2 : r.StatusCode = 200
        · simp [resourceNsxtLbFastTCPApplicationProfileCreate, createTail, ResourceData.Get, hs,
      resourceNsxtLbFastTCPApplicationProfileSchema, GetRevisionSchema, List.lookup, hdesc,
      hname, hct, hha, hit, hres, StatusCreated, StatusOK, bind, Except.bind, pure, Except.pure, throw,
      throwThe, MonadExceptOf.throw, hr2]
        · simp [resourceNsxtLbFastTCPApplicationProfileCreate, createTail, ResourceData.Get, hs,
      resourceNsxtLbFastTCPApplicationProfileSchema, GetRevisionSchema, List.lookup, hdesc,
      hname, hct, hha, hit, hres, StatusCreated, StatusOK, bind, Except.bind, pure, Except.pure, throw,
      throwThe, MonadExceptOf.throw, hr, hr2]

/-- The create handler of the ICMP service builds a request and then treats the outcome
of `CreateIcmpTypeNSService` as every create handler does; only status 201 is
accepted. -/
theorem icmpCreate_shape (h : Helpers) (c : APIClient) (d : ResourceData)
    (hs : d.schema = resourceNsxtIcmpTypeNsServiceSchema) :
    ∃ req, resourceNsxtIcmpTypeNsServiceCreate h c d =
      createTail (fun code => decide (code = 201)) "Error during NsService create: "
        "Unexpected status returned during NsService create: "
        (Call.CreateIcmpTypeNSService req) (resourceNsxtIcmpTypeNsServiceRead h c) d
        (c.CreateIcmpTypeNSService req).1.NsService.Id (c.CreateIcmpTypeNSService req).2.1
        (c.CreateIcmpTypeNSService req).2.2 := by
  obtain ⟨desc, hdesc⟩ := assertString_readValue (index d.attrs "description")
  obtain ⟨name, hname⟩ := assertString_readValue (index d.attrs "display_name")
  obtain ⟨ds, hds⟩ := assertBool_readValue (index d.attrs "default_service")
  obtain ⟨ic, hic⟩ := assertInt_readValue (index d.attrs "icmp_code")
  obtain ⟨it, hit⟩ := assertInt_readValue (index d.attrs "icmp_type")
  obtain ⟨pr, hpr⟩ := assertString_readValue (index d.attrs "protocol")
  refine ⟨(IcmpTypeNsService.mk
    (NsService.mk "" 0 desc name (h.getTagsFromSchema d) ds)
    (IcmpTypeNsServiceEntry.mk "ICMPTypeNSService" (int64 ic) (int64 it) pr)), ?_⟩
  rcases hres : c.CreateIcmpTypeNSService (IcmpTypeNsService.mk
    (NsService.mk "" 0 desc name (h.getTagsFromSchema d) ds)
    (IcmpTypeNsServiceEntry.mk "ICMPTypeNSService" (int64 ic) (int64 it) pr)) with ⟨obj, resp, err⟩
  cases err with
  | some e =>
    simp [resourceNsxtIcmpTypeNsServiceCreate, createTail, ResourceData.Get, hs,
      resourceNsxtIcmpTypeNsServiceSchema, GetRevisionSchema, List.lookup, hdesc, hname, hds,
      hic, hit, hpr, hres, StatusCreated, StatusOK, bind, Except.bind, pure, Except.pure, throw,
      throwThe, MonadExceptOf.throw]
  | none =>
    cases resp with
    | none =>
      simp [resourceNsxtIcmpTypeNsServiceCreate, createTail, ResourceData.Get, hs,
      resourceNsxtIcmpTypeNsServiceSchema, GetRevisionSchema, List.lookup, hdesc, hname, hds,
      hic, hit, hpr, hres, StatusCreated, StatusOK, bind, Except.bind, pure, Except.pure, throw,
      throwThe, MonadExceptOf.throw]
    | some r =>
      by_cases hr : r.StatusCode = 201
      · simp [resourceNsxtIcmpTypeNsServiceCreate, createTail, ResourceData.Get, hs,
      resourceNsxtIcmpTypeNsServiceSchema, GetRevisionSchema, List.lookup, hdesc, hname, hds,
      hic, hit, hpr, hres, StatusCreated, StatusOK, bind, Except.bind, pure, Except.pure, throw,
      throwThe, MonadExceptOf.throw, hr]
      · simp [resourceNsxtIcmpTypeNsServiceCreate, createTail, ResourceData.Get, hs,
      resourceNsxtIcmpTypeNsServiceSchema, GetRevisionSchema, List.lookup, hdesc, hname, hds,
      hic, hit, hpr, hres, StatusCreated, StatusOK, bind, Except.bind, pure, Except.pure, throw,
      throwThe, MonadExceptOf.throw, hr]

/-- The update handler of the IP set sends the revision held in state, widened to
`int64`, and then treats the outcome of `UpdateIPSet` as every update handler does. -/
theorem ipSetUpdate_shape (h : Helpers) (c : APIClient) (d : ResourceData)
    (hs : d.schema = resourceNsxtIPSetSchema) (hid : d.id ≠ "") :
    ∃ rev req, d.Get "revision" = Value.int rev ∧ req.Revision = int64 rev ∧
      resourceNsxtIPSetUpdate h c d =
        updateTail (fun err _ => "Error during IpSet update: " ++ fmtErr err)
          (Call.UpdateIPSet d.id req) (resourceNsxtIPSetRead h c d) d
          (c.UpdateIPSet d.id req).2.1 (c.UpdateIPSet d.id req).2.2 := by
  obtain ⟨rev, hrev⟩ := readValue_int (index d.attrs "revision")
  have hrevA : (readValue Schema.TypeInt (index d.attrs "revision")).assertInt = .ok rev := by
    simp [hrev, Value.assertInt]
  obtain ⟨desc, hdesc⟩ := assertString_readValue (index d.attrs "description")
  obtain ⟨name, hname⟩ := assertString_readValue (index d.attrs "display_name")
  obtain ⟨ips, hips⟩ := assertSetList_readValue Schema.TypeString (index d.attrs "ip_addresses")
  have hget : d.Get "revision" = Value.int rev := by
    simp [ResourceData.Get, hs, resourceNsxtIPSetSchema, GetRevisionSchema, List.lookup, hrev]
  refine ⟨rev, (IpSet.mk "" (int64 rev) desc name (h.getTagsFromSchema d)
    (Interface2StringList ips)), hget, rfl, ?_⟩
  rcases hres : c.UpdateIPSet d.id (IpSet.mk "" (int64 rev) desc name (h.getTagsFromSchema d)
    (Interface2StringList ips)) with ⟨obj, resp, err⟩
  cases err with
  | some e =>
    simp [resourceNsxtIPSetUpdate, updateTail, ResourceData.Id, ResourceData.Get, hs, hid,
      resourceNsxtIPSetSchema, GetRevisionSchema, List.lookup, hrevA, hdesc, hname, hips, hres, bind, Except.bind, pure, Except.pure, throw,
      throwThe, MonadExceptOf.throw]
  | none =>
    cases resp with
    | none =>
      simp [resourceNsxtIPSetUpdate, updateTail, ResourceData.Id, ResourceData.Get, hs, hid,
      resourceNsxtIPSetSchema, GetRevisionSchema, List.lookup, hrevA, hdesc, hname, hips, hres, bind, Except.bind, pure, Except.pure, throw,
      throwThe, MonadExceptOf.throw]
    | some r =>
      by_cases hr : r.StatusCode = StatusNotFound
      · simp [resourceNsxtIPSetUpdate, updateTail, ResourceData.Id, ResourceData.Get, hs, hid,
      resourceNsxtIPSetSchema, GetRevisionSchema, List.lookup, hrevA, hdesc, hname, hips, hres, bind, Except.bind, pure, Except.pure, throw,
      throwThe, MonadExceptOf.throw, hr]
      · simp [resourceNsxtIPSetUpdate, updateTail, ResourceData.Id, ResourceData.Get, hs, hid,
      resourceNsxtIPSetSchema, GetRevisionSchema, List.lookup, hrevA, hdesc, hname, hips, hres, bind, Except.bind, pure, Except.pure, throw,
      throwThe, MonadExceptOf.throw, hr]

/-- The update handler of the pool sends the revision held in state, narrowed to
`int32`, and then treats the outcome of `UpdateLoadBalancerPool` as every update
handler does. -/
theorem lbPoolUpdate_shape (h : Helpers) (c : APIClient) (d : ResourceData) (e : Schema)
    (hs : d.schema = resourceNsxtLbPoolSchema (Schema.TypeList e)) (hid : d.id ≠ "") :
    ∃ rev req, d.Get "revision" = Value.int rev ∧ req.Revision = int32 rev ∧
      resourceNsxtLbPoolUpdate h c d =
        updateTail (fun err _ => "Error during LbPool update: " ++ fmtErr err)
          (Call.UpdateLoadBalancerPool d.id req) (resourceNsxtLbPoolRead h c d) d
          (c.UpdateLoadBalancerPool d.id req).2.1
          (c.UpdateLoadBalancerPool d.id req).2.2 := by
  obtain ⟨rev, hrev⟩ := readValue_int (index d.attrs "revision")
  have hrevA : (readValue Schema.TypeInt (index d.attrs "revision")).assertInt = .ok rev := by
    simp [hrev, Value.assertInt]
  obtain ⟨desc, hdesc⟩ := assertString_readValue (index d.attrs "description")
  obtain ⟨name, hname⟩ := assertString_readValue (index d.attrs "display_name")
  obtain ⟨ids, hids⟩ := getActiveMonitorIdsFromSchema_total d _ hs
  obtain ⟨pas, hpas⟩ := assertString_readValue (index d.attrs "passive_monitor_id")
  obtain ⟨alg, halg⟩ := assertString_readValue (index d.attrs "algorithm")
  obtain ⟨ms, hms⟩ := getPoolMembersFromSchema_total d _ hs
  obtain ⟨mg, hmg⟩ := getPoolMemberGroupFromSchema_total h.getSingleResourceReference d e hs
  obtain ⟨mam, hmam⟩ := assertInt_readValue (index d.attrs "min_active_members")
  obtain ⟨snat, hsnat⟩ := getSnatTranslationFromSchema_total d _ hs
  obtain ⟨tme, htme⟩ := assertBool_readValue (index d.attrs "tcp_multiplexing_enabled")
  obtain ⟨tmn, htmn⟩ := assertInt_readValue (index d.attrs "tcp_multiplexing_number")
  have hget : d.Get "revision" = Value.int rev := by
    simp [ResourceData.Get, hs, resourceNsxtLbPoolSchema, GetRevisionSchema, List.lookup, hrev]
  refine ⟨rev, (LbPool.mk "" (int32 rev) desc name (h.getTagsFromSchema d) ids alg
    (int64 mam) pas snat tme (int64 tmn) ms mg), hget, rfl, ?_⟩
  rcases hres : c.UpdateLoadBalancerPool d.id (LbPool.mk "" (int32 rev) desc name (h.getTagsFromSchema d) ids alg
    (int64 mam) pas snat tme (int64 tmn) ms mg) with ⟨obj, resp, err⟩
  cases err with
  | some e =>
    simp [resourceNsxtLbPoolUpdate, updateTail, ResourceData.Id, ResourceData.Get, hs, hid,
      resourceNsxtLbPoolSchema, GetRevisionSchema, List.lookup, hrevA, hdesc, hname, hids, hpas,
      halg, hms, hmg, hmam, hsnat, htme, htmn, hres, bind, Except.bind, pure, Except.pure, throw,
      throwThe, MonadExceptOf.throw]
  | none =>
    cases resp with
    | none =>
      simp [resourceNsxtLbPoolUpdate, updateTail, ResourceData.Id, ResourceData.Get, hs, hid,
      resourceNsxtLbPoolSchema, GetRevisionSchema, List.lookup, hrevA, hdesc, hname, hids, hpas,
      halg, hms, hmg, hmam, hsnat, htme, htmn, hres, bind, Except.bind, pure, Except.pure, throw,
      throwThe, MonadExceptOf.throw]
    | some r =>
      by_cases hr : r.StatusCode = StatusNotFound
      · simp [resourceNsxtLbPoolUpdate, updateTail, ResourceData.Id, ResourceData.Get, hs, hid,
      resourceNsxtLbPoolSchema, GetRevisionSchema, List.lookup, hrevA, hdesc, hname, hids, hpas,
      halg, hms, hmg, hmam, hsnat, htme, htmn, hres, bind, Except.bind, pure, Except.pure, throw,
      throwThe, MonadExceptOf.throw, hr]
      · simp [resourceNsxtLbPoolUpdate, updateTail, ResourceData.Id, ResourceData.Get, hs, hid,
      resourceNsxtLbPoolSchema, GetRevisionSchema, List.lookup, hrevA, hdesc, hname, hids, hpas,
      halg, hms, hmg, hmam, hsnat, htme, htmn, hres, bind, Except.bind, pure, Except.pure, throw,
      throwThe, MonadExceptOf.throw, hr]

/-- The update handler of the fast TCP profile sends the revision held in state,
narrowed to `int32`, and then treats the outcome of `UpdateLoadBalancerFastTcpProfile`
as every update handler does. -/
theorem lbFastTcpUpdate_shape (h : Helpers) (c : APIClient) (d : ResourceData)
    (hs : d.schema = resourceNsxtLbFastTCPApplicationProfileSchema) (hid : d.id ≠ "") :
    ∃ rev req, d.Get "revision" = Value.int rev ∧ req.Revision = int32 rev ∧
      resourceNsxtLbFastTCPApplicationProfileUpdate h c d =
        updateTail (fun err _ => "Error during LbFastTcpProfile update: " ++ fmtErr err)
          (Call.UpdateLoadBalancerFastTcpProfile d.id req)
          (resourceNsxtLbFastTCPApplicationProfileRead h c d) d
          (c.UpdateLoadBalancerFastTcpProfile d.id req).2.1
          (c.UpdateLoadBalancerFastTcpProfile d.id req).2.2 := by
  obtain ⟨rev, hrev⟩ := readValue_int (index d.attrs "revision")
  have hrevA : (readValue Schema.TypeInt (index d.attrs "revision")).assertInt = .ok rev := by
    simp [hrev, Value.assertInt]
  obtain ⟨desc, hdesc⟩ := assertString_readValue (index d.attrs "description")
  obtain ⟨name, hname⟩ := assertString_readValue (index d.attrs "display_name")
  obtain ⟨ct, hct⟩ := assertInt_readValue (index d.attrs "close_timeout")
  obtain ⟨ha, hha⟩ := assertBool_readValue (index d.attrs "ha_flow_mirroring")
  obtain ⟨it, hit⟩ := assertInt_readValue (index d.attrs "idle_timeout")
  have hget : d.Get "revision" = Value.int rev := by
    simp [ResourceData.Get, hs, resourceNsxtLbFastTCPApplicationProfileSchema, GetRevisionSchema, List.lookup, hrev]
  refine ⟨rev, (LbFastTcpProfile.mk "" (int32 rev) desc name (h.getTagsFromSchema d)
    (int64 ct) ha (int64 it)), hget, rfl, ?_⟩
  rcases hres : c.UpdateLoadBalancerFastTcpProfile d.id (LbFastTcpProfile.mk "" (int32 rev) desc name (h.getTagsFromSchema d)
    (int64 ct) ha (int64 it)) with ⟨obj, resp, err⟩
  cases err with
  | some e =>
    simp [resourceNsxtLbFastTCPApplicationProfileUpdate, updateTail, ResourceData.Id, ResourceData.Get, hs, hid,
      resourceNsxtLbFastTCPApplicationProfileSchema, GetRevisionSchema, List.lookup, hrevA,
      hdesc, hname, hct, hha, hit, hres, bind, Except.bind, pure, Except.pure, throw,
      throwThe, MonadExceptOf.throw]
  | none =>
    cases resp with
    | none =>
      simp [resourceNsxtLbFastTCPApplicationProfileUpdate, updateTail, ResourceData.Id, ResourceData.Get, hs, hid,
      resourceNsxtLbFastTCPApplicationProfileSchema, GetRevisionSchema, List.lookup, hrevA,
      hdesc, hname, hct, hha, hit, hres, bind, Except.bind, pure, Except.pure, throw,
      throwThe, MonadExceptOf.throw]
    | some r =>
      by_cases hr : r.StatusCode = StatusNotFound
      · simp [resourceNsxtLbFastTCPApplicationProfileUpdate, updateTail, ResourceData.Id, ResourceData.Get, hs, hid,
      resourceNsxtLbFastTCPApplicationProfileSchema, GetRevisionSchema, List.lookup, hrevA,
      hdesc, hname, hct, hha, hit, hres, bind, Except.bind, pure, Except.pure, throw,
      throwThe, MonadExceptOf.throw, hr]
      · simp [resourceNsxtLbFastTCPApplicationProfileUpdate, updateTail, ResourceData.Id, ResourceData.Get, hs, hid,
      resourceNsxtLbFastTCPApplicationProfileSchema, GetRevisionSchema, List.lookup, hrevA,
      hdesc, hname, hct, hha, hit, hres, bind, Except.bind, pure, Except.pure, throw,
      throwThe, MonadExceptOf.throw, hr]

/-- The update handler of the ICMP service sends the revision held in state, widened to
`int64`, and then treats the outcome of `UpdateIcmpTypeNSService` as every update
handler does. -/
theorem icmpUpdate_shape (h : Helpers) (c : APIClient) (d : ResourceData)
    (hs : d.schema = resourceNsxtIcmpTypeNsServiceSchema) (hid : d.id ≠ "") :
    ∃ rev req, d.Get "revision" = Value.int rev ∧ req.NsService.Revision = int64 rev ∧
      resourceNsxtIcmpTypeNsServiceUpdate h c d =
        updateTail
          (fun err resp => "Error during NsService update: " ++ fmtErr err ++ " " ++
            fmtResp resp)
          (Call.UpdateIcmpTypeNSService d.id req)
          (resourceNsxtIcmpTypeNsServiceRead h c d) d
          (c.UpdateIcmpTypeNSService d.id req).2.1
          (c.UpdateIcmpTypeNSService d.id req).2.2 := by
  obtain ⟨rev, hrev⟩ := readValue_int (index d.attrs "revision")
  have hrevA : (readValue Schema.TypeInt (index d.attrs "revision")).assertInt = .ok rev := by
    simp [hrev, Value.assertInt]
  obtain ⟨desc, hdesc⟩ := assertString_readValue (index d.attrs "description")
  obtain ⟨name, hname⟩ := assertString_readValue (index d.attrs "display_name")
  obtain ⟨ds, hds⟩ := assertBool_readValue (index d.attrs "default_service")
  obtain ⟨ic, hic⟩ := assertInt_readValue (index d.attrs "icmp_code")
  obtain ⟨it, hit⟩ := assertInt_readValue (index d.attrs "icmp_type")
  obtain ⟨pr, hpr⟩ := assertString_readValue (index d.attrs "protocol")
  have hget : d.Get "revision" = Value.int rev := by
    simp [ResourceData.Get, hs, resourceNsxtIcmpTypeNsServiceSchema, GetRevisionSchema, List.lookup, hrev]
  refine ⟨rev, (IcmpTypeNsService.mk
    (NsService.mk "" (int64 rev) desc name (h.getTagsFromSchema d) ds)
    (IcmpTypeNsServiceEntry.mk "ICMPTypeNSService" (int64 ic) (int64 it) pr)), hget, rfl, ?_⟩
  rcases hres : c.UpdateIcmpTypeNSService d.id (IcmpTypeNsService.mk
    (NsService.mk "" (int64 rev) desc name (h.getTagsFromSchema d) ds)
    (IcmpTypeNsServiceEntry.mk "ICMPTypeNSService" (int64 ic) (int64 it) pr)) with ⟨obj, resp, err⟩
  cases err with
  | some e =>
    simp [resourceNsxtIcmpTypeNsServiceUpdate, updateTail, ResourceData.Id, ResourceData.Get, hs, hid,
      resourceNsxtIcmpTypeNsServiceSchema, GetRevisionSchema, List.lookup, hrevA, hdesc, hname,
      hds, hic, hit, hpr, hres, bind, Except.bind, pure, Except.pure, throw,
      throwThe, MonadExceptOf.throw]
  | none =>
    cases resp with
    | none =>
      simp [resourceNsxtIcmpTypeNsServiceUpdate, updateTail, ResourceData.Id, ResourceData.Get, hs, hid,
      resourceNsxtIcmpTypeNsServiceSchema, GetRevisionSchema, List.lookup, hrevA, hdesc, hname,
      hds, hic, hit, hpr, hres, bind, Except.bind, pure, Except.pure, throw,
      throwThe, MonadExceptOf.throw]
    | some r =>
      by_cases hr : r.StatusCode = StatusNotFound
      · simp [resourceNsxtIcmpTypeNsServiceUpdate, updateTail, ResourceData.Id, ResourceData.Get, hs, hid,
      resourceNsxtIcmpTypeNsServiceSchema, GetRevisionSchema, List.lookup, hrevA, hdesc, hname,
      hds, hic, hit, hpr, hres, bind, Except.bind, pure, Except.pure, throw,
      throwThe, MonadExceptOf.throw, hr]
      · simp [resourceNsxtIcmpTypeNsServiceUpdate, updateTail, ResourceData.Id, ResourceData.Get, hs, hid,
      resourceNsxtIcmpTypeNsServiceSchema, GetRevisionSchema, List.lookup, hrevA, hdesc, hname,
      hds, hic, hit, hpr, hres, bind, Except.bind, pure, Except.pure, throw,
      throwThe, MonadExceptOf.throw, hr]

/-- The create handler of the IP set builds a request and then treats the outcome of
`CreateIPSet` as every create handler does; only status 201 is accepted. The request
is built from the state alone: it is the same for every client. -/
theorem ipSetCreate_request (h : Helpers) (d : ResourceData)
    (hs : d.schema = resourceNsxtIPSetSchema) :
    ∃ req, ∀ c : APIClient, resourceNsxtIPSetCreate h c d =
      createTail (fun code => decide (code = 201)) "Error during IpSet create: "
        "Unexpected status returned during IpSet create: " (Call.CreateIPSet req)
        (resourceNsxtIPSetRead h c) d (c.CreateIPSet req).1.Id (c.CreateIPSet req).2.1
        (c.CreateIPSet req).2.2 := by
  obtain ⟨desc, hdesc⟩ := assertString_readValue (index d.attrs "description")
  obtain ⟨name, hname⟩ := assertString_readValue (index d.attrs "display_name")
  refine ⟨IpSet.mk "" 0 desc name (h.getTagsFromSchema d)
    (h.getStringListFromSchemaSet d "ip_addresses"), ?_⟩
  intro c
  rcases hres : c.CreateIPSet (IpSet.mk "" 0 desc name (h.getTagsFromSchema d)
    (h.getStringListFromSchemaSet d "ip_addresses")) with ⟨obj, resp, err⟩
  cases err with
  | some e =>
    simp [resourceNsxtIPSetCreate, createTail, ResourceData.Get, hs,
      resourceNsxtIPSetSchema, List.lookup, hdesc, hname, hres, bind, Except.bind, pure,
      Except.pure]
  | none =>
    cases resp with
    | none =>
      simp [resourceNsxtIPSetCreate, createTail, ResourceData.Get, hs,
        resourceNsxtIPSetSchema, List.lookup, hdesc, hname, hres, bind, Except.bind, pure,
        Except.pure, throw, throwThe, MonadExceptOf.throw]
    | some r =>
      by_cases hr : r.StatusCode = 201
      · simp [resourceNsxtIPSetCreate, createTail, ResourceData.Get, hs,
          resourceNsxtIPSetSchema, List.lookup, hdesc, hname, hres, hr, StatusCreated, bind,
          Except.bind, pure, Except.pure]
      · simp [resourceNsxtIPSetCreate, createTail, ResourceData.Get, hs,
          resourceNsxtIPSetSchema, List.lookup, hdesc, hname, hres, hr, StatusCreated, bind,
          Except.bind, pure, Except.pure]

/-- The create handler of the pool builds a request and then treats the outcome of
`CreateLoadBalancerPool` as every create handler does; statuses 201 and 200 are
accepted. The request
is built from the state alone: it is the same for every client. -/
theorem lbPoolCreate_request (h : Helpers) (d : ResourceData) (e : Schema)
    (hs : d.schema = resourceNsxtLbPoolSchema (Schema.TypeList e)) :
    ∃ req, ∀ c : APIClient, resourceNsxtLbPoolCreate h c d =
      createTail (fun code => decide (code = 201 ∨ code = 200))
        "Error during LbPool create: " "Unexpected status returned during LbPool create: "
        (Call.CreateLoadBalancerPool req) (resourceNsxtLbPoolRead h c) d
        (c.CreateLoadBalancerPool req).1.Id (c.CreateLoadBalancerPool req).2.1
        (c.CreateLoadBalancerPool req).2.2 := by
  obtain ⟨desc, hdesc⟩ := assertString_readValue (index d.attrs "description")
  obtain ⟨name, hname⟩ := assertString_readValue (index d.attrs "display_name")
  obtain ⟨ids, hids⟩ := getActiveMonitorIdsFromSchema_total d _ hs
  obtain ⟨pas, hpas⟩ := assertString_readValue (index d.attrs "passive_monitor_id")
  obtain ⟨alg, halg⟩ := assertString_readValue (index d.attrs "algorithm")
  obtain ⟨ms, hms⟩ := getPoolMembersFromSchema_total d _ hs
  obtain ⟨mg, hmg⟩ := getPoolMemberGroupFromSchema_total h.getSingleResourceReference d e hs
  obtain ⟨mam, hmam⟩ := assertInt_readValue (index d.attrs "min_active_members")
  obtain ⟨snat, hsnat⟩ := getSnatTranslationFromSchema_total d _ hs
  obtain ⟨tme, htme⟩ := assertBool_readValue (index d.attrs "tcp_multiplexing_enabled")
  obtain ⟨tmn, htmn⟩ := assertInt_readValue (index d.attrs "tcp_multiplexing_number")
  refine ⟨(LbPool.mk "" 0 desc name (h.getTagsFromSchema d) ids alg
    (int64 mam) pas snat tme (int64 tmn) ms mg), ?_⟩
  intro c
  rcases hres : c.CreateLoadBalancerPool (LbPool.mk "" 0 desc name (h.getTagsFromSchema d) ids alg
    (int64 mam) pas snat tme (int64 tmn) ms mg) with ⟨obj, resp, err⟩
  cases err with
  | some e =>
    simp [resourceNsxtLbPoolCreate, createTail, ResourceData.Get, hs,
      resourceNsxtLbPoolSchema, GetRevisionSchema, List.lookup, hdesc, hname, hids, hpas, halg,
      hms, hmg, hmam, hsnat, htme, htmn, hres, StatusCreated, StatusOK, bind, Except.bind, pure, Except.pure, throw,
      throwThe, MonadExceptOf.throw]
  | none =>
    cases resp with
    | none =>
      simp [resourceNsxtLbPoolCreate, createTail, ResourceData.Get, hs,
      resourceNsxtLbPoolSchema, GetRevisionSchema, List.lookup, hdesc, hname, hids, hpas, halg,
      hms, hmg, hmam, hsnat, htme, htmn, hres, StatusCreated, StatusOK, bind, Except.bind, pure, Except.pure, throw,
      throwThe, MonadExceptOf.throw]
    | some r =>
      by_cases hr : r.StatusCode = 201
      · simp [resourceNsxtLbPoolCreate, createTail, ResourceData.Get, hs,
      resourceNsxtLbPoolSchema, GetRevisionSchema, List.lookup, hdesc, hname, hids, hpas, halg,
      hms, hmg, hmam, hsnat, htme, htmn, hres, StatusCreated, StatusOK, bind, Except.bind, pure, Except.pure, throw,
      throwThe, MonadExceptOf.throw, hr]
      · by_cases hr2 : r.StatusCode = 200
        · simp [resourceNsxtLbPoolCreate, createTail, ResourceData.Get, hs,
      resourceNsxtLbPoolSchema, GetRevisionSchema, List.lookup, hdesc, hname, hids, hpas, halg,
      hms, hmg, hmam, hsnat, htme, htmn, hres, StatusCreated, StatusOK, bind, Except.bind, pure, Except.pure, throw,
      throwThe, MonadExceptOf.throw, hr2]
        · simp [resourceNsxtLbPoolCreate, createTail, ResourceData.Get, hs,
      resourceNsxtLbPoolSchema, GetRevisionSchema, List.lookup, hdesc, hname, hids, hpas, halg,
      hms, hmg, hmam, hsnat, htme, htmn, hres, StatusCreated, StatusOK, bind, Except.bind, pure, Except.pure, throw,
      throwThe, MonadExceptOf.throw, hr, hr2]

/-- The create handler of the fast TCP profile builds a request and then treats the
outcome of `CreateLoadBalancerFastTcpProfile` as every create handler does; statuses
201 and 200 are accepted. The request
is built from the state alone: it is the same for every client. -/
theorem lbFastTcpCreate_request (h : Helpers) (d : ResourceData)
    (hs : d.schema = resourceNsxtLbFastTCPApplicationProfileSchema) :
    ∃ req, ∀ c : APIClient, resourceNsxtLbFastTCPApplicationProfileCreate h c d =
      createTail (fun code => decide (code = 201 ∨ code = 200))
        "Error during LbFastTcpProfile create: "
        "Unexpected status returned during LbFastTcpProfile create: "
        (Call.CreateLoadBalancerFastTcpProfile req)
        (resourceNsxtLbFastTCPApplicationProfileRead h c) d
        (c.CreateLoadBalancerFastTcpProfile req).1.Id
        (c.CreateLoadBalancerFastTcpProfile req).2.1
        (c.CreateLoadBalancerFastTcpProfile req).2.2 := by
  obtain ⟨desc, hdesc⟩ := assertString_readValue (index d.attrs "description")
  obtain ⟨name, hname⟩ := assertString_readValue (index d.attrs "display_name")
  obtain ⟨ct, hct⟩ := assertInt_readValue (index d.attrs "close_timeout")
  obtain ⟨ha, hha⟩ := assertBool_readValue (index d.attrs "ha_flow_mirroring")
  obtain ⟨it, hit⟩ := assertInt_readValue (index d.attrs "idle_timeout")
  refine ⟨(LbFastTcpProfile.mk "" 0 desc name (h.getTagsFromSchema d)
    (int64 ct) ha (int64 it)), ?_⟩
  intro c
  rcases hres : c.CreateLoadBalancerFastTcpProfile (LbFastTcpProfile.mk "" 0 desc name (h.getTagsFromSchema d)
    (int64 ct) ha (int64 it)) with ⟨obj, resp, err⟩
  cases err with
  | some e =>
    simp [resourceNsxtLbFastTCPApplicationProfileCreate, createTail, ResourceData.Get, hs,
      resourceNsxtLbFastTCPApplicationProfileSchema, GetRevisionSchema, List.lookup, hdesc,
      hname, hct, hha, hit, hres, StatusCreated, StatusOK, bind, Except.bind, pure, Except.pure, throw,
      throwThe, MonadExceptOf.throw]
  | none =>
    cases resp with
    | none =>
      simp [resourceNsxtLbFastTCPApplicationProfileCreate, createTail, ResourceData.Get, hs,
      resourceNsxtLbFastTCPApplicationProfileSchema, GetRevisionSchema, List.lookup, hdesc,
      hname, hct, hha, hit, hres, StatusCreated, StatusOK, bind, Except.bind, pure, Except.pure, throw,
      throwThe, MonadExceptOf.throw]
    | some r =>
      by_cases hr : r.StatusCode = 201
      · simp [resourceNsxtLbFastTCPApplicationProfileCreate, createTail, ResourceData.Get, hs,
      resourceNsxtLbFastTCPApplicationProfileSchema, GetRevisionSchema, List.lookup, hdesc,
      hname, hct, hha, hit, hres, StatusCreated, StatusOK, bind, Except.bind, pure, Except.pure, throw,
      throwThe, MonadExceptOf.throw, hr]
      · by_cases hr2 : r.StatusCode = 200
        · simp [resourceNsxtLbFastTCPApplicationProfileCreate, createTail, ResourceData.Get, hs,
      resourceNsxtLbFastTCPApplicationProfileSchema, GetRevisionSchema, List.lookup, hdesc,
      hname, hct, hha, hit, hres, StatusCreated, StatusOK, bind, Except.bind, pure, Except.pure, throw,
      throwThe, MonadExceptOf.throw, hr2]
        · simp [resourceNsxtLbFastTCPApplicationProfileCreate, createTail, ResourceData.Get, hs,
      resourceNsxtLbFastTCPApplicationProfileSchema, GetRevisionSchema, List.lookup, hdesc,
      hname, hct, hha, hit, hres, StatusCreated, StatusOK, bind, Except.bind, pure, Except.pure, throw,
      throwThe, MonadExceptOf.throw, hr, hr2]

/-- The create handler of the ICMP service builds a request and then treats the outcome
of `CreateIcmpTypeNSService` as every create handler does; only status 201 is
accepted. The request
is built from the state alone: it is the same for every client. -/
theorem icmpCreate_request (h : Helpers) (d : ResourceData)
    (hs : d.schema = resourceNsxtIcmpTypeNsServiceSchema) :
    ∃ req, ∀ c : APIClient, resourceNsxtIcmpTypeNsServiceCreate h c d =
      createTail (fun code => decide (code = 201)) "Error during NsService create: "
        "Unexpected status returned during NsService create: "
        (Call.CreateIcmpTypeNSService req) (resourceNsxtIcmpTypeNsServiceRead h c) d
        (c.CreateIcmpTypeNSService req).1.NsService.Id (c.CreateIcmpTypeNSService req).2.1
        (c.CreateIcmpTypeNSService req).2.2 := by
  obtain ⟨desc, hdesc⟩ := assertString_readValue (index d.attrs "description")
  obtain ⟨name, hname⟩ := assertString_readValue (index d.attrs "display_name")
  obtain ⟨ds, hds⟩ := assertBool_readValue (index d.attrs "default_service")
  obtain ⟨ic, hic⟩ := assertInt_readValue (index d.attrs "icmp_code")
  obtain ⟨it, hit⟩ := assertInt_readValue (index d.attrs "icmp_type")
  obtain ⟨pr, hpr⟩ := assertString_readValue (index d.attrs "protocol")
  refine ⟨(IcmpTypeNsService.mk
    (NsService.mk "" 0 desc name (h.getTagsFromSchema d) ds)
    (IcmpTypeNsServiceEntry.mk "ICMPTypeNSService" (int64 ic) (int64 it) pr)), ?_⟩
  intro c
  rcases hres : c.CreateIcmpTypeNSService (IcmpTypeNsService.mk
    (NsService.mk "" 0 desc name (h.getTagsFromSchema d) ds)
    (IcmpTypeNsServiceEntry.mk "ICMPTypeNSService" (int64 ic) (int64 it) pr)) with ⟨obj, resp, err⟩
  cases err with
  | some e =>
    simp [resourceNsxtIcmpTypeNsServiceCreate, createTail, ResourceData.Get, hs,
      resourceNsxtIcmpTypeNsServiceSchema, GetRevisionSchema, List.lookup, hdesc, hname, hds,
      hic, hit, hpr, hres, StatusCreated, StatusOK, bind, Except.bind, pure, Except.pure, throw,
      throwThe, MonadExceptOf.throw]
  | none =>
    cases resp with
    | none =>
      simp [resourceNsxtIcmpTypeNsServiceCreate, createTail, ResourceData.Get, hs,
      resourceNsxtIcmpTypeNsServiceSchema, GetRevisionSchema, List.lookup, hdesc, hname, hds,
      hic, hit, hpr, hres, StatusCreated, StatusOK, bind, Except.bind, pure, Except.pure, throw,
      throwThe, MonadExceptOf.throw]
    | some r =>
      by_cases hr : r.StatusCode = 201
      · simp [resourceNsxtIcmpTypeNsServiceCreate, createTail, ResourceData.Get, hs,
      resourceNsxtIcmpTypeNsServiceSchema, GetRevisionSchema, List.lookup, hdesc, hname, hds,
      hic, hit, hpr, hres, StatusCreated, StatusOK, bind, Except.bind, pure, Except.pure, throw,
      throwThe, MonadExceptOf.throw, hr]
      · simp [resourceNsxtIcmpTypeNsServiceCreate, createTail, ResourceData.Get, hs,
      resourceNsxtIcmpTypeNsServiceSchema, GetRevisionSchema, List.lookup, hdesc, hname, hds,
      hic, hit, hpr, hres, StatusCreated, StatusOK, bind, Except.bind, pure, Except.pure, throw,
      throwThe, MonadExceptOf.throw, hr]

/-- A create whose remote call reports an error returns an error after that one call
and leaves the state as it was. -/
theorem createTail_client_error (accepted : Int → Bool) (errText statusText : String)
    (call : Call) (read : ResourceData → Except String Result) (d : ResourceData)
    (id : String) (resp : Option Response) (e : String) :
    createTail accepted errText statusText call read d id resp (some e) =
      .ok { d := d, err := some (errText ++ e), calls := [call] } := rfl

/-- A create whose remote call reports no error but a status that is not accepted
returns an error after that one call and leaves the state as it was. -/
theorem createTail_bad_status (accepted : Int → Bool) (errText statusText : String)
    (call : Call) (read : ResourceData → Except String Result) (d : ResourceData)
    (id : String) (r : Response) (hr : accepted r.StatusCode = false) :
    createTail accepted errText statusText call read d id (some r) none =
      .ok { d := d, err := some (statusText ++ fmtStatus r.StatusCode), calls := [call] } := by
  simp [createTail, hr, pure, Except.pure]

/-- A failed create, in the shape the handlers share: a client error, or a status that
is not accepted, gives an error after the one call, with the state as it was. -/
theorem createTail_failure (accepted : Int → Bool) (errText statusText : String)
    (call : Call) (read : ResourceData → Except String Result) (d : ResourceData)
    (id : String) (resp : Option Response) (err : Option String)
    (hbad : err ≠ none ∨ ∃ r, resp = some r ∧ accepted r.StatusCode = false) :
    ∃ msg, createTail accepted errText statusText call read d id resp err =
      .ok { d := d, err := some msg, calls := [call] } := by
  cases err with
  | some e => exact ⟨_, createTail_client_error accepted errText statusText call read d id resp e⟩
  | none =>
    rcases hbad with hbad | ⟨r, hr, hacc⟩
    · exact absurd rfl hbad
    · subst hr
      exact ⟨_, createTail_bad_status accepted errText statusText call read d id r hacc⟩

/-- C12: each create handler builds its request from the state alone; whenever the
answer of the client to that request is a client error, or carries a status outside
the accepted set (201 for the IP set and the ICMP service; 201 or 200 for the pool and
the fast TCP profile), the handler returns an error, leaves the state with the
identifier it had, and issues no call after the create call, so no read follows. What
the client would answer to other requests plays no part. -/
theorem create_failure_assigns_no_id (h : Helpers) (d : ResourceData) :
    (d.schema = resourceNsxtIPSetSchema →
      ∃ req, ∀ c : APIClient,
        ((c.CreateIPSet req).2.2 ≠ none ∨
          ∃ r, (c.CreateIPSet req).2.1 = some r ∧ r.StatusCode ≠ 201) →
        ∃ msg, resourceNsxtIPSetCreate h c d =
          .ok { d := d, err := some msg, calls := [Call.CreateIPSet req] }) ∧
    (∀ e, d.schema = resourceNsxtLbPoolSchema (Schema.TypeList e) →
      ∃ req, ∀ c : APIClient,
        ((c.CreateLoadBalancerPool req).2.2 ≠ none ∨
          ∃ r, (c.CreateLoadBalancerPool req).2.1 = some r ∧ r.StatusCode ≠ 201 ∧ r.StatusCode ≠ 200) →
        ∃ msg, resourceNsxtLbPoolCreate h c d =
          .ok { d := d, err := some msg, calls := [Call.CreateLoadBalancerPool req] }) ∧
    (d.schema = resourceNsxtLbFastTCPApplicationProfileSchema →
      ∃ req, ∀ c : APIClient,
        ((c.CreateLoadBalancerFastTcpProfile req).2.2 ≠ none ∨
          ∃ r, (c.CreateLoadBalancerFastTcpProfile req).2.1 = some r ∧ r.StatusCode ≠ 201 ∧ r.StatusCode ≠ 200) →
        ∃ msg, resourceNsxtLbFastTCPApplicationProfileCreate h c d =
          .ok { d := d, err := some msg, calls := [Call.CreateLoadBalancerFastTcpProfile req] }) ∧
    (d.schema = resourceNsxtIcmpTypeNsServiceSchema →
      ∃ req, ∀ c : APIClient,
        ((c.CreateIcmpTypeNSService req).2.2 ≠ none ∨
          ∃ r, (c.CreateIcmpTypeNSService req).2.1 = some r ∧ r.StatusCode ≠ 201) →
        ∃ msg, resourceNsxtIcmpTypeNsServiceCreate h c d =
          .ok { d := d, err := some msg, calls := [Call.CreateIcmpTypeNSService req] }) := by
  refine ⟨?_, ?_, ?_, ?_⟩
  · intro hs
    obtain ⟨req, hreq⟩ := ipSetCreate_request h d hs
    refine ⟨req, fun c hbad => ?_⟩
    obtain ⟨msg, hmsg⟩ := createTail_failure (fun code => decide (code = 201))
      "Error during IpSet create: "
      "Unexpected status returned during IpSet create: "
      (Call.CreateIPSet req) (resourceNsxtIPSetRead h c) d
      (c.CreateIPSet req).1.Id (c.CreateIPSet req).2.1
      (c.CreateIPSet req).2.2
      (by
        rcases hbad with hb | ⟨r, hr, hst⟩
        · exact Or.inl hb
        · exact Or.inr ⟨r, hr, by simp [hst]⟩)
    exact ⟨msg, (hreq c).trans hmsg⟩
  · intro e hs
    obtain ⟨req, hreq⟩ := lbPoolCreate_request h d e hs
    refine ⟨req, fun c hbad => ?_⟩
    obtain ⟨msg, hmsg⟩ := createTail_failure (fun code => decide (code = 201 ∨ code = 200))
      "Error during LbPool create: "
      "Unexpected status returned during LbPool create: "
      (Call.CreateLoadBalancerPool req) (resourceNsxtLbPoolRead h c) d
      (c.CreateLoadBalancerPool req).1.Id (c.CreateLoadBalancerPool req).2.1
      (c.CreateLoadBalancerPool req).2.2
      (by
        rcases hbad with hb | ⟨r, hr, hst, hst2⟩
        · exact Or.inl hb
        · exact Or.inr ⟨r, hr, by simp [hst, hst2]⟩)
    exact ⟨msg, (hreq c).trans hmsg⟩
  · intro hs
    obtain ⟨req, hreq⟩ := lbFastTcpCreate_request h d hs
    refine ⟨req, fun c hbad => ?_⟩
    obtain ⟨msg, hmsg⟩ := createTail_failure (fun code => decide (code = 201 ∨ code = 200))
      "Error during LbFastTcpProfile create: "
      "Unexpected status returned during LbFastTcpProfile create: "
      (Call.CreateLoadBalancerFastTcpProfile req) (resourceNsxtLbFastTCPApplicationProfileRead h c) d
      (c.CreateLoadBalancerFastTcpProfile req).1.Id (c.CreateLoadBalancerFastTcpProfile req).2.1
      (c.CreateLoadBalancerFastTcpProfile req).2.2
      (by
        rcases hbad with hb | ⟨r, hr, hst, hst2⟩
        · exact Or.inl hb
        · exact Or.inr ⟨r, hr, by simp [hst, hst2]⟩)
    exact ⟨msg, (hreq c).trans hmsg⟩
  · intro hs
    obtain ⟨req, hreq⟩ := icmpCreate_request h d hs
    refine ⟨req, fun c hbad => ?_⟩
    obtain ⟨msg, hmsg⟩ := createTail_failure (fun code => decide (code = 201))
      "Error during NsService create: "
      "Unexpected status returned during NsService create: "
      (Call.CreateIcmpTypeNSService req) (resourceNsxtIcmpTypeNsServiceRead h c) d
      (c.CreateIcmpTypeNSService req).1.NsService.Id (c.CreateIcmpTypeNSService req).2.1
      (c.CreateIcmpTypeNSService req).2.2
      (by
        rcases hbad with hb | ⟨r, hr, hst⟩
        · exact Or.inl hb
        · exact Or.inr ⟨r, hr, by simp [hst]⟩)
    exact ⟨msg, (hreq c).trans hmsg⟩

/-- C12, at a state without identifier: a client that refuses with status 400 the
creation of an IP set without display name, and would accept one with a display name;
status 500 for the pool; a transport error for the fast TCP profile; status 200 (not
accepted there) for the ICMP service. -/
theorem create_failure_assigns_no_id_witness :
    (∃ req msg, resourceNsxtIPSetCreate plainHelpers (pickyClient "ipset-3")
        (stateOf resourceNsxtIPSetSchema "") =
      .ok { d := stateOf resourceNsxtIPSetSchema "", err := some msg,
            calls := [Call.CreateIPSet req] } ∧
      ((pickyClient "ipset-3").CreateIPSet { req with DisplayName := "web" }).2 =
        (some { StatusCode := 201 }, none)) ∧
    (∃ req msg, resourceNsxtLbPoolCreate plainHelpers
        (constClient (some { StatusCode := 500 }) none)
        (stateOf (resourceNsxtLbPoolSchema GetResourceReferencesSchema) "") =
      .ok { d := stateOf (resourceNsxtLbPoolSchema GetResourceReferencesSchema) "",
            err := some msg, calls := [Call.CreateLoadBalancerPool req] }) ∧
    (∃ req msg, resourceNsxtLbFastTCPApplicationProfileCreate plainHelpers
        (constClient none (some "connection refused"))
        (stateOf resourceNsxtLbFastTCPApplicationProfileSchema "") =
      .ok { d := stateOf resourceNsxtLbFastTCPApplicationProfileSchema "",
            err := some msg, calls := [Call.CreateLoadBalancerFastTcpProfile req] }) ∧
    (∃ req msg, resourceNsxtIcmpTypeNsServiceCreate plainHelpers
        (constClient (some { StatusCode := 200 }) none)
        (stateOf resourceNsxtIcmpTypeNsServiceSchema "") =
      .ok { d := stateOf resourceNsxtIcmpTypeNsServiceSchema "", err := some msg,
            calls := [Call.CreateIcmpTypeNSService req] }) := by
  refine ⟨?_, ?_, ?_, ?_⟩
  · obtain ⟨req, hall⟩ := (create_failure_assigns_no_id plainHelpers
      (stateOf resourceNsxtIPSetSchema "")).1 rfl
    obtain ⟨msg0, h0⟩ := hall (constClient none (some "connection refused"))
      (Or.inl (fun hn => nomatch hn))
    have heval : resourceNsxtIPSetCreate plainHelpers
        (constClient none (some "connection refused"))
        (stateOf resourceNsxtIPSetSchema "") =
        .ok { d := stateOf resourceNsxtIPSetSchema "",
              err := some "Error during IpSet create: connection refused",
              calls := [Call.CreateIPSet ⟨"", 0, "", "", [], []⟩] } := rfl
    rw [heval] at h0
    have hreq : req = ⟨"", 0, "", "", [], []⟩ := by
      simp only [Except.ok.injEq, Result.mk.injEq, List.cons.injEq, Call.CreateIPSet.injEq]
        at h0
      exact h0.2.2.1.symm
    subst hreq
    obtain ⟨msg, hmsg⟩ := hall (pickyClient "ipset-3") (Or.inl (fun hn => nomatch hn))
    exact ⟨_, msg, hmsg, rfl⟩
  · obtain ⟨req, hall⟩ := (create_failure_assigns_no_id plainHelpers
      (stateOf (resourceNsxtLbPoolSchema GetResourceReferencesSchema) "")).2.1 _ rfl
    obtain ⟨msg, hmsg⟩ := hall (constClient (some { StatusCode := 500 }) none)
      (Or.inr ⟨{ StatusCode := 500 }, rfl, by decide, by decide⟩)
    exact ⟨req, msg, hmsg⟩
  · obtain ⟨req, hall⟩ := (create_failure_assigns_no_id plainHelpers
      (stateOf resourceNsxtLbFastTCPApplicationProfileSchema "")).2.2.1 rfl
    obtain ⟨msg, hmsg⟩ := hall (constClient none (some "connection refused"))
      (Or.inl (fun hn => nomatch hn))
    exact ⟨req, msg, hmsg⟩
  · obtain ⟨req, hall⟩ := (create_failure_assigns_no_id plainHelpers
      (stateOf resourceNsxtIcmpTypeNsServiceSchema "")).2.2.2 rfl
    obtain ⟨msg, hmsg⟩ := hall (constClient (some { StatusCode := 200 }) none)
      (Or.inr ⟨{ StatusCode := 200 }, rfl, by decide⟩)
    exact ⟨req, msg, hmsg⟩

/-- Writing an attribute keeps the identifier. -/
theorem ResourceData.Set_id (d : ResourceData) (key : String) (v : Value) :
    (d.Set key v).1.id = d.id := by
  unfold ResourceData.Set
  split <;> rfl

/-- Writing an attribute keeps the attribute table. -/
theorem ResourceData.Set_schema (d : ResourceData) (key : String) (v : Value) :
    (d.Set key v).1.schema = d.schema := by
  unfold ResourceData.Set
  split <;> rfl

/-- Whatever the read handler of the pool returns, it issued the read call alone (no
call at all on an empty identifier), and the identifier is the one before the call
unless the call was answered with status 404, in which case the state is the one
before the call with the identifier cleared. -/
theorem lbPoolRead_post (h : Helpers) (c : APIClient) (d : ResourceData) (r : Result)
    (hh : ∀ d tags, (h.setTagsInSchema d tags).id = d.id)
    (hr : resourceNsxtLbPoolRead h c d = .ok r) :
    r.calls = (if d.id = "" then [] else [Call.ReadLoadBalancerPool d.id]) ∧
    (r.d.id = d.id ∨
      (r.d = d.SetId "" ∧ r.err = none ∧
        ∃ resp, (c.ReadLoadBalancerPool d.id).2.1 = some resp ∧ resp.StatusCode = 404)) := by
  unfold resourceNsxtLbPoolRead at hr
  by_cases hid : d.id = ""
  · simp [ResourceData.Id, hid, pure, Except.pure] at hr
    subst hr
    simp [hid]
  · rcases hres : c.ReadLoadBalancerPool d.id with ⟨obj, resp, err⟩
    simp only [ResourceData.Id, hid, if_false, hres] at hr
    cases err with
    | some e =>
      simp [pure, Except.pure] at hr
      subst hr
      simp [hid]
    | none =>
      cases resp with
      | none => simp [throw, throwThe, MonadExceptOf.throw] at hr
      | some resp =>
        by_cases hst : resp.StatusCode = StatusNotFound
        · simp [hst, pure, Except.pure] at hr
          subst hr
          simp [hid]
          exact Or.inr hst
        · simp only [hst, if_false] at hr
          have hcalls : (if d.id = "" then [] else [Call.ReadLoadBalancerPool d.id]) =
              [Call.ReadLoadBalancerPool d.id] := by simp [hid]
          rw [hcalls]
          cases hami : obj.ActiveMonitorIds <;> simp only [hami] at hr <;>
            (split at hr
             · rename_i d1 e1 heq1
               have h1 := congrArg (fun p => p.1.id) heq1
               simp [setPoolMembersInSchema, ResourceData.Set_id, hh] at h1
               simp [pure, Except.pure] at hr
               subst hr
               exact ⟨rfl, Or.inl h1.symm⟩
             · rename_i d1 heq1
               have h1 := congrArg (fun p => p.1.id) heq1
               simp [setPoolMembersInSchema, ResourceData.Set_id, hh] at h1
               split at hr
               · rename_i d2 e2 heq2
                 have h2 := congrArg (fun p => p.1.id) heq2
                 simp [setPoolGroupMemberInSchema, ResourceData.Set_id] at h2
                 simp [pure, Except.pure] at hr
                 subst hr
                 exact ⟨rfl, Or.inl (h2.symm.trans h1.symm)⟩
               · rename_i d2 heq2
                 have h2 := congrArg (fun p => p.1.id) heq2
                 simp [setPoolGroupMemberInSchema, ResourceData.Set_id] at h2
                 split at hr
                 · rename_i d3 e3 heq3
                   have h3 := congrArg (fun p => p.1.id) heq3
                   simp [setSnatTranslationInSchema, ResourceData.Set_id] at h3
                   simp [pure, Except.pure] at hr
                   subst hr
                   exact ⟨rfl, Or.inl (h3.symm.trans (h2.symm.trans h1.symm))⟩
                 · rename_i d3 heq3
                   have h3 := congrArg (fun p => p.1.id) heq3
                   simp [setSnatTranslationInSchema, ResourceData.Set_id] at h3
                   simp [pure, Except.pure] at hr
                   subst hr
                   refine ⟨rfl, Or.inl ?_⟩
                   simp [ResourceData.Set_id]
                   exact h3.symm.trans (h2.symm.trans h1.symm))

/-- Whatever the read handler of the IP set returns, it issued the read call alone (no
call at all on an empty identifier), and the identifier is the one before the call
unless the call was answered with status 404, in which case the state is the one
before the call with the identifier cleared. -/
theorem ipSetRead_post (h : Helpers) (c : APIClient) (d : ResourceData) (r : Result)
    (hh : ∀ d tags, (h.setTagsInSchema d tags).id = d.id)
    (hr : resourceNsxtIPSetRead h c d = .ok r) :
    r.calls = (if d.id = "" then [] else [Call.ReadIPSet d.id]) ∧
    (r.d.id = d.id ∨
      (r.d = d.SetId "" ∧ r.err = none ∧
        ∃ resp, (c.ReadIPSet d.id).2.1 = some resp ∧ resp.StatusCode = 404)) := by
  unfold resourceNsxtIPSetRead at hr
  by_cases hid : d.id = ""
  · simp [ResourceData.Id, hid, pure, Except.pure] at hr
    subst hr
    simp [hid]
  · rcases hres : c.ReadIPSet d.id with ⟨obj, resp, err⟩
    simp only [ResourceData.Id, hid, if_false, hres] at hr
    cases resp with
    | none =>
      cases err with
      | some e =>
        simp [pure, Except.pure, throw, throwThe, MonadExceptOf.throw] at hr
        try subst hr
        try simp [hid]
      | none => simp [throw, throwThe, MonadExceptOf.throw] at hr
    | some resp =>
      by_cases hst : resp.StatusCode = StatusNotFound
      · cases err with
        | some e =>
          simp [hst, pure, Except.pure] at hr
          subst hr
          simp [hid]
          try exact Or.inr hst
        | none =>
          simp [hst, pure, Except.pure] at hr
          subst hr
          simp [hid]
          exact Or.inr hst
      · cases err with
        | some e =>
          simp [hst, pure, Except.pure] at hr
          subst hr
          simp [hid]
        | none =>
          simp [hst, pure, Except.pure] at hr
          subst hr
          simp [hid, ResourceData.Set_id, hh]

/-- Whatever the read handler of the fast TCP profile returns, it issued the read call alone (no
call at all on an empty identifier), and the identifier is the one before the call
unless the call was answered with status 404, in which case the state is the one
before the call with the identifier cleared. -/
theorem lbFastTcpRead_post (h : Helpers) (c : APIClient) (d : ResourceData) (r : Result)
    (hh : ∀ d tags, (h.setTagsInSchema d tags).id = d.id)
    (hr : resourceNsxtLbFastTCPApplicationProfileRead h c d = .ok r) :
    r.calls = (if d.id = "" then [] else [Call.ReadLoadBalancerFastTcpProfile d.id]) ∧
    (r.d.id = d.id ∨
      (r.d = d.SetId "" ∧ r.err = none ∧
        ∃ resp, (c.ReadLoadBalancerFastTcpProfile d.id).2.1 = some resp ∧ resp.StatusCode = 404)) := by
  unfold resourceNsxtLbFastTCPApplicationProfileRead at hr
  by_cases hid : d.id = ""
  · simp [ResourceData.Id, hid, pure, Except.pure] at hr
    subst hr
    simp [hid]
  · rcases hres : c.ReadLoadBalancerFastTcpProfile d.id with ⟨obj, resp, err⟩
    simp only [ResourceData.Id, hid, if_false, hres] at hr
    cases resp with
    | none =>
      cases err with
      | some e =>
        simp [pure, Except.pure, throw, throwThe, MonadExceptOf.throw] at hr
        try subst hr
        try simp [hid]
      | none => simp [throw, throwThe, MonadExceptOf.throw] at hr
    | some resp =>
      by_cases hst : resp.StatusCode = StatusNotFound
      · cases err with
        | some e =>
          simp [hst, pure, Except.pure] at hr
          subst hr
          simp [hid]
          try exact Or.inr hst
        | none =>
          simp [hst, pure, Except.pure] at hr
          subst hr
          simp [hid]
          exact Or.inr hst
      · cases err with
        | some e =>
          simp [hst, pure, Except.pure] at hr
          subst hr
          simp [hid]
        | none =>
          simp [hst, pure, Except.pure] at hr
          subst hr
          simp [hid, ResourceData.Set_id, hh]

/-- Whatever the read handler of the ICMP service returns, it issued the read call alone (no
call at all on an empty identifier), and the identifier is the one before the call
unless the call was answered with status 404, in which case the state is the one
before the call with the identifier cleared. -/
theorem icmpRead_post (h : Helpers) (c : APIClient) (d : ResourceData) (r : Result)
    (hh : ∀ d tags, (h.setTagsInSchema d tags).id = d.id)
    (hr : resourceNsxtIcmpTypeNsServiceRead h c d = .ok r) :
    r.calls = (if d.id = "" then [] else [Call.ReadIcmpTypeNSService d.id]) ∧
    (r.d.id = d.id ∨
      (r.d = d.SetId "" ∧ r.err = none ∧
        ∃ resp, (c.ReadIcmpTypeNSService d.id).2.1 = some resp ∧ resp.StatusCode = 404)) := by
  unfold resourceNsxtIcmpTypeNsServiceRead at hr
  by_cases hid : d.id = ""
  · simp [ResourceData.Id, hid, pure, Except.pure] at hr
    subst hr
    simp [hid]
  · rcases hres : c.ReadIcmpTypeNSService d.id with ⟨obj, resp, err⟩
    simp only [ResourceData.Id, hid, if_false, hres] at hr
    cases resp with
    | none =>
      cases err with
      | some e =>
        simp [pure, Except.pure, throw, throwThe, MonadExceptOf.throw] at hr
        try subst hr
        try simp [hid]
      | none => simp [throw, throwThe, MonadExceptOf.throw] at hr
    | some resp =>
      by_cases hst : resp.StatusCode = StatusNotFound
      · cases err with
        | some e =>
          simp [hst, pure, Except.pure] at hr
          subst hr
          simp [hid]
          try exact Or.inr hst
        | none =>
          simp [hst, pure, Except.pure] at hr
          subst hr
          simp [hid]
          exact Or.inr hst
      · cases err with
        | some e =>
          simp [hst, pure, Except.pure] at hr
          subst hr
          simp [hid]
        | none =>
          simp [hst, pure, Except.pure] at hr
          subst hr
          simp [hid, ResourceData.Set_id, hh]

/-- A create or update that ends in a read and returns, returns what the read returned,
with its own calls in front. -/
theorem thenRead_ok (calls : List Call) (read : Except String Result) (res : Result)
    (h : thenRead calls read = .ok res) :
    ∃ r, read = .ok r ∧ res = { r with calls := calls ++ r.calls } := by
  cases read with
  | error e => simp [thenRead, Except.map] at h
  | ok r =>
    simp [thenRead, Except.map] at h
    exact ⟨r, rfl, h.symm⟩

/-- The read handler of the ICMP service returns an error and keeps the state when the
client returns an error together with a status other than 404. -/
theorem icmpRead_error_other_status (h : Helpers) (c : APIClient) (d : ResourceData)
    (r : Response) (e : String) (hid : d.id ≠ "")
    (hres : (c.ReadIcmpTypeNSService d.id).2 = (some r, some e))
    (hst : r.StatusCode ≠ 404) :
    resourceNsxtIcmpTypeNsServiceRead h c d =
      .ok { d := d, err := some ("Error during NsService read: " ++ e),
            calls := [Call.ReadIcmpTypeNSService d.id] } := by
  rcases hcall : c.ReadIcmpTypeNSService d.id with ⟨obj, resp, err⟩
  rw [hcall] at hres
  simp only [Prod.mk.injEq] at hres
  obtain ⟨h1, h2⟩ := hres
  subst h1 h2
  simp [resourceNsxtIcmpTypeNsServiceRead, ResourceData.Id, hid, hcall, StatusNotFound, hst,
    pure, Except.pure]

/-- C15: a read whose remote call is a client error with a status other than 404
returns an error after that one call, and the state, identifier and attributes, is
the one before the call, for each of the four read handlers. -/
theorem read_failure_keeps_state (h : Helpers) (c : APIClient) (d : ResourceData)
    (r : Response) (e : String) (hid : d.id ≠ "") (hst : r.StatusCode ≠ 404) :
    ((c.ReadIPSet d.id).2 = (some r, some e) →
      resourceNsxtIPSetRead h c d =
        .ok { d := d, err := some ("Error during IpSet read: " ++ e),
              calls := [Call.ReadIPSet d.id] }) ∧
    ((c.ReadLoadBalancerPool d.id).2 = (some r, some e) →
      resourceNsxtLbPoolRead h c d =
        .ok { d := d, err := some ("Error during LbPool read: " ++ e),
              calls := [Call.ReadLoadBalancerPool d.id] }) ∧
    ((c.ReadLoadBalancerFastTcpProfile d.id).2 = (some r, some e) →
      resourceNsxtLbFastTCPApplicationProfileRead h c d =
        .ok { d := d, err := some ("Error during LbFastTcpProfile read: " ++ e),
              calls := [Call.ReadLoadBalancerFastTcpProfile d.id] }) ∧
    ((c.ReadIcmpTypeNSService d.id).2 = (some r, some e) →
      resourceNsxtIcmpTypeNsServiceRead h c d =
        .ok { d := d, err := some ("Error during NsService read: " ++ e),
              calls := [Call.ReadIcmpTypeNSService d.id] }) := by
  refine ⟨?_, ?_, ?_, ?_⟩
  · intro hres
    exact (reads_error_first h c d e hid).1 (by rw [hres])
  · intro hres
    exact (reads_error_first h c d e hid).2.1 (by rw [hres])
  · intro hres
    exact (reads_error_first h c d e hid).2.2 (by rw [hres])
  · intro hres
    exact icmpRead_error_other_status h c d r e hid hres hst

/-- C15, at the identifier `id-1` and a client that answers every call with status 500
and the error `500 Internal Server Error`. -/
theorem read_failure_keeps_state_witness :
    resourceNsxtIPSetRead plainHelpers
        (constClient (some { StatusCode := 500 }) (some "500 Internal Server Error"))
        (stateOf resourceNsxtIPSetSchema "id-1") =
      .ok { d := stateOf resourceNsxtIPSetSchema "id-1",
            err := some "Error during IpSet read: 500 Internal Server Error",
            calls := [Call.ReadIPSet "id-1"] } ∧
    resourceNsxtIcmpTypeNsServiceRead plainHelpers
        (constClient (some { StatusCode := 500 }) (some "500 Internal Server Error"))
        (stateOf resourceNsxtIcmpTypeNsServiceSchema "id-1") =
      .ok { d := stateOf resourceNsxtIcmpTypeNsServiceSchema "id-1",
            err := some "Error during NsService read: 500 Internal Server Error",
            calls := [Call.ReadIcmpTypeNSService "id-1"] } :=
  ⟨(read_failure_keeps_state plainHelpers
      (constClient (some { StatusCode := 500 }) (some "500 Internal Server Error"))
      (stateOf resourceNsxtIPSetSchema "id-1") { StatusCode := 500 }
      "500 Internal Server Error" (by decide) (by decide)).1 rfl,
   (read_failure_keeps_state plainHelpers
      (constClient (some { StatusCode := 500 }) (some "500 Internal Server Error"))
      (stateOf resourceNsxtIcmpTypeNsServiceSchema "id-1") { StatusCode := 500 }
      "500 Internal Server Error" (by decide) (by decide)).2.2.2 rfl⟩

/-- C16 as stated fails: with revision 2147483648 in state, the update handlers of the
pool and of the fast TCP profile send revision -2147483648. -/
theorem update_revision_counterexample :
    (revisionState (resourceNsxtLbPoolSchema GetResourceReferencesSchema)
        2147483648).Get "revision" = Value.int 2147483648 ∧
    resourceNsxtLbPoolUpdate plainHelpers notFoundClient
        (revisionState (resourceNsxtLbPoolSchema GetResourceReferencesSchema) 2147483648) =
      .ok { d := revisionState (resourceNsxtLbPoolSchema GetResourceReferencesSchema)
              2147483648,
            err := some "Error during LbPool update: 404 Not Found",
            calls := [Call.UpdateLoadBalancerPool "id-1"
              ⟨"", -2147483648, "", "", [], [], "", 0, "", none, false, 0, [], none⟩] } ∧
    resourceNsxtLbFastTCPApplicationProfileUpdate plainHelpers notFoundClient
        (revisionState resourceNsxtLbFastTCPApplicationProfileSchema 2147483648) =
      .ok { d := revisionState resourceNsxtLbFastTCPApplicationProfileSchema 2147483648,
            err := some "Error during LbFastTcpProfile update: 404 Not Found",
            calls := [Call.UpdateLoadBalancerFastTcpProfile "id-1"
              ⟨"", -2147483648, "", "", [], 0, false, 0⟩] } ∧
    (-2147483648 : Int) ≠ 2147483648 :=
  ⟨rfl, rfl, rfl, by decide⟩

/-- Whatever an update returns, its first remote call is the update call. -/
theorem updateTail_first_call (errText : Option String → Option Response → String)
    (call : Call) (read : Except String Result) (d : ResourceData)
    (resp : Option Response) (err : Option String) (r : Result)
    (hr : updateTail errText call read d resp err = .ok r) :
    r.calls.head? = some call := by
  unfold updateTail at hr
  cases err with
  | some e =>
    simp [pure, Except.pure] at hr
    subst hr
    rfl
  | none =>
    cases resp with
    | none => simp [throw, throwThe, MonadExceptOf.throw] at hr
    | some resp =>
      by_cases hst : resp.StatusCode = StatusNotFound
      · simp [hst, pure, Except.pure] at hr
        subst hr
        rfl
      · simp only [hst, if_false] at hr
        obtain ⟨r2, _, hrr⟩ := thenRead_ok _ _ _ hr
        rw [hrr]
        rfl

/-- C16, amended: the request an update handler sends carries the revision held in
state, widened to `int64` for the IP set and the ICMP service, so equal to it, and
narrowed to `int32` for the pool and the fast TCP profile, so equal to it whenever it
lies in the signed 32-bit range. The handler does with the outcome of the call on that
request what every update handler does, and whenever it returns, that call is the
first in its call log. -/
theorem update_carries_revision (h : Helpers) (c : APIClient) (d : ResourceData)
    (hid : d.id ≠ "") :
    (d.schema = resourceNsxtIPSetSchema →
      ∃ rev req, d.Get "revision" = Value.int rev ∧ req.Revision = rev ∧
        resourceNsxtIPSetUpdate h c d =
          updateTail (fun err _ => "Error during IpSet update: " ++ fmtErr err)
            (Call.UpdateIPSet d.id req) (resourceNsxtIPSetRead h c d) d
            (c.UpdateIPSet d.id req).2.1 (c.UpdateIPSet d.id req).2.2 ∧
        ∀ res, resourceNsxtIPSetUpdate h c d = .ok res →
          res.calls.head? = some (Call.UpdateIPSet d.id req)) ∧
    (∀ e, d.schema = resourceNsxtLbPoolSchema (Schema.TypeList e) →
      ∃ rev req, d.Get "revision" = Value.int rev ∧ req.Revision = int32 rev ∧
        (-2147483648 ≤ rev → rev < 2147483648 → req.Revision = rev) ∧
        resourceNsxtLbPoolUpdate h c d =
          updateTail (fun err _ => "Error during LbPool update: " ++ fmtErr err)
            (Call.UpdateLoadBalancerPool d.id req) (resourceNsxtLbPoolRead h c d) d
            (c.UpdateLoadBalancerPool d.id req).2.1
            (c.UpdateLoadBalancerPool d.id req).2.2 ∧
        ∀ res, resourceNsxtLbPoolUpdate h c d = .ok res →
          res.calls.head? = some (Call.UpdateLoadBalancerPool d.id req)) ∧
    (d.schema = resourceNsxtLbFastTCPApplicationProfileSchema →
      ∃ rev req, d.Get "revision" = Value.int rev ∧ req.Revision = int32 rev ∧
        (-2147483648 ≤ rev → rev < 2147483648 → req.Revision = rev) ∧
        resourceNsxtLbFastTCPApplicationProfileUpdate h c d =
          updateTail (fun err _ => "Error during LbFastTcpProfile update: " ++ fmtErr err)
            (Call.UpdateLoadBalancerFastTcpProfile d.id req)
            (resourceNsxtLbFastTCPApplicationProfileRead h c d) d
            (c.UpdateLoadBalancerFastTcpProfile d.id req).2.1
            (c.UpdateLoadBalancerFastTcpProfile d.id req).2.2 ∧
        ∀ res, resourceNsxtLbFastTCPApplicationProfileUpdate h c d = .ok res →
          res.calls.head? = some (Call.UpdateLoadBalancerFastTcpProfile d.id req)) ∧
    (d.schema = resourceNsxtIcmpTypeNsServiceSchema →
      ∃ rev req, d.Get "revision" = Value.int rev ∧ req.NsService.Revision = rev ∧
        resourceNsxtIcmpTypeNsServiceUpdate h c d =
          updateTail
            (fun err resp => "Error during NsService update: " ++ fmtErr err ++ " " ++
              fmtResp resp)
            (Call.UpdateIcmpTypeNSService d.id req)
            (resourceNsxtIcmpTypeNsServiceRead h c d) d
            (c.UpdateIcmpTypeNSService d.id req).2.1
            (c.UpdateIcmpTypeNSService d.id req).2.2 ∧
        ∀ res, resourceNsxtIcmpTypeNsServiceUpdate h c d = .ok res →
          res.calls.head? = some (Call.UpdateIcmpTypeNSService d.id req)) := by
  refine ⟨?_, ?_, ?_, ?_⟩
  · intro hs
    obtain ⟨rev, req, hget, hrev, hupd⟩ := ipSetUpdate_shape h c d hs hid
    exact ⟨rev, req, hget, hrev, hupd,
      fun res hres => updateTail_first_call _ _ _ _ _ _ res (hupd ▸ hres)⟩
  · intro e hs
    obtain ⟨rev, req, hget, hrev, hupd⟩ := lbPoolUpdate_shape h c d e hs hid
    exact ⟨rev, req, hget, hrev,
      fun hlo hhi => hrev.trans (int32_of_in_range rev hlo hhi), hupd,
      fun res hres => updateTail_first_call _ _ _ _ _ _ res (hupd ▸ hres)⟩
  · intro hs
    obtain ⟨rev, req, hget, hrev, hupd⟩ := lbFastTcpUpdate_shape h c d hs hid
    exact ⟨rev, req, hget, hrev,
      fun hlo hhi => hrev.trans (int32_of_in_range rev hlo hhi), hupd,
      fun res hres => updateTail_first_call _ _ _ _ _ _ res (hupd ▸ hres)⟩
  · intro hs
    obtain ⟨rev, req, hget, hrev, hupd⟩ := icmpUpdate_shape h c d hs hid
    exact ⟨rev, req, hget, hrev, hupd,
      fun res hres => updateTail_first_call _ _ _ _ _ _ res (hupd ▸ hres)⟩

/-- C16 amended, at revision 7 held in a pool state: the request carries revision 7. -/
theorem update_carries_revision_witness :
    ∃ req : LbPool, req.Revision = 7 ∧
      resourceNsxtLbPoolUpdate plainHelpers notFoundClient
          (revisionState (resourceNsxtLbPoolSchema GetResourceReferencesSchema) 7) =
        .ok { d := revisionState (resourceNsxtLbPoolSchema GetResourceReferencesSchema) 7,
              err := some "Error during LbPool update: 404 Not Found",
              calls := [Call.UpdateLoadBalancerPool "id-1" req] } :=
  let ⟨rev, req, hget, _, hin, hupd, _⟩ :=
    (update_carries_revision plainHelpers notFoundClient
      (revisionState (resourceNsxtLbPoolSchema GetResourceReferencesSchema) 7)
      (by decide)).2.1 _ rfl
  have hrev : rev = 7 := by
    have h7 : (revisionState (resourceNsxtLbPoolSchema GetResourceReferencesSchema) 7).Get
        "revision" = Value.int 7 := rfl
    rw [h7] at hget
    cases hget
    rfl
  ⟨req, by rw [hin (by omega) (by omega), hrev], hupd⟩

/-- An update that returns either left the state as it was or returned what the read
handler returned, with the update call in front. -/
theorem updateTail_ok_cases (errText : Option String → Option Response → String)
    (call : Call) (read : Except String Result) (d : ResourceData)
    (resp : Option Response) (err : Option String) (r : Result)
    (hr : updateTail errText call read d resp err = .ok r) :
    r.d = d ∨ ∃ r2, read = .ok r2 ∧ r = { r2 with calls := [call] ++ r2.calls } := by
  unfold updateTail at hr
  cases err with
  | some e =>
    simp [pure, Except.pure] at hr
    subst hr
    exact Or.inl rfl
  | none =>
    cases resp with
    | none => simp [throw, throwThe, MonadExceptOf.throw] at hr
    | some resp =>
      by_cases hst : resp.StatusCode = StatusNotFound
      · simp [hst, pure, Except.pure] at hr
        subst hr
        exact Or.inl rfl
      · simp only [hst, if_false] at hr
        exact Or.inr (thenRead_ok _ _ _ hr)

/-- A create that returns either left the state as it was or returned what the read
handler returned on the state with the new identifier, with the create call in
front. -/
theorem createTail_ok_cases (accepted : Int → Bool) (errText statusText : String)
    (call : Call) (read : ResourceData → Except String Result) (d : ResourceData)
    (id : String) (resp : Option Response) (err : Option String) (r : Result)
    (hr : createTail accepted errText statusText call read d id resp err = .ok r) :
    r.d = d ∨
      ∃ r2, read (d.SetId id) = .ok r2 ∧ r = { r2 with calls := [call] ++ r2.calls } := by
  unfold createTail at hr
  cases err with
  | some e =>
    simp [pure, Except.pure] at hr
    subst hr
    exact Or.inl rfl
  | none =>
    cases resp with
    | none => simp [throw, throwThe, MonadExceptOf.throw] at hr
    | some resp =>
      by_cases hacc : accepted resp.StatusCode = true
      · simp only [hacc, if_true] at hr
        exact Or.inr (thenRead_ok _ _ _ hr)
      · simp [hacc, pure, Except.pure] at hr
        subst hr
        exact Or.inl rfl

/-- After a read step the identifier is the one before the step, unless it was cleared
on a read call answered with status 404. -/
theorem read_step_id (h : Helpers) (c : APIClient) (k : Kind) (d : ResourceData)
    (r : Result) (hh : ∀ d tags, (h.setTagsInSchema d tags).id = d.id)
    (hr : handler k Op.Read h c d = .ok r) :
    r.d.id = d.id ∨
      (r.d.id = "" ∧ ∃ call ∈ r.calls, ∃ resp, readResponse c call = some resp ∧
        resp.StatusCode = 404) := by
  have key : ∀ (call : Call) (resp0 : Option Response),
      readResponse c call = resp0 →
      (r.calls = (if d.id = "" then [] else [call]) ∧
        (r.d.id = d.id ∨ (r.d = d.SetId "" ∧ r.err = none ∧
          ∃ resp, resp0 = some resp ∧ resp.StatusCode = 404))) →
      r.d.id = d.id ∨
        (r.d.id = "" ∧ ∃ call ∈ r.calls, ∃ resp, readResponse c call = some resp ∧
          resp.StatusCode = 404) := by
    intro call resp0 hcall hpost
    obtain ⟨hcalls, hid | ⟨hd, _, resp, hresp, hst⟩⟩ := hpost
    · exact Or.inl hid
    · by_cases hempty : d.id = ""
      · left
        rw [hd, hempty]
        rfl
      · right
        refine ⟨by rw [hd]; rfl, call, ?_, resp, ?_, hst⟩
        · simp [hcalls, hempty]
        · rw [hcall, hresp]
  cases k with
  | IpSet => exact key _ _ rfl (ipSetRead_post h c d r hh hr)
  | LbPool => exact key _ _ rfl (lbPoolRead_post h c d r hh hr)
  | LbFastTcpProfile => exact key _ _ rfl (lbFastTcpRead_post h c d r hh hr)
  | IcmpTypeNsService => exact key _ _ rfl (icmpRead_post h c d r hh hr)

/-- After a delete step the identifier is the one before the step, unless it was
cleared on a delete call answered with status 404. -/
theorem delete_step_id (h : Helpers) (c : APIClient) (k : Kind) (d : ResourceData)
    (r : Result) (hr : handler k Op.Delete h c d = .ok r) :
    r.d.id = d.id ∨
      (r.d.id = "" ∧ ∃ call ∈ r.calls, ∃ resp, deleteResponse c call = some resp ∧
        resp.StatusCode = 404) := by
  cases k with
  | IpSet =>
    simp only [handler] at hr
    unfold resourceNsxtIPSetDelete at hr
    by_cases hid : d.id = ""
    · simp [ResourceData.Id, hid, pure, Except.pure] at hr
      subst hr
      exact Or.inl rfl
    · rcases hres : c.DeleteIPSet d.id [] with ⟨resp, err⟩
      simp only [ResourceData.Id, hid, if_false, hres] at hr
      cases err with
      | some e =>
        simp [pure, Except.pure] at hr
        subst hr
        exact Or.inl rfl
      | none =>
        cases resp with
        | none => simp [throw, throwThe, MonadExceptOf.throw] at hr
        | some resp =>
          by_cases hst : resp.StatusCode = StatusNotFound
          · simp [hst, pure, Except.pure] at hr
            subst hr
            exact Or.inr ⟨rfl, _, List.mem_singleton.mpr rfl, resp,
              by simp [deleteResponse, hres], hst⟩
          · simp [hst, pure, Except.pure] at hr
            subst hr
            exact Or.inl rfl
  | LbPool =>
    simp only [handler] at hr
    unfold resourceNsxtLbPoolDelete at hr
    by_cases hid : d.id = ""
    · simp [ResourceData.Id, hid, pure, Except.pure] at hr
      subst hr
      exact Or.inl rfl
    · rcases hres : c.DeleteLoadBalancerPool d.id with ⟨resp, err⟩
      simp only [ResourceData.Id, hid, if_false, hres] at hr
      cases err with
      | some e =>
        simp [pure, Except.pure] at hr
        subst hr
        exact Or.inl rfl
      | none =>
        cases resp with
        | none => simp [throw, throwThe, MonadExceptOf.throw] at hr
        | some resp =>
          by_cases hst : resp.StatusCode = StatusNotFound
          · simp [hst, pure, Except.pure] at hr
            subst hr
            exact Or.inr ⟨rfl, _, List.mem_singleton.mpr rfl, resp,
              by simp [deleteResponse, hres], hst⟩
          · simp [hst, pure, Except.pure] at hr
            subst hr
            exact Or.inl rfl
  | LbFastTcpProfile =>
    simp only [handler] at hr
    unfold resourceNsxtLbFastTCPApplicationProfileDelete at hr
    by_cases hid : d.id = ""
    · simp [ResourceData.Id, hid, pure, Except.pure] at hr
      subst hr
      exact Or.inl rfl
    · rcases hres : c.DeleteLoadBalancerApplicationProfile d.id with ⟨resp, err⟩
      simp only [ResourceData.Id, hid, if_false, hres] at hr
      cases err with
      | some e =>
        simp [pure, Except.pure] at hr
        subst hr
        exact Or.inl rfl
      | none =>
        cases resp with
        | none => simp [throw, throwThe, MonadExceptOf.throw] at hr
        | some resp =>
          by_cases hst : resp.StatusCode = StatusNotFound
          · simp [hst, pure, Except.pure] at hr
            subst hr
            exact Or.inr ⟨rfl, _, List.mem_singleton.mpr rfl, resp,
              by simp [deleteResponse, hres], hst⟩
          · simp [hst, pure, Except.pure] at hr
            subst hr
            exact Or.inl rfl
  | IcmpTypeNsService =>
    simp only [handler] at hr
    unfold resourceNsxtIcmpTypeNsServiceDelete at hr
    by_cases hid : d.id = ""
    · simp [ResourceData.Id, hid, pure, Except.pure] at hr
      subst hr
      exact Or.inl rfl
    · rcases hres : c.DeleteNSService d.id [] with ⟨resp, err⟩
      simp only [ResourceData.Id, hid, if_false, hres] at hr
      cases err with
      | some e =>
        simp [pure, Except.pure] at hr
        subst hr
        exact Or.inl rfl
      | none =>
        cases resp with
        | none => simp [throw, throwThe, MonadExceptOf.throw] at hr
        | some resp =>
          by_cases hst : resp.StatusCode = StatusNotFound
          · simp [hst, pure, Except.pure] at hr
            subst hr
            exact Or.inr ⟨rfl, _, List.mem_singleton.mpr rfl, resp,
              by simp [deleteResponse, hres], hst⟩
          · simp [hst, pure, Except.pure] at hr
            subst hr
            exact Or.inl rfl

/-- After an update step the identifier is the one before the step, unless the read
that follows the update cleared it on a read call answered with status 404. -/
theorem update_step_id (h : Helpers) (c : APIClient) (k : Kind) (e : Schema)
    (d : ResourceData) (r : Result)
    (hh : ∀ d tags, (h.setTagsInSchema d tags).id = d.id)
    (hs : d.schema = kindSchema (Schema.TypeList e) k)
    (hr : handler k Op.Update h c d = .ok r) :
    r.d.id = d.id ∨
      (r.d.id = "" ∧ ∃ call ∈ r.calls, ∃ resp, readResponse c call = some resp ∧
        resp.StatusCode = 404) := by
  have fromTail : ∀ (call : Call) (read : Except String Result),
      read = handler k Op.Read h c d →
      (r.d = d ∨ ∃ r2, read = .ok r2 ∧ r = { r2 with calls := [call] ++ r2.calls }) →
      r.d.id = d.id ∨
        (r.d.id = "" ∧ ∃ call ∈ r.calls, ∃ resp, readResponse c call = some resp ∧
          resp.StatusCode = 404) := by
    intro call read hread hcases
    rcases hcases with hd | ⟨r2, hr2, hrr⟩
    · exact Or.inl (by rw [hd])
    · rw [hread] at hr2
      rcases read_step_id h c k d r2 hh hr2 with hid | ⟨hid, call2, hmem, resp, hresp, hst⟩
      · exact Or.inl (by rw [hrr]; exact hid)
      · refine Or.inr ⟨by rw [hrr]; exact hid, call2, ?_, resp, hresp, hst⟩
        rw [hrr]
        exact List.mem_append_right _ hmem
  by_cases hid : d.id = ""
  · cases k with
    | IpSet =>
      simp [handler, resourceNsxtIPSetUpdate, ResourceData.Id, hid, pure, Except.pure] at hr
      subst hr
      exact Or.inl rfl
    | LbPool =>
      simp [handler, resourceNsxtLbPoolUpdate, ResourceData.Id, hid, pure, Except.pure] at hr
      subst hr
      exact Or.inl rfl
    | LbFastTcpProfile =>
      simp [handler, resourceNsxtLbFastTCPApplicationProfileUpdate, ResourceData.Id, hid, pure, Except.pure] at hr
      subst hr
      exact Or.inl rfl
    | IcmpTypeNsService =>
      simp [handler, resourceNsxtIcmpTypeNsServiceUpdate, ResourceData.Id, hid, pure, Except.pure] at hr
      subst hr
      exact Or.inl rfl
  · cases k with
    | IpSet =>
      obtain ⟨rev, req, _, _, hshape⟩ := ipSetUpdate_shape h c d hs hid
      simp only [handler] at hr
      rw [hshape] at hr
      exact fromTail _ _ rfl (updateTail_ok_cases _ _ _ _ _ _ _ hr)
    | LbPool =>
      obtain ⟨rev, req, _, _, hshape⟩ := lbPoolUpdate_shape h c d e hs hid
      simp only [handler] at hr
      rw [hshape] at hr
      exact fromTail _ _ rfl (updateTail_ok_cases _ _ _ _ _ _ _ hr)
    | LbFastTcpProfile =>
      obtain ⟨rev, req, _, _, hshape⟩ := lbFastTcpUpdate_shape h c d hs hid
      simp only [handler] at hr
      rw [hshape] at hr
      exact fromTail _ _ rfl (updateTail_ok_cases _ _ _ _ _ _ _ hr)
    | IcmpTypeNsService =>
      obtain ⟨rev, req, _, _, hshape⟩ := icmpUpdate_shape h c d hs hid
      simp only [handler] at hr
      rw [hshape] at hr
      exact fromTail _ _ rfl (updateTail_ok_cases _ _ _ _ _ _ _ hr)

/-- After a create step the identifier is the one before the step, or empty, or the Id
the client returned on the create call. -/
theorem create_step_id (h : Helpers) (c : APIClient) (k : Kind) (e : Schema)
    (d : ResourceData) (r : Result)
    (hh : ∀ d tags, (h.setTagsInSchema d tags).id = d.id)
    (hs : d.schema = kindSchema (Schema.TypeList e) k)
    (hr : handler k Op.Create h c d = .ok r) :
    r.d.id = d.id ∨ r.d.id = "" ∨ ∃ call ∈ r.calls, createdId c call = some r.d.id := by
  have fromTail : ∀ (call : Call) (id : String)
      (read : ResourceData → Except String Result),
      createdId c call = some id → read = handler k Op.Read h c →
      (r.d = d ∨
        ∃ r2, read (d.SetId id) = .ok r2 ∧ r = { r2 with calls := [call] ++ r2.calls }) →
      r.d.id = d.id ∨ r.d.id = "" ∨ ∃ call ∈ r.calls, createdId c call = some r.d.id := by
    intro call id read hcreated hread hcases
    rcases hcases with hd | ⟨r2, hr2, hrr⟩
    · exact Or.inl (by rw [hd])
    · rw [hread] at hr2
      rcases read_step_id h c k (d.SetId id) r2 hh hr2 with hid | ⟨hid, _⟩
      · refine Or.inr (Or.inr ⟨call, ?_, ?_⟩)
        · rw [hrr]
          exact List.mem_append_left _ (List.mem_singleton.mpr rfl)
        · rw [hcreated, hrr]
          exact congrArg some hid.symm
      · exact Or.inr (Or.inl (by rw [hrr]; exact hid))
  cases k with
  | IpSet =>
    obtain ⟨req, hshape⟩ := ipSetCreate_shape h c d hs
    simp only [handler] at hr
    rw [hshape] at hr
    have hc := createTail_ok_cases _ _ _ _ _ _ _ _ _ _ hr
    refine fromTail _ _ _ ?_ ?_ hc <;> rfl
  | LbPool =>
    obtain ⟨req, hshape⟩ := lbPoolCreate_shape h c d e hs
    simp only [handler] at hr
    rw [hshape] at hr
    have hc := createTail_ok_cases _ _ _ _ _ _ _ _ _ _ hr
    refine fromTail _ _ _ ?_ ?_ hc <;> rfl
  | LbFastTcpProfile =>
    obtain ⟨req, hshape⟩ := lbFastTcpCreate_shape h c d hs
    simp only [handler] at hr
    rw [hshape] at hr
    have hc := createTail_ok_cases _ _ _ _ _ _ _ _ _ _ hr
    refine fromTail _ _ _ ?_ ?_ hc <;> rfl
  | IcmpTypeNsService =>
    obtain ⟨req, hshape⟩ := icmpCreate_shape h c d hs
    simp only [handler] at hr
    rw [hshape] at hr
    have hc := createTail_ok_cases _ _ _ _ _ _ _ _ _ _ hr
    refine fromTail _ _ _ ?_ ?_ hc <;> rfl

/-- C17: along a lifecycle step of any of the four resources, for every client, the
identifier after a read, update or delete is the one before the step or empty; an
identifier that is non-empty and differs from the one before the step was assigned by
a create and is the Id returned by the create call; and a non-empty identifier is
cleared only by a delete whose call was answered with status 404, or by a read (alone
or following an update) whose call was answered with status 404. The helper that
writes the tags is taken to keep the identifier. -/
theorem identifier_invariant (h : Helpers) (c : APIClient) (k : Kind) (e : Schema)
    (d : ResourceData) (op : Op) (r : Result)
    (hh : ∀ d tags, (h.setTagsInSchema d tags).id = d.id)
    (hs : d.schema = kindSchema (Schema.TypeList e) k)
    (hstep : Step h c k d op r) :
    (op ≠ Op.Create → r.d.id = d.id ∨ r.d.id = "") ∧
    (r.d.id ≠ "" → r.d.id ≠ d.id →
      op = Op.Create ∧ ∃ call ∈ r.calls, createdId c call = some r.d.id) ∧
    (d.id ≠ "" → r.d.id = "" →
      (op = Op.Delete ∧ ∃ call ∈ r.calls, ∃ resp, deleteResponse c call = some resp ∧
        resp.StatusCode = 404) ∨
      ((op = Op.Read ∨ op = Op.Update) ∧ ∃ call ∈ r.calls, ∃ resp,
        readResponse c call = some resp ∧ resp.StatusCode = 404)) := by
  obtain ⟨hr, hcreate⟩ := hstep
  cases op with
  | Create =>
    have hempty := hcreate rfl
    refine ⟨fun hne => absurd rfl hne, ?_, fun hne => absurd hempty hne⟩
    intro hne1 hne2
    rcases create_step_id h c k e d r hh hs hr with hid | hid | hid
    · exact absurd hid hne2
    · exact absurd hid hne1
    · exact ⟨rfl, hid⟩
  | Read =>
    rcases read_step_id h c k d r hh hr with hid | ⟨hid, hcall⟩
    · exact ⟨fun _ => Or.inl hid, fun _ hne => absurd hid hne,
        fun hne hclear => absurd (hid.symm.trans hclear) hne⟩
    · exact ⟨fun _ => Or.inr hid, fun hne _ => absurd hid hne,
        fun _ _ => Or.inr ⟨Or.inl rfl, hcall⟩⟩
  | Update =>
    rcases update_step_id h c k e d r hh hs hr with hid | ⟨hid, hcall⟩
    · exact ⟨fun _ => Or.inl hid, fun _ hne => absurd hid hne,
        fun hne hclear => absurd (hid.symm.trans hclear) hne⟩
    · exact ⟨fun _ => Or.inr hid, fun hne _ => absurd hid hne,
        fun _ _ => Or.inr ⟨Or.inr rfl, hcall⟩⟩
  | Delete =>
    rcases delete_step_id h c k d r hr with hid | ⟨hid, hcall⟩
    · exact ⟨fun _ => Or.inl hid, fun _ hne => absurd hid hne,
        fun hne hclear => absurd (hid.symm.trans hclear) hne⟩
    · exact ⟨fun _ => Or.inr hid, fun hne _ => absurd hid hne,
        fun _ _ => Or.inl ⟨rfl, hcall⟩⟩

/-- C17, at two steps: a create of a pool answered with the Id `pool-7` ends with the
identifier `pool-7`, the Id returned by the create call; a read of the ICMP service
`id-1` answered with status 404 ends with the identifier cleared. -/
theorem identifier_invariant_witness :
    (∃ r, Step plainHelpers (createdClient "pool-7") Kind.LbPool memberExampleData
        Op.Create r ∧ r.d.id = "pool-7" ∧
      ∃ call ∈ r.calls, createdId (createdClient "pool-7") call = some r.d.id) ∧
    (Step plainHelpers notFoundClient Kind.IcmpTypeNsService
        (stateOf resourceNsxtIcmpTypeNsServiceSchema "id-1") Op.Read
        { d := stateOf resourceNsxtIcmpTypeNsServiceSchema "", err := none,
          calls := [Call.ReadIcmpTypeNSService "id-1"] } ∧
      ∃ call ∈ [Call.ReadIcmpTypeNSService "id-1"], ∃ resp,
        readResponse notFoundClient call = some resp ∧ resp.StatusCode = 404) :=
  ⟨⟨_, ⟨rfl, fun _ => rfl⟩, rfl,
      ((identifier_invariant plainHelpers (createdClient "pool-7") Kind.LbPool _
        memberExampleData Op.Create _ (fun _ _ => rfl) rfl ⟨rfl, fun _ => rfl⟩).2.1
        (by decide) (by decide)).2⟩,
   ⟨rfl, fun hc => nomatch hc⟩,
   ((identifier_invariant plainHelpers notFoundClient Kind.IcmpTypeNsService
        Schema.TypeBool (stateOf resourceNsxtIcmpTypeNsServiceSchema "id-1") Op.Read _
        (fun _ _ => rfl) rfl ⟨rfl, fun hc => nomatch hc⟩).2.2 (by decide) rfl).elim
      (fun hdel => nomatch hdel.1) (fun hread => hread.2)⟩

/-- Turning strings into dynamic values and back keeps the non-empty strings, in
order. -/
theorem Interface2StringList_StringList2Interface (l : List String) :
    Interface2StringList (StringList2Interface l) = l.filter (fun v => v ≠ "") := by
  induction l with
  | nil => rfl
  | cons v rest ih =>
    by_cases hv : v = ""
    · simp [StringList2Interface, Interface2StringList, hv, ih]
    · simp [StringList2Interface, Interface2StringList, hv, ih]

/-- A list of strings is handed out as it was written. -/
theorem readValue_StringList2Interface (l : List String) :
    readValue (Schema.TypeList Schema.TypeString) (Value.list (StringList2Interface l)) =
      Value.list (StringList2Interface l) := by
  simp only [readValue, Value.list.injEq]
  induction l with
  | nil => rfl
  | cons v rest ih => simp [StringList2Interface, readValue, ih]

/-- The subnet list written by `SetIpSubnetsInSchema`, read through the schema of
`subnets`, holds for each subnet its addresses and its prefix length. -/
theorem readValue_subnetList (subnets : List IpSubnet) :
    readValue GetIpSubnetsSchema (Value.list ((subnetList subnets).map Value.map)) =
      Value.list (subnets.map (fun subnet => Value.map [
        ("ip_addresses", Value.list (StringList2Interface subnet.IpAddresses)),
        ("prefix_length", Value.int subnet.PrefixLength)])) := by
  simp only [GetIpSubnetsSchema, readValue, List.map_map, Value.list.injEq]
  induction subnets with
  | nil => rfl
  | cons subnet rest ih =>
    simp only [subnetList, List.map_cons, List.cons.injEq]
    refine ⟨?_, ih⟩
    have hl := readValue_StringList2Interface subnet.IpAddresses
    simp only [readValue, Value.list.injEq] at hl
    simp [readValue, readFields, assign, index, List.lookup, List.filter, hl]

/-- The subnet loop reads each block into a subnet whose addresses are the non-empty
addresses of the block. -/
theorem GetIpSubnetsLoop_written (subnets : List IpSubnet) :
    GetIpSubnetsLoop (subnets.map (fun subnet => Value.map [
        ("ip_addresses", Value.list (StringList2Interface subnet.IpAddresses)),
        ("prefix_length", Value.int subnet.PrefixLength)])) =
      .ok (subnets.map (fun subnet =>
        { IpAddresses := subnet.IpAddresses.filter (fun v => v ≠ ""),
          PrefixLength := subnet.PrefixLength })) := by
  induction subnets with
  | nil => rfl
  | cons subnet rest ih =>
    simp [GetIpSubnetsLoop, ih, Value.assertMap, Value.assertList, Value.assertInt, index,
      List.lookup, int64, Interface2StringList_StringList2Interface, bind, Except.bind, pure,
      Except.pure]

/-- Reading the subnets from the state written by `SetIpSubnetsInSchema` gives the
subnets with their empty addresses dropped. -/
theorem subnets_written_then_read (d : ResourceData)
    (hs : d.schema.lookup "subnets" = some GetIpSubnetsSchema) (subnets : List IpSubnet) :
    GetIpSubnetsFromSchema (SetIpSubnetsInSchema d subnets) =
      .ok (subnets.map (fun subnet =>
        { IpAddresses := subnet.IpAddresses.filter (fun v => v ≠ ""),
          PrefixLength := subnet.PrefixLength })) := by
  rw [GetIpSubnetsFromSchema, SetIpSubnetsInSchema, (ResourceData.Get_Set_same d _ _ _ hs).2,
    readValue_subnetList]
  simp only [Value.assertList, bind, Except.bind]
  exact GetIpSubnetsLoop_written subnets

/-- C19 as stated fails: the subnet with addresses `192.168.1.1` and the empty string,
prefix length 24, comes back with the address `192.168.1.1` alone. -/
theorem subnets_round_trip_counterexample :
    GetIpSubnetsFromSchema (SetIpSubnetsInSchema utilsData
        [{ IpAddresses := ["192.168.1.1", ""], PrefixLength := 24 }]) =
      .ok [{ IpAddresses := ["192.168.1.1"], PrefixLength := 24 }] ∧
    ([{ IpAddresses := ["192.168.1.1"], PrefixLength := 24 }] : List IpSubnet) ≠
      [{ IpAddresses := ["192.168.1.1", ""], PrefixLength := 24 }] :=
  ⟨rfl, by decide⟩

/-- C19, amended: reading the subnets from the state written by `SetIpSubnetsInSchema`
gives a list of the same length and order, each subnet with its prefix length and with
its addresses in order without the empty strings; so the list itself comes back when no
address is the empty string. -/
theorem subnets_round_trip (d : ResourceData)
    (hs : d.schema.lookup "subnets" = some GetIpSubnetsSchema) (subnets : List IpSubnet) :
    GetIpSubnetsFromSchema (SetIpSubnetsInSchema d subnets) =
      .ok (subnets.map (fun subnet =>
        { IpAddresses := subnet.IpAddresses.filter (fun v => v ≠ ""),
          PrefixLength := subnet.PrefixLength })) ∧
    ((∀ subnet ∈ subnets, "" ∉ subnet.IpAddresses) →
      GetIpSubnetsFromSchema (SetIpSubnetsInSchema d subnets) = .ok subnets) := by
  refine ⟨subnets_written_then_read d hs subnets, ?_⟩
  intro hne
  rw [subnets_written_then_read d hs subnets]
  congr 1
  induction subnets with
  | nil => rfl
  | cons subnet rest ih =>
    have hfirst : subnet.IpAddresses.filter (fun v => v ≠ "") = subnet.IpAddresses := by
      apply List.filter_eq_self.mpr
      intro a ha
      have hn : "" ∉ subnet.IpAddresses := hne subnet (List.mem_cons_self _ _)
      simpa using fun h : a = "" => hn (h ▸ ha)
    simp only [List.map_cons, hfirst, List.cons.injEq, true_and]
    exact ih (fun s hsub => hne s (List.mem_cons_of_mem _ hsub))

/-- C19 amended, at one subnet with two non-empty addresses. -/
theorem subnets_round_trip_witness :
    GetIpSubnetsFromSchema (SetIpSubnetsInSchema utilsData
        [{ IpAddresses := ["192.168.1.1", "192.168.1.2"], PrefixLength := 24 }]) =
      .ok [{ IpAddresses := ["192.168.1.1", "192.168.1.2"], PrefixLength := 24 }] :=
  (subnets_round_trip utilsData rfl
    [{ IpAddresses := ["192.168.1.1", "192.168.1.2"], PrefixLength := 24 }]).2
    (by decide)

/-- Two tag blocks are equal exactly when the tags are. -/
theorem tagToValue_beq (a b : Tag) :
    Value.beq (tagToValue a) (tagToValue b) = decide (a = b) := by
  obtain ⟨s1, t1⟩ := a
  obtain ⟨s2, t2⟩ := b
  by_cases h1 : s1 = s2 <;> by_cases h2 : t1 = t2 <;>
    simp [tagToValue, Value.beq, Value.beqMap, h1, h2]

/-- An element entered into a set is added to its content. -/
theorem setInsert_perm {α : Type} (key : String) (v : α) (m : List (String × α)) :
    (setInsert key v m).Perm ((key, v) :: m) := by
  induction m with
  | nil => exact List.Perm.refl _
  | cons kw rest ih =>
    obtain ⟨k, w⟩ := kw
    unfold setInsert
    split
    · exact List.Perm.refl _
    · exact (List.Perm.cons _ ih).trans (List.Perm.swap _ _ _)

/-- A key is found in an association list exactly when it is one of its keys. -/
theorem lookup_isSome_iff {α : Type} (m : List (String × α)) (k : String) :
    (m.lookup k).isSome = true ↔ k ∈ m.map Prod.fst := by
  induction m with
  | nil => simp [List.lookup]
  | cons kw rest ih =>
    obtain ⟨k2, w⟩ := kw
    by_cases hk : k = k2
    · subst hk
      simp [List.lookup]
    · have hne : (k == k2) = false := by simpa using hk
      simp [List.lookup, hne, ih, hk]

/-- Adding an element whose key is new enters it. -/
theorem setAdd_new {α : Type} (hash : α → String) (m : List (String × α)) (v : α)
    (h : hash v ∉ m.map Prod.fst) : setAdd hash m v = setInsert (hash v) v m := by
  have hl : ¬ (m.lookup (hash v)).isSome = true := fun hh => h ((lookup_isSome_iff m _).mp hh)
  simp [setAdd, hl]

/-- Adding an element whose key is taken changes nothing. -/
theorem setAdd_old {α : Type} (hash : α → String) (m : List (String × α)) (v : α)
    (h : hash v ∈ m.map Prod.fst) : setAdd hash m v = m := by
  have hl : (m.lookup (hash v)).isSome = true := (lookup_isSome_iff m _).mpr h
  simp [setAdd, hl]

/-- Elements with pairwise different keys, none of them taken, all enter the set. -/
theorem foldl_setAdd_perm {α : Type} (hash : α → String) (xs : List α) :
    ∀ m : List (String × α), (∀ x ∈ xs, hash x ∉ m.map Prod.fst) → (xs.map hash).Nodup →
      (xs.foldl (setAdd hash) m).Perm (m ++ xs.map (fun x => (hash x, x))) := by
  induction xs with
  | nil => intro m _ _; simp
  | cons x rest ih =>
    intro m hm hnd
    have hx : hash x ∉ m.map Prod.fst := hm x (List.mem_cons_self _ _)
    rw [List.map_cons, List.nodup_cons] at hnd
    simp only [List.foldl_cons, setAdd_new hash m x hx]
    have hperm := setInsert_perm (hash x) x m
    refine (ih (setInsert (hash x) x m) ?_ hnd.2).trans ?_
    · intro y hy hmem
      have hmem2 : hash y ∈ ((hash x, x) :: m).map Prod.fst :=
        (hperm.map Prod.fst).subset hmem
      rcases List.mem_cons.mp hmem2 with heq | hin
      · have heq2 : hash y = hash x := heq
        exact hnd.1 (heq2 ▸ List.mem_map_of_mem hash hy)
      · exact hm y (List.mem_cons_of_mem _ hy) hin
    · rw [List.map_cons]
      exact (List.Perm.append_right _ hperm).trans List.perm_middle.symm

/-- Elements with pairwise different keys are all listed by the set, in some order. -/
theorem setList_perm {α : Type} (hash : α → String) (xs : List α)
    (h : (xs.map hash).Nodup) : (setList hash xs).Perm xs := by
  have hp := (foldl_setAdd_perm hash xs [] (fun _ _ hmem => by simp at hmem) h).map Prod.snd
  simpa [setList, List.map_map, Function.comp_def] using hp

/-- Whatever a set stores was stored before or is one of the elements added, under its
key. -/
theorem foldl_setAdd_mem {α : Type} (hash : α → String) (xs : List α) :
    ∀ (m : List (String × α)) (p : String × α), p ∈ xs.foldl (setAdd hash) m →
      p ∈ m ∨ (p.2 ∈ xs ∧ p.1 = hash p.2) := by
  induction xs with
  | nil => intro m p hp; exact Or.inl hp
  | cons x rest ih =>
    intro m p hp
    rw [List.foldl_cons] at hp
    rcases ih _ p hp with hin | ⟨hin, hk⟩
    · by_cases hx : hash x ∈ m.map Prod.fst
      · rw [setAdd_old hash m x hx] at hin
        exact Or.inl hin
      · rw [setAdd_new hash m x hx] at hin
        rcases List.mem_cons.mp ((setInsert_perm _ _ _).subset hin) with heq | hm
        · subst heq
          exact Or.inr ⟨List.mem_cons_self _ _, rfl⟩
        · exact Or.inl hm
    · exact Or.inr ⟨List.mem_cons_of_mem _ hin, hk⟩

/-- Every element a set lists is one of the elements added. -/
theorem setList_subset {α : Type} (hash : α → String) (xs : List α) :
    ∀ x, x ∈ setList hash xs → x ∈ xs := by
  intro x hx
  obtain ⟨p, hp, hpx⟩ := List.mem_map.mp hx
  rcases foldl_setAdd_mem hash xs [] p hp with hin | ⟨hin, _⟩
  · simp at hin
  · exact hpx ▸ hin

/-- A set stores at most one element per element added. -/
theorem foldl_setAdd_length {α : Type} (hash : α → String) (xs : List α) :
    ∀ m : List (String × α), (xs.foldl (setAdd hash) m).length ≤ m.length + xs.length := by
  induction xs with
  | nil => intro m; simp
  | cons x rest ih =>
    intro m
    rw [List.foldl_cons]
    refine (ih _).trans ?_
    by_cases hx : hash x ∈ m.map Prod.fst
    · rw [setAdd_old hash m x hx, List.length_cons]
      omega
    · rw [setAdd_new hash m x hx, (setInsert_perm _ _ _).length_eq, List.length_cons,
        List.length_cons]
      omega

/-- A set lists no more elements than were added. -/
theorem setList_length_le {α : Type} (hash : α → String) (xs : List α) :
    (setList hash xs).length ≤ xs.length := by
  have h := foldl_setAdd_length hash xs []
  simpa [setList] using h

/-- A key that is taken, or is the key of an element added, is a key of the set. -/
theorem foldl_setAdd_keys {α : Type} (hash : α → String) (xs : List α) :
    ∀ (m : List (String × α)) (k : String), (k ∈ m.map Prod.fst ∨ k ∈ xs.map hash) →
      k ∈ (xs.foldl (setAdd hash) m).map Prod.fst := by
  induction xs with
  | nil =>
    intro m k hk
    rcases hk with hk | hk
    · exact hk
    · simp at hk
  | cons x rest ih =>
    intro m k hk
    rw [List.foldl_cons]
    apply ih
    by_cases hx : hash x ∈ m.map Prod.fst
    · rw [setAdd_old hash m x hx]
      rcases hk with hk | hk
      · exact Or.inl hk
      · rcases List.mem_cons.mp hk with heq | hin
        · exact Or.inl (heq ▸ hx)
        · exact Or.inr hin
    · rw [setAdd_new hash m x hx]
      have hsub : ∀ q, q ∈ ((hash x, x) :: m).map Prod.fst →
          q ∈ (setInsert (hash x) x m).map Prod.fst :=
        fun q hq => ((setInsert_perm (hash x) x m).map Prod.fst).symm.subset hq
      rcases hk with hk | hk
      · exact Or.inl (hsub k (List.mem_cons_of_mem _ hk))
      · rcases List.mem_cons.mp hk with heq | hin
        · exact Or.inl (hsub k (heq ▸ List.mem_cons_self _ _))
        · exact Or.inr hin

/-- For every element added, the set lists an element of the same key. -/
theorem setList_key {α : Type} (hash : α → String) (xs : List α) :
    ∀ x ∈ xs, ∃ y ∈ setList hash xs, hash y = hash x := by
  intro x hx
  have hk := foldl_setAdd_keys hash xs [] (hash x) (Or.inr (List.mem_map_of_mem hash hx))
  obtain ⟨p, hp, hpk⟩ := List.mem_map.mp hk
  rcases foldl_setAdd_mem hash xs [] p hp with hin | ⟨_, hkey⟩
  · simp at hin
  · exact ⟨p.2, List.mem_map_of_mem Prod.snd hp, by rw [← hkey, hpk]⟩

/-- Entering an element commutes with a change of the elements that keeps the keys. -/
theorem setInsert_map {α β : Type} (f : β → α) (key : String) (v : β)
    (m : List (String × β)) :
    setInsert key (f v) (m.map (Prod.map id f)) = (setInsert key v m).map (Prod.map id f) := by
  induction m with
  | nil => rfl
  | cons kw rest ih =>
    obtain ⟨k, w⟩ := kw
    simp only [List.map_cons, Prod.map, id, setInsert]
    split
    · rfl
    · simp only [List.map_cons, Prod.map, id, List.cons.injEq, true_and]
      exact ih

/-- Looking a key up does not depend on the elements stored. -/
theorem lookup_map_isSome {α β : Type} (f : β → α) (k : String) (m : List (String × β)) :
    ((m.map (Prod.map id f)).lookup k).isSome = (m.lookup k).isSome := by
  induction m with
  | nil => rfl
  | cons kw rest ih =>
    obtain ⟨k2, w⟩ := kw
    by_cases hk : k = k2
    · subst hk
      simp [List.lookup]
    · have hne : (k == k2) = false := by simpa using hk
      simp [List.lookup, hne, ih]

/-- The set of the images of elements is the image of the set of the elements, when the
key of an element is the key of its image. -/
theorem foldl_setAdd_map {α β : Type} (f : β → α) (hash : α → String) (xs : List β) :
    ∀ m : List (String × β),
      (xs.map f).foldl (setAdd hash) (m.map (Prod.map id f)) =
        (xs.foldl (setAdd (fun b => hash (f b))) m).map (Prod.map id f) := by
  induction xs with
  | nil => intro m; rfl
  | cons x rest ih =>
    intro m
    simp only [List.map_cons, List.foldl_cons]
    have hstep : setAdd hash (m.map (Prod.map id f)) (f x) =
        (setAdd (fun b => hash (f b)) m x).map (Prod.map id f) := by
      unfold setAdd
      rw [lookup_map_isSome]
      split
      · rfl
      · exact setInsert_map f _ x m
    rw [hstep]
    exact ih _

/-- The list of the set of the images is the image of the list of the set. -/
theorem setList_map {α β : Type} (f : β → α) (hash : α → String) (xs : List β) :
    setList hash (xs.map f) = (setList (fun b => hash (f b)) xs).map f := by
  have h := foldl_setAdd_map f hash xs []
  simp only [List.map_nil] at h
  simp [setList, h, List.map_map, Function.comp_def]

/-- Every element a set of the configuration layer keeps is one of the elements
written. -/
theorem setElements_subset (e : Schema) (xs : List Value) :
    ∀ x, x ∈ setElements e xs → x ∈ xs :=
  setList_subset (setKey e) xs

/-- The key of a tag in the tag set is the decimal string of the checksum of
`scope:<Scope>;tag:<Tag>;`. -/
theorem tagKey_eq (t : Tag) :
    tagKey t =
      toString (ChecksumIEEE ("scope:" ++ t.Scope ++ ";tag:" ++ t.Tag ++ ";")) := by
  obtain ⟨sc, tg⟩ := t
  have hser : SerializeResourceForHash [("scope", Schema.TypeString), ("tag", Schema.TypeString)]
      (tagToValue { Scope := sc, Tag := tg }) = "scope:" ++ sc ++ ";tag:" ++ tg ++ ";" := by
    have hless : keyLess "scope".data "tag".data = true := by decide
    have hsep : ";" ++ "tag:" = ";tag:" := by decide
    simp [SerializeResourceForHash, tagToValue, resourcePieces, insertPiece,
      SerializeValueForHash, index, List.lookup, hless, String.join, String.append_assoc]
    rw [← String.append_assoc ";" "tag:", hsep]
  have hnn : ¬ ((ChecksumIEEE ("scope:" ++ sc ++ ";tag:" ++ tg ++ ";") : Int) < 0) :=
    not_lt.mpr (Int.natCast_nonneg _)
  simp only [tagKey, setKey, setCode, hser, hashcodeString, hnn, if_false]
  rfl

/-- The tag list written by `SetTagsInSchema`, read through the schema of the tag set,
is the set of the tag blocks. -/
theorem readValue_tagList (tags : List Tag) :
    readValue GetTagsSchema (Value.list ((tagList tags).map Value.map)) =
      Value.set ((setList tagKey tags).map tagToValue) := by
  have hmap : ((tagList tags).map Value.map).map (readValue (Schema.Resource
      [("scope", Schema.TypeString), ("tag", Schema.TypeString)])) =
      tags.map tagToValue := by
    induction tags with
    | nil => rfl
    | cons t rest ih =>
      simp only [tagList, List.map_cons, List.cons.injEq]
      refine ⟨?_, ih⟩
      simp [readValue, readFields, tagToValue, assign, index, List.lookup, List.filter]
  simp only [GetTagsSchema, readValue, hmap, setElements]
  rw [setList_map]
  rfl

/-- The tag loop reads tag blocks back into the tags. -/
theorem GetTagsLoop_toValue (tags : List Tag) :
    GetTagsLoop (tags.map tagToValue) = .ok tags := by
  induction tags with
  | nil => rfl
  | cons t rest ih =>
    simp [GetTagsLoop, ih, tagToValue, Value.assertMap, Value.assertString, index,
      List.lookup, bind, Except.bind, pure, Except.pure]

/-- Whatever tags `SetTagsInSchema` writes, `GetTagsFromSchema` on the state it leaves
returns the tags that the tag set lists: one tag per key, in the order of the keys. -/
theorem tags_written_then_read (d : ResourceData)
    (hs : d.schema.lookup "tags" = some GetTagsSchema) (tags : List Tag) :
    GetTagsFromSchema (SetTagsInSchema d tags) = .ok (setList tagKey tags) := by
  rw [GetTagsFromSchema, SetTagsInSchema, (ResourceData.Get_Set_same d _ _ _ hs).2,
    readValue_tagList]
  simp only [Value.assertSetList, bind, Except.bind]
  exact GetTagsLoop_toValue _

/-- C18, refuted as stated: the two tags (`x;tag:y`, `z`) and (`x`, `y;tag:z`) are
different, but both are serialised as `scope:x;tag:y;tag:z;` and so have the same
key in the tag set: written by `SetTagsInSchema`, they are read back by
`GetTagsFromSchema` as one tag. -/
theorem tags_round_trip_counterexample :
    ([{ Scope := "x;tag:y", Tag := "z" }, { Scope := "x", Tag := "y;tag:z" }] :
      List Tag).Nodup ∧
    tagKey { Scope := "x;tag:y", Tag := "z" } = tagKey { Scope := "x", Tag := "y;tag:z" } ∧
    ∃ out, GetTagsFromSchema (SetTagsInSchema utilsData
        [{ Scope := "x;tag:y", Tag := "z" }, { Scope := "x", Tag := "y;tag:z" }]) =
        .ok out ∧ out.length = 1 := by
  have hkey : tagKey { Scope := "x;tag:y", Tag := "z" } =
      tagKey { Scope := "x", Tag := "y;tag:z" } := by
    rw [tagKey_eq, tagKey_eq]
    have hser : "scope:" ++ "x;tag:y" ++ ";tag:" ++ "z" ++ ";" =
        "scope:" ++ "x" ++ ";tag:" ++ "y;tag:z" ++ ";" := by decide
    exact congrArg (fun x => toString (ChecksumIEEE x)) hser
  refine ⟨by decide, hkey, _, tags_written_then_read utilsData rfl _, ?_⟩
  simp [setList, setAdd, setInsert, List.lookup, hkey]

/-- C18, amended: whatever tags are written by `SetTagsInSchema`, `GetTagsFromSchema` on
the state it leaves returns tags that were written, no more of them than were
written, and for every written tag one with the same key in the tag set (the decimal
string of the checksum of `scope:<Scope>;tag:<Tag>;`); when the keys of the written
tags are pairwise different it returns as many tags as were written, and the same tags
up to their order. -/
theorem tags_round_trip (d : ResourceData)
    (hs : d.schema.lookup "tags" = some GetTagsSchema) (tags : List Tag) :
    ∃ out, GetTagsFromSchema (SetTagsInSchema d tags) = .ok out ∧
      out.length ≤ tags.length ∧
      (∀ t ∈ out, t ∈ tags) ∧
      (∀ t ∈ tags, ∃ u ∈ out, tagKey u = tagKey t) ∧
      ((tags.map tagKey).Nodup → out.length = tags.length ∧ out.Perm tags) ∧
      (∀ t : Tag, tagKey t =
        toString (ChecksumIEEE ("scope:" ++ t.Scope ++ ";tag:" ++ t.Tag ++ ";"))) := by
  refine ⟨setList tagKey tags, tags_written_then_read d hs tags, setList_length_le _ _,
    setList_subset _ _, setList_key _ _, ?_, tagKey_eq⟩
  intro hnd
  exact ⟨(setList_perm _ _ hnd).length_eq, setList_perm _ _ hnd⟩

set_option maxRecDepth 100000 in
/-- The keys of the documented tags `(scope1, tag1)` and `(scope2, tag2)` in the tag set
differ: they are `2723473771` and `278650025`. -/
theorem documented_tag_keys_differ :
    (([{ Scope := "scope1", Tag := "tag1" }, { Scope := "scope2", Tag := "tag2" }] :
      List Tag).map tagKey).Nodup ∧
    tagKey { Scope := "scope1", Tag := "tag1" } = "2723473771" ∧
    tagKey { Scope := "scope2", Tag := "tag2" } = "278650025" := by
  decide

/-- C18, amended, at the documented tags: the two tags `(scope1, tag1)` and
`(scope2, tag2)`, whose keys differ, come back as two tags, and the single tag
`(scope3, tag3)` written afterwards comes back as one. -/
theorem tags_round_trip_witness :
    (∃ out, GetTagsFromSchema (SetTagsInSchema utilsData
        [{ Scope := "scope1", Tag := "tag1" }, { Scope := "scope2", Tag := "tag2" }]) =
        .ok out ∧ out.length = 2 ∧
        out.Perm [{ Scope := "scope1", Tag := "tag1" }, { Scope := "scope2", Tag := "tag2" }]) ∧
    (∃ out, GetTagsFromSchema (SetTagsInSchema
        (SetTagsInSchema utilsData
          [{ Scope := "scope1", Tag := "tag1" }, { Scope := "scope2", Tag := "tag2" }])
        [{ Scope := "scope3", Tag := "tag3" }]) = .ok out ∧ out.length = 1) := by
  have hkeys := documented_tag_keys_differ.1
  constructor
  · obtain ⟨out, hout, _, _, _, hperm, _⟩ := tags_round_trip utilsData rfl
      [{ Scope := "scope1", Tag := "tag1" }, { Scope := "scope2", Tag := "tag2" }]
    exact ⟨out, hout, hperm hkeys⟩
  · obtain ⟨out, hout, _, _, _, hperm, _⟩ := tags_round_trip
      (SetTagsInSchema utilsData
        [{ Scope := "scope1", Tag := "tag1" }, { Scope := "scope2", Tag := "tag2" }])
      rfl [{ Scope := "scope3", Tag := "tag3" }]
    exact ⟨out, hout, (hperm (List.nodup_singleton _)).1⟩

/-- Reading a key other than the one just assigned gives what was there before. -/
theorem index_assign_other (m : GoMap) (k k2 : String) (v : Value) (hne : k2 ≠ k) :
    index (assign m k v) k2 = index m k2 := by
  unfold index assign
  induction m with
  | nil =>
    have hb : (k2 == k) = false := by simpa using hne
    simp [List.lookup, hb]
  | cons kv rest ih =>
    obtain ⟨k1, v1⟩ := kv
    by_cases hk : k1 = k
    · subst hk
      have hb : (k2 == k1) = false := by simpa using hne
      simpa [List.filter, List.lookup, hb] using ih
    · have hne1 : (k1 != k) = true := by simpa using hk
      by_cases h2 : k2 = k1
      · subst h2
        simp [List.filter, hne1, List.lookup]
      · have hb : (k2 == k1) = false := by simpa using h2
        simp only [List.filter, hne1, List.cons_append, List.lookup, hb]
        exact ih

/-- After `d.Set(key, v)`, `d.Get` of another key hands out what it handed out
before. -/
theorem ResourceData.Get_Set_other (d : ResourceData) (key key2 : String) (v : Value)
    (hne : key2 ≠ key) : (d.Set key v).1.Get key2 = d.Get key2 := by
  unfold ResourceData.Set
  split
  · simp [ResourceData.Get, index_assign_other _ _ _ _ hne]
  · rfl

/-- C20: a read of a pool that succeeds writes to `active_monitor_id` the first element
of `ActiveMonitorIds`, and the empty string when there is none; from the state it
leaves, `getActiveMonitorIdsFromSchema` gives no monitor id for an empty list, and the
original list for every list of at most one element that holds no empty string. The
helper that writes the tags is taken to keep the attribute table. -/
theorem active_monitor_id_mapping (h : Helpers) (c : APIClient) (d : ResourceData)
    (e : Schema) (lbPool : LbPool) (resp : Response)
    (hs : d.schema = resourceNsxtLbPoolSchema (Schema.TypeList e)) (hid : d.id ≠ "")
    (hschema : ∀ d tags, (h.setTagsInSchema d tags).schema = d.schema)
    (hres : c.ReadLoadBalancerPool d.id = (lbPool, some resp, none))
    (hst : resp.StatusCode ≠ 404) :
    ∃ res, resourceNsxtLbPoolRead h c d = .ok res ∧ res.err = none ∧
      res.d.Get "active_monitor_id" = Value.str (lbPool.ActiveMonitorIds.head?.getD "") ∧
      (lbPool.ActiveMonitorIds = [] → getActiveMonitorIdsFromSchema res.d = .ok []) ∧
      (lbPool.ActiveMonitorIds.length ≤ 1 → "" ∉ lbPool.ActiveMonitorIds →
        getActiveMonitorIdsFromSchema res.d = .ok lbPool.ActiveMonitorIds) := by
  have hget : ∀ res : Result,
      res.d.Get "active_monitor_id" = Value.str (lbPool.ActiveMonitorIds.head?.getD "") →
      (lbPool.ActiveMonitorIds = [] → getActiveMonitorIdsFromSchema res.d = .ok []) ∧
      (lbPool.ActiveMonitorIds.length ≤ 1 → "" ∉ lbPool.ActiveMonitorIds →
        getActiveMonitorIdsFromSchema res.d = .ok lbPool.ActiveMonitorIds) := by
    intro res hg
    constructor
    · intro hnil
      simp [getActiveMonitorIdsFromSchema, hg, hnil, Value.assertString, bind, Except.bind,
        pure, Except.pure]
    · intro hlen hne
      cases hl : lbPool.ActiveMonitorIds with
      | nil =>
        simp [getActiveMonitorIdsFromSchema, hg, hl, Value.assertString, bind, Except.bind,
          pure, Except.pure]
      | cons first rest =>
        rw [hl] at hlen hne
        have hrest : rest = [] := by
          cases rest with
          | nil => rfl
          | cons a b => simp at hlen
        subst hrest
        have hfirst : first ≠ "" := by
          intro hf
          exact hne (by simp [hf])
        simp [getActiveMonitorIdsFromSchema, hg, hl, hfirst, Value.assertString, bind,
          Except.bind, pure, Except.pure]
  have hst2 : ¬ resp.StatusCode = StatusNotFound := hst
  have hread : ∃ res, resourceNsxtLbPoolRead h c d = .ok res ∧ res.err = none ∧
      res.d.Get "active_monitor_id" =
        Value.str (lbPool.ActiveMonitorIds.head?.getD "") := by
    cases hl : lbPool.ActiveMonitorIds with
    | nil =>
      simp [resourceNsxtLbPoolRead, ResourceData.Id, hid, hres, hst2, hl,
        setPoolMembersInSchema, setPoolGroupMemberInSchema, setSnatTranslationInSchema,
        ResourceData.Set, ResourceData.Get, hs, hschema, resourceNsxtLbPoolSchema,
        List.lookup, pure, Except.pure]
      repeat rw [index_assign_other _ _ _ _ (by decide)]
      rw [index_assign_same]
      simp only [readValue]
    | cons first rest =>
      simp [resourceNsxtLbPoolRead, ResourceData.Id, hid, hres, hst2, hl,
        setPoolMembersInSchema, setPoolGroupMemberInSchema, setSnatTranslationInSchema,
        ResourceData.Set, ResourceData.Get, hs, hschema, resourceNsxtLbPoolSchema,
        List.lookup, pure, Except.pure]
      repeat rw [index_assign_other _ _ _ _ (by decide)]
      rw [index_assign_same]
      simp only [readValue]
  obtain ⟨res, hr, herr, hg⟩ := hread
  exact ⟨res, hr, herr, hg, hget res hg⟩

/-- C20, at a pool read back with the single monitor id `monitor-1`: the state the read
leaves gives back that one id. -/
theorem active_monitor_id_mapping_witness :
    ∃ res, resourceNsxtLbPoolRead plainHelpers (monitorClient ["monitor-1"])
        (stateOf (resourceNsxtLbPoolSchema GetResourceReferencesSchema) "id-1") = .ok res ∧
      res.d.Get "active_monitor_id" = Value.str "monitor-1" ∧
      getActiveMonitorIdsFromSchema res.d = .ok ["monitor-1"] :=
  (active_monitor_id_mapping plainHelpers (monitorClient ["monitor-1"])
    (stateOf (resourceNsxtLbPoolSchema GetResourceReferencesSchema) "id-1") _
    ⟨"", 0, "", "", [], ["monitor-1"], "", 0, "", none, false, 0, [], none⟩
    { StatusCode := 200 } rfl (by decide) (fun _ _ => rfl) rfl (by decide)).elim
    (fun res hres => ⟨res, hres.1, hres.2.2.1, hres.2.2.2.2 (by decide) (by decide)⟩)

/-- Two equal tags written by `SetTagsInSchema` are read back as one, as a set holds
one element per key. -/
theorem tags_duplicate_read_once :
    GetTagsFromSchema (SetTagsInSchema utilsData
        [{ Scope := "scope1", Tag := "tag1" }, { Scope := "scope1", Tag := "tag1" }]) =
      .ok [{ Scope := "scope1", Tag := "tag1" }] := by
  rw [tags_written_then_read utilsData rfl]
  simp [setList, setAdd, setInsert, List.lookup]

/-- On a non-empty list whose first element is a schema-conforming binding block, the
binding loop stops at the assertion of `vlan`: the value is a Go `int`, not an
`int64`. -/
theorem GetAddressBindingsLoop_conforming (b : AddressBindingConf) (rest : List Value) :
    GetAddressBindingsLoop (b.toValue :: rest) =
      .error "interface conversion: interface {} is not int64" := by
  simp [GetAddressBindingsLoop, AddressBindingConf.toValue, Value.assertMap,
    Value.assertString, Value.assertInt64, index, List.lookup, bind, Except.bind]

/-- Whenever the address binding set of the configuration is not empty and starts with
a schema-conforming block, `GetAddressBindingsFromSchema` fails on a type assertion;
on the empty set it returns no binding. -/
theorem GetAddressBindingsFromSchema_conforming (d : ResourceData) :
    (∀ b rest, d.Get "address_bindings" = Value.set (AddressBindingConf.toValue b :: rest) →
      GetAddressBindingsFromSchema d =
        .error "interface conversion: interface {} is not int64") ∧
    (d.Get "address_bindings" = Value.set [] → GetAddressBindingsFromSchema d = .ok []) := by
  constructor
  · intro b rest hget
    simp only [GetAddressBindingsFromSchema, hget, Value.assertSetList, bind, Except.bind]
    exact GetAddressBindingsLoop_conforming b rest
  · intro hget
    simp [GetAddressBindingsFromSchema, hget, Value.assertSetList, GetAddressBindingsLoop,
      bind, Except.bind, pure, Except.pure]

/-- What is handed out for one address binding is a binding block with `vlan` a Go
`int`. -/
theorem readValue_binding_conf (x : Value) :
    ∃ b : AddressBindingConf,
      readValue (Schema.Resource [("ip_address", Schema.TypeString),
        ("mac_address", Schema.TypeString), ("vlan", Schema.TypeInt)]) x = b.toValue := by
  obtain ⟨kvs, hk⟩ := readValue_resource _ x
  obtain ⟨a1, h1⟩ := readValue_string (index kvs "ip_address")
  obtain ⟨a2, h2⟩ := readValue_string (index kvs "mac_address")
  obtain ⟨a3, h3⟩ := readValue_int (index kvs "vlan")
  refine ⟨{ ip_address := a1, mac_address := a2, vlan := a3 }, ?_⟩
  rw [hk]
  simp [readFields, h1, h2, h3, AddressBindingConf.toValue]

/-- On every state that declares the address binding set, whatever is stored,
`GetAddressBindingsFromSchema` either finds the set empty or fails on the type
assertion of `vlan`: it never returns a binding. -/
theorem GetAddressBindingsFromSchema_never_returns_binding (d : ResourceData)
    (hs : d.schema.lookup "address_bindings" = some GetAddressBindingsSchema) :
    GetAddressBindingsFromSchema d = .ok [] ∨
      GetAddressBindingsFromSchema d =
        .error "interface conversion: interface {} is not int64" := by
  have hset : ∃ xs : List Value, d.Get "address_bindings" =
      Value.set (setElements (Schema.Resource
        [("ip_address", Schema.TypeString), ("mac_address", Schema.TypeString),
          ("vlan", Schema.TypeInt)]) (xs.map (readValue (Schema.Resource
        [("ip_address", Schema.TypeString), ("mac_address", Schema.TypeString),
          ("vlan", Schema.TypeInt)])))) := by
    simp only [ResourceData.Get, hs, GetAddressBindingsSchema]
    cases index d.attrs "address_bindings" with
    | list xs => exact ⟨xs, by simp [readValue]⟩
    | set xs => exact ⟨xs, by simp [readValue]⟩
    | _ => exact ⟨[], by simp [readValue, setElements, setList]⟩
  obtain ⟨xs, hget⟩ := hset
  cases hse : setElements (Schema.Resource
      [("ip_address", Schema.TypeString), ("mac_address", Schema.TypeString),
        ("vlan", Schema.TypeInt)]) (xs.map (readValue (Schema.Resource
      [("ip_address", Schema.TypeString), ("mac_address", Schema.TypeString),
        ("vlan", Schema.TypeInt)]))) with
  | nil =>
    rw [hse] at hget
    exact Or.inl ((GetAddressBindingsFromSchema_conforming d).2 hget)
  | cons y ys =>
    rw [hse] at hget
    have hy : y ∈ xs.map (readValue (Schema.Resource
        [("ip_address", Schema.TypeString), ("mac_address", Schema.TypeString),
          ("vlan", Schema.TypeInt)])) :=
      setElements_subset _ _ y (by rw [hse]; exact List.mem_cons_self _ _)
    obtain ⟨x, _, hxy⟩ := List.mem_map.mp hy
    obtain ⟨b, hb⟩ := readValue_binding_conf x
    rw [← hxy, hb] at hget
    exact Or.inr ((GetAddressBindingsFromSchema_conforming d).1 b ys hget)

/-- C21, the failing input: on the set holding the one binding `10.0.0.5`,
`00:50:56:00:00:01`, vlan 5, handed out as its schema declares it,
`GetAddressBindingsFromSchema` does not return the binding but fails on the type
assertion of `vlan`. -/
theorem address_bindings_assertion_fails :
    (addressBindingsData [bindingExample]).Get "address_bindings" =
      Value.set [bindingExample.toValue] ∧
    GetAddressBindingsFromSchema (addressBindingsData [bindingExample]) =
      .error "interface conversion: interface {} is not int64" :=
  ⟨rfl, rfl⟩

/-- C22: for a translation object in one of the three canonical shapes (none; type
`LbSnatAutoMap` without address; type `LbSnatIpPool` with exactly one address; any
port overload), `setSnatTranslationInSchema` succeeds and
`getSnatTranslationFromSchema` on the state it leaves returns the object. -/
theorem snat_remote_round_trip (d : ResourceData) (snat : Option LbSnatTranslation)
    (hs : d.schema.lookup "snat_translation" = some getSnatTranslationSchema)
    (hshape : snat = none ∨
      (∃ po, snat = some { Type_ := "LbSnatAutoMap", IpAddresses := [], PortOverload := po }) ∨
      (∃ a po, snat = some { Type_ := "LbSnatIpPool", IpAddresses := [a],
                             PortOverload := po })) :
    (setSnatTranslationInSchema d snat).2 = none ∧
    getSnatTranslationFromSchema (setSnatTranslationInSchema d snat).1 = .ok snat := by
  refine ⟨(ResourceData.Get_Set_same d _ _ _ hs).1, ?_⟩
  have hget := (ResourceData.Get_Set_same d "snat_translation" getSnatTranslationSchema
    (Value.list ((snatTranslationList snat).map Value.map)) hs).2
  rcases hshape with hnone | ⟨po, hauto⟩ | ⟨a, po, hpool⟩
  · subst hnone
    refine getSnat_transparent _ [("type", Value.str "TRANSPARENT"), ("ip", Value.str ""),
      ("port_overload", Value.int 0)] [] ?_ (by simp [index, List.lookup])
    rw [setSnatTranslationInSchema, hget]
    simp [snatTranslationList, getSnatTranslationSchema, readValue, readFields, assign, index,
      List.lookup, List.filter]
  · subst hauto
    refine getSnat_auto_map _ { type_ := "SNAT_AUTO_MAP", ip := "", port_overload := po } []
      ?_ (by simp) (by simp)
    rw [setSnatTranslationInSchema, hget]
    simp [snatTranslationList, getSnatTranslationSchema, readValue, readFields, assign, index,
      List.lookup, List.filter, SnatTranslationConf.toValue]
  · subst hpool
    obtain ⟨ip⟩ := a
    refine getSnat_ip_pool _ { type_ := "SNAT_IP_POOL", ip := ip, port_overload := po } []
      ?_ rfl
    rw [setSnatTranslationInSchema, hget]
    simp [snatTranslationList, getSnatTranslationSchema, readValue, readFields, assign, index,
      List.lookup, List.filter, SnatTranslationConf.toValue]

/-- C22, at the IP pool object with the address `192.168.1.1` and port overload 8. -/
theorem snat_remote_round_trip_witness :
    getSnatTranslationFromSchema (setSnatTranslationInSchema (lbPoolData [])
        (some { Type_ := "LbSnatIpPool", IpAddresses := [{ IpAddress := "192.168.1.1" }],
                PortOverload := 8 })).1 =
      .ok (some { Type_ := "LbSnatIpPool", IpAddresses := [{ IpAddress := "192.168.1.1" }],
                  PortOverload := 8 }) :=
  (snat_remote_round_trip (lbPoolData []) _ rfl
    (Or.inr (Or.inr ⟨{ IpAddress := "192.168.1.1" }, 8, rfl⟩))).2

/-- The strings `Interface2StringList` keeps are, in order, the non-empty strings
among the elements. -/
theorem Interface2StringList_eq_filterMap (xs : List Value) :
    Interface2StringList xs =
      xs.filterMap (fun v =>
        match v with
        | Value.str val => if val ≠ "" then some val else none
        | _ => none) := by
  induction xs with
  | nil => rfl
  | cons x rest ih =>
    cases x with
    | str val =>
      by_cases hv : val = ""
      · simp [Interface2StringList, hv, ih]
      · simp [Interface2StringList, hv, ih]
    | _ => simp [Interface2StringList, ih]

/-- `StringList2Interface` wraps every string, in order. -/
theorem StringList2Interface_eq_map (l : List String) :
    StringList2Interface l = l.map Value.str := by
  induction l with
  | nil => rfl
  | cons v rest ih => simp [StringList2Interface, ih]

/-- C23: `Interface2StringList` returns, in their order, exactly the elements that are
non-empty strings, so its result is no longer than the input and holds no empty
string; `StringList2Interface` keeps the length and wraps every element; so
`Interface2StringList (StringList2Interface l)` is `l` without its empty strings, and
is `l` exactly when `l` holds no empty string. -/
theorem string_list_conversions :
    (∀ xs : List Value,
      Interface2StringList xs =
        xs.filterMap (fun v =>
          match v with
          | Value.str val => if val ≠ "" then some val else none
          | _ => none) ∧
      (Interface2StringList xs).length ≤ xs.length ∧
      "" ∉ Interface2StringList xs) ∧
    (∀ l : List String,
      (StringList2Interface l).length = l.length ∧
      StringList2Interface l = l.map Value.str ∧
      Interface2StringList (StringList2Interface l) = l.filter (fun v => v ≠ "") ∧
      (Interface2StringList (StringList2Interface l) = l ↔ "" ∉ l)) := by
  constructor
  · intro xs
    refine ⟨Interface2StringList_eq_filterMap xs, ?_, ?_⟩
    · rw [Interface2StringList_eq_filterMap]
      exact List.length_filterMap_le _ _
    · rw [Interface2StringList_eq_filterMap]
      intro hmem
      obtain ⟨v, _, hv⟩ := List.mem_filterMap.mp hmem
      cases v with
      | str val =>
        by_cases hval : val = ""
        · simp [hval] at hv
        · simp [hval] at hv
      | _ => simp at hv
  · intro l
    refine ⟨?_, StringList2Interface_eq_map l, Interface2StringList_StringList2Interface l, ?_⟩
    · rw [StringList2Interface_eq_map, List.length_map]
    · rw [Interface2StringList_StringList2Interface]
      constructor
      · intro heq hmem
        have hin : "" ∈ l.filter (fun v => v ≠ "") := by rw [heq]; exact hmem
        simp at hin
      · intro hne
        apply List.filter_eq_self.mpr
        intro a ha
        simpa using fun h : a = "" => hne (h ▸ ha)

/-- A read on an empty identifier that returns, returns an error. -/
theorem read_empty_id_err (h : Helpers) (c : APIClient) (k : Kind) (d : ResourceData)
    (r : Result) (hid : d.id = "") (hr : handler k Op.Read h c d = .ok r) :
    r.err ≠ none := by
  cases k with
  | IpSet =>
    simp [handler, resourceNsxtIPSetRead, ResourceData.Id, hid, pure, Except.pure] at hr
    subst hr
    simp
  | LbPool =>
    simp [handler, resourceNsxtLbPoolRead, ResourceData.Id, hid, pure, Except.pure] at hr
    subst hr
    simp
  | LbFastTcpProfile =>
    simp [handler, resourceNsxtLbFastTCPApplicationProfileRead, ResourceData.Id, hid,
      pure, Except.pure] at hr
    subst hr
    simp
  | IcmpTypeNsService =>
    simp [handler, resourceNsxtIcmpTypeNsServiceRead, ResourceData.Id, hid, pure,
      Except.pure] at hr
    subst hr
    simp

/-- A create that returns without error returned what the read handler returned on the
state with the new identifier, with the create call in front. -/
theorem createTail_ok_success (accepted : Int → Bool) (errText statusText : String)
    (call : Call) (read : ResourceData → Except String Result) (d : ResourceData)
    (id : String) (resp : Option Response) (err : Option String) (r : Result)
    (hr : createTail accepted errText statusText call read d id resp err = .ok r)
    (herr : r.err = none) :
    ∃ r2, read (d.SetId id) = .ok r2 ∧ r = { r2 with calls := [call] ++ r2.calls } := by
  unfold createTail at hr
  cases err with
  | some e =>
    simp [pure, Except.pure] at hr
    subst hr
    simp at herr
  | none =>
    cases resp with
    | none => simp [throw, throwThe, MonadExceptOf.throw] at hr
    | some resp =>
      by_cases hacc : accepted resp.StatusCode = true
      · simp only [hacc, if_true] at hr
        exact thenRead_ok _ _ _ hr
      · simp [hacc, pure, Except.pure] at hr
        subst hr
        simp at herr

/-- C24, refuted as stated: the pool is created with status 201 and the Id `pool-7`,
the read that follows is answered with status 404 and no error, and the create handler
returns success with the identifier empty. -/
theorem create_success_empty_id_counterexample :
    ∃ r, resourceNsxtLbPoolCreate plainHelpers (readGoneClient "pool-7")
        memberExampleData = .ok r ∧
      r.err = none ∧ r.d.id = "" ∧
      (∃ req, r.calls =
          [Call.CreateLoadBalancerPool req, Call.ReadLoadBalancerPool "pool-7"] ∧
        ((readGoneClient "pool-7").CreateLoadBalancerPool req).1.Id = "pool-7" ∧
        ((readGoneClient "pool-7").CreateLoadBalancerPool req).2.1 =
          some { StatusCode := 201 } ∧
        ((readGoneClient "pool-7").CreateLoadBalancerPool req).2.2 = none) ∧
      ((readGoneClient "pool-7").ReadLoadBalancerPool "pool-7").2 =
        (some { StatusCode := 404 }, none) :=
  ⟨_, rfl, rfl, rfl, ⟨_, rfl, rfl, rfl, rfl⟩, rfl⟩

/-- The same outcome when the client reports the 404 of the read as an error as well:
the ICMP service is created with status 201 and the Id `svc-9`, the read that follows
is answered with status 404 and the error `404 Not Found`, and the create handler of
the ICMP service, whose read handler tests the status first, returns success with the
identifier empty. -/
theorem icmp_create_then_read_not_found :
    ∃ r, resourceNsxtIcmpTypeNsServiceCreate plainHelpers (readNotFoundClient "svc-9")
        (stateOf resourceNsxtIcmpTypeNsServiceSchema "") = .ok r ∧
      r.err = none ∧ r.d.id = "" ∧
      (∃ req, r.calls =
          [Call.CreateIcmpTypeNSService req, Call.ReadIcmpTypeNSService "svc-9"] ∧
        ((readNotFoundClient "svc-9").CreateIcmpTypeNSService req).1.NsService.Id = "svc-9") ∧
      ((readNotFoundClient "svc-9").ReadIcmpTypeNSService "svc-9").2 =
        (some { StatusCode := 404 }, some "404 Not Found") :=
  ⟨_, rfl, rfl, rfl, ⟨_, rfl, rfl⟩, rfl⟩

/-- C24, amended: whenever the Create handler of one of the four resources returns
success, the create call returned a non-empty Id, and the identifier in state is that
Id, unless the follow-up read call was answered with status 404, in which case the
identifier is empty. The helper that writes the tags is taken to keep the
identifier. -/
theorem create_success_identifier (h : Helpers) (c : APIClient) (k : Kind) (e : Schema)
    (d : ResourceData) (r : Result)
    (hh : ∀ d tags, (h.setTagsInSchema d tags).id = d.id)
    (hs : d.schema = kindSchema (Schema.TypeList e) k)
    (hr : handler k Op.Create h c d = .ok r) (herr : r.err = none) :
    ∃ call ∈ r.calls, ∃ id, createdId c call = some id ∧ id ≠ "" ∧
      (r.d.id = id ∨
        (r.d.id = "" ∧ ∃ rcall ∈ r.calls, ∃ resp,
          readResponse c rcall = some resp ∧ resp.StatusCode = 404)) := by
  have fromTail : ∀ (call : Call) (id : String)
      (read : ResourceData → Except String Result),
      createdId c call = some id → read = handler k Op.Read h c →
      (∃ r2, read (d.SetId id) = .ok r2 ∧ r = { r2 with calls := [call] ++ r2.calls }) →
      ∃ call ∈ r.calls, ∃ id, createdId c call = some id ∧ id ≠ "" ∧
        (r.d.id = id ∨
          (r.d.id = "" ∧ ∃ rcall ∈ r.calls, ∃ resp,
            readResponse c rcall = some resp ∧ resp.StatusCode = 404)) := by
    intro call id read hcreated hread hcases
    obtain ⟨r2, hr2, hrr⟩ := hcases
    rw [hread] at hr2
    have herr2 : r2.err = none := by rw [hrr] at herr; exact herr
    have hne : id ≠ "" := fun hid =>
      read_empty_id_err h c k (d.SetId id) r2 (by rw [hid]; rfl) hr2 herr2
    refine ⟨call, ?_, id, hcreated, hne, ?_⟩
    · rw [hrr]
      exact List.mem_append_left _ (List.mem_singleton.mpr rfl)
    · rcases read_step_id h c k (d.SetId id) r2 hh hr2 with hid | ⟨hid, rcall, hmem, hresp⟩
      · exact Or.inl (by rw [hrr]; exact hid)
      · refine Or.inr ⟨by rw [hrr]; exact hid, rcall, ?_, hresp⟩
        rw [hrr]
        exact List.mem_append_right _ hmem
  cases k with
  | IpSet =>
    obtain ⟨req, hshape⟩ := ipSetCreate_shape h c d hs
    simp only [handler] at hr
    rw [hshape] at hr
    have hc := createTail_ok_success _ _ _ _ _ _ _ _ _ _ hr herr
    refine fromTail _ _ _ ?_ ?_ hc <;> rfl
  | LbPool =>
    obtain ⟨req, hshape⟩ := lbPoolCreate_shape h c d e hs
    simp only [handler] at hr
    rw [hshape] at hr
    have hc := createTail_ok_success _ _ _ _ _ _ _ _ _ _ hr herr
    refine fromTail _ _ _ ?_ ?_ hc <;> rfl
  | LbFastTcpProfile =>
    obtain ⟨req, hshape⟩ := lbFastTcpCreate_shape h c d hs
    simp only [handler] at hr
    rw [hshape] at hr
    have hc := createTail_ok_success _ _ _ _ _ _ _ _ _ _ hr herr
    refine fromTail _ _ _ ?_ ?_ hc <;> rfl
  | IcmpTypeNsService =>
    obtain ⟨req, hshape⟩ := icmpCreate_shape h c d hs
    simp only [handler] at hr
    rw [hshape] at hr
    have hc := createTail_ok_success _ _ _ _ _ _ _ _ _ _ hr herr
    refine fromTail _ _ _ ?_ ?_ hc <;> rfl

/-- C24, amended, at two creates of an IP set answered with status 201 and the Id
`ipset-3`: when the read that follows is answered with status 200 the identifier is
`ipset-3`; when it is answered with status 404 the handler still returns success and
the identifier is empty. -/
theorem create_success_identifier_witness :
    (∃ r, handler Kind.IpSet Op.Create plainHelpers (createdClient "ipset-3")
        (stateOf resourceNsxtIPSetSchema "") = .ok r ∧ r.err = none ∧
      r.d.id = "ipset-3" ∧
      ∃ call ∈ r.calls, ∃ id, createdId (createdClient "ipset-3") call = some id ∧
        id ≠ "" ∧
        (r.d.id = id ∨
          (r.d.id = "" ∧ ∃ rcall ∈ r.calls, ∃ resp,
            readResponse (createdClient "ipset-3") rcall = some resp ∧
            resp.StatusCode = 404))) ∧
    (∃ r, handler Kind.IpSet Op.Create plainHelpers (readGoneClient "ipset-3")
        (stateOf resourceNsxtIPSetSchema "") = .ok r ∧ r.err = none ∧
      r.d.id = "" ∧
      ∃ call ∈ r.calls, ∃ id, createdId (readGoneClient "ipset-3") call = some id ∧
        id ≠ "" ∧
        (r.d.id = id ∨
          (r.d.id = "" ∧ ∃ rcall ∈ r.calls, ∃ resp,
            readResponse (readGoneClient "ipset-3") rcall = some resp ∧
            resp.StatusCode = 404))) :=
  ⟨⟨_, rfl, rfl, rfl,
      create_success_identifier plainHelpers (createdClient "ipset-3") Kind.IpSet
        Schema.TypeBool (stateOf resourceNsxtIPSetSchema "") _ (fun _ _ => rfl) rfl rfl
        rfl⟩,
   ⟨_, rfl, rfl, rfl,
      create_success_identifier plainHelpers (readGoneClient "ipset-3") Kind.IpSet
        Schema.TypeBool (stateOf resourceNsxtIPSetSchema "") _ (fun _ _ => rfl) rfl rfl
        rfl⟩⟩

/-- C25: on a pool configuration, the create handler and the update handler (run on
the same configuration held under a non-empty identifier) send the same `LbPool`
struct to the client, whatever the client, except for `Revision`: the struct sent by
the update is the one sent by the create with `Revision` set to the revision held in
state, narrowed to `int32`, and the create leaves `Revision` at zero. Each handler
then treats the outcome of its call as every create or update handler does. The helper
that reads the tags is taken to read the same tags whatever the identifier. -/
theorem lbPool_create_update_same_payload (h : Helpers) (d : ResourceData) (e : Schema)
    (id : String)
    (hs : d.schema = resourceNsxtLbPoolSchema (Schema.TypeList e)) (hid : id ≠ "")
    (htags : h.getTagsFromSchema (d.SetId id) = h.getTagsFromSchema d) :
    ∃ reqC reqU rev,
      (∀ c : APIClient, resourceNsxtLbPoolCreate h c d =
        createTail (fun code => decide (code = 201 ∨ code = 200))
          "Error during LbPool create: "
          "Unexpected status returned during LbPool create: "
          (Call.CreateLoadBalancerPool reqC) (resourceNsxtLbPoolRead h c) d
          (c.CreateLoadBalancerPool reqC).1.Id (c.CreateLoadBalancerPool reqC).2.1
          (c.CreateLoadBalancerPool reqC).2.2) ∧
      (∀ c : APIClient, resourceNsxtLbPoolUpdate h c (d.SetId id) =
        updateTail (fun err _ => "Error during LbPool update: " ++ fmtErr err)
          (Call.UpdateLoadBalancerPool id reqU)
          (resourceNsxtLbPoolRead h c (d.SetId id)) (d.SetId id)
          (c.UpdateLoadBalancerPool id reqU).2.1
          (c.UpdateLoadBalancerPool id reqU).2.2) ∧
      d.Get "revision" = Value.int rev ∧
      reqC.Revision = 0 ∧
      reqU.Revision = int32 rev ∧
      reqU = { reqC with Revision := int32 rev } ∧
      (reqU.Description = reqC.Description ∧ reqU.DisplayName = reqC.DisplayName ∧
        reqU.Tags = reqC.Tags ∧ reqU.ActiveMonitorIds = reqC.ActiveMonitorIds ∧
        reqU.Algorithm = reqC.Algorithm ∧
        reqU.MinActiveMembers = reqC.MinActiveMembers ∧
        reqU.PassiveMonitorId = reqC.PassiveMonitorId ∧
        reqU.SnatTranslation = reqC.SnatTranslation ∧
        reqU.TcpMultiplexingEnabled = reqC.TcpMultiplexingEnabled ∧
        reqU.TcpMultiplexingNumber = reqC.TcpMultiplexingNumber ∧
        reqU.Members = reqC.Members ∧ reqU.MemberGroup = reqC.MemberGroup) := by
  obtain ⟨rev, hrev⟩ := readValue_int (index d.attrs "revision")
  have hrevA : (readValue Schema.TypeInt (index d.attrs "revision")).assertInt = .ok rev := by
    simp [hrev, Value.assertInt]
  obtain ⟨desc, hdesc⟩ := assertString_readValue (index d.attrs "description")
  obtain ⟨name, hname⟩ := assertString_readValue (index d.attrs "display_name")
  obtain ⟨ids, hids⟩ := getActiveMonitorIdsFromSchema_total d _ hs
  obtain ⟨pas, hpas⟩ := assertString_readValue (index d.attrs "passive_monitor_id")
  obtain ⟨alg, halg⟩ := assertString_readValue (index d.attrs "algorithm")
  obtain ⟨ms, hms⟩ := getPoolMembersFromSchema_total d _ hs
  obtain ⟨mg, hmg⟩ := getPoolMemberGroupFromSchema_total h.getSingleResourceReference d e hs
  obtain ⟨mam, hmam⟩ := assertInt_readValue (index d.attrs "min_active_members")
  obtain ⟨snat, hsnat⟩ := getSnatTranslationFromSchema_total d _ hs
  obtain ⟨tme, htme⟩ := assertBool_readValue (index d.attrs "tcp_multiplexing_enabled")
  obtain ⟨tmn, htmn⟩ := assertInt_readValue (index d.attrs "tcp_multiplexing_number")
  have hget : d.Get "revision" = Value.int rev := by
    simp [ResourceData.Get, hs, resourceNsxtLbPoolSchema, GetRevisionSchema, List.lookup, hrev]
  refine ⟨LbPool.mk "" 0 desc name (h.getTagsFromSchema d) ids alg (int64 mam) pas snat tme
      (int64 tmn) ms mg,
    LbPool.mk "" (int32 rev) desc name (h.getTagsFromSchema d) ids alg (int64 mam) pas snat
      tme (int64 tmn) ms mg,
    rev, ?_, ?_, hget, rfl, rfl, rfl, rfl, rfl, rfl, rfl, rfl, rfl, rfl, rfl, rfl, rfl, rfl,
    rfl⟩
  · intro c
    rcases hres : c.CreateLoadBalancerPool (LbPool.mk "" 0 desc name (h.getTagsFromSchema d)
      ids alg (int64 mam) pas snat tme (int64 tmn) ms mg) with ⟨obj, resp, err⟩
    cases err with
    | some e =>
      simp [resourceNsxtLbPoolCreate, createTail, ResourceData.Get, hs,
        resourceNsxtLbPoolSchema, GetRevisionSchema, List.lookup, hdesc, hname, hids, hpas,
        halg, hms, hmg, hmam, hsnat, htme, htmn, hres, StatusCreated, StatusOK, bind,
        Except.bind, pure, Except.pure, throw, throwThe, MonadExceptOf.throw]
    | none =>
      cases resp with
      | none =>
        simp [resourceNsxtLbPoolCreate, createTail, ResourceData.Get, hs,
        resourceNsxtLbPoolSchema, GetRevisionSchema, List.lookup, hdesc, hname, hids, hpas,
        halg, hms, hmg, hmam, hsnat, htme, htmn, hres, StatusCreated, StatusOK, bind,
        Except.bind, pure, Except.pure, throw, throwThe, MonadExceptOf.throw]
      | some r =>
        by_cases hr : r.StatusCode = 201
        · simp [resourceNsxtLbPoolCreate, createTail, ResourceData.Get, hs,
        resourceNsxtLbPoolSchema, GetRevisionSchema, List.lookup, hdesc, hname, hids, hpas,
        halg, hms, hmg, hmam, hsnat, htme, htmn, hres, StatusCreated, StatusOK, bind,
        Except.bind, pure, Except.pure, throw, throwThe, MonadExceptOf.throw, hr]
        · by_cases hr2 : r.StatusCode = 200
          · simp [resourceNsxtLbPoolCreate, createTail, ResourceData.Get, hs,
        resourceNsxtLbPoolSchema, GetRevisionSchema, List.lookup, hdesc, hname, hids, hpas,
        halg, hms, hmg, hmam, hsnat, htme, htmn, hres, StatusCreated, StatusOK, bind,
        Except.bind, pure, Except.pure, throw, throwThe, MonadExceptOf.throw, hr2]
          · simp [resourceNsxtLbPoolCreate, createTail, ResourceData.Get, hs,
        resourceNsxtLbPoolSchema, GetRevisionSchema, List.lookup, hdesc, hname, hids, hpas,
        halg, hms, hmg, hmam, hsnat, htme, htmn, hres, StatusCreated, StatusOK, bind,
        Except.bind, pure, Except.pure, throw, throwThe, MonadExceptOf.throw, hr, hr2]
  · intro c
    have hs2 : (d.SetId id).schema = resourceNsxtLbPoolSchema (Schema.TypeList e) := hs
    have hattrs : (d.SetId id).attrs = d.attrs := rfl
    have hid2 : (d.SetId id).id = id := rfl
    have hids2 : getActiveMonitorIdsFromSchema (d.SetId id) = .ok ids := hids
    have hms2 : getPoolMembersFromSchema (d.SetId id) = .ok ms := hms
    have hmg2 : getPoolMemberGroupFromSchema h.getSingleResourceReference (d.SetId id) =
        .ok mg := hmg
    have hsnat2 : getSnatTranslationFromSchema (d.SetId id) = .ok snat := hsnat
    rcases hres : c.UpdateLoadBalancerPool id (LbPool.mk "" (int32 rev) desc name
      (h.getTagsFromSchema d) ids alg (int64 mam) pas snat tme (int64 tmn) ms mg)
      with ⟨obj, resp, err⟩
    cases err with
    | some e =>
      simp [resourceNsxtLbPoolUpdate, updateTail, ResourceData.Id, ResourceData.Get, hs2,
        hid2, hid, hattrs, htags, resourceNsxtLbPoolSchema, GetRevisionSchema, List.lookup,
        hrevA, hdesc, hname, hids2, hpas, halg, hms2, hmg2, hmam, hsnat2, htme, htmn, hres,
        bind, Except.bind, pure, Except.pure, throw, throwThe, MonadExceptOf.throw]
    | none =>
      cases resp with
      | none =>
        simp [resourceNsxtLbPoolUpdate, updateTail, ResourceData.Id, ResourceData.Get, hs2,
        hid2, hid, hattrs, htags, resourceNsxtLbPoolSchema, GetRevisionSchema, List.lookup,
        hrevA, hdesc, hname, hids2, hpas, halg, hms2, hmg2, hmam, hsnat2, htme, htmn, hres,
        bind, Except.bind, pure, Except.pure, throw, throwThe, MonadExceptOf.throw]
      | some r =>
        by_cases hr : r.StatusCode = StatusNotFound
        · simp [resourceNsxtLbPoolUpdate, updateTail, ResourceData.Id, ResourceData.Get, hs2,
        hid2, hid, hattrs, htags, resourceNsxtLbPoolSchema, GetRevisionSchema, List.lookup,
        hrevA, hdesc, hname, hids2, hpas, halg, hms2, hmg2, hmam, hsnat2, htme, htmn, hres,
        bind, Except.bind, pure, Except.pure, throw, throwThe, MonadExceptOf.throw, hr]
        · simp [resourceNsxtLbPoolUpdate, updateTail, ResourceData.Id, ResourceData.Get, hs2,
        hid2, hid, hattrs, htags, resourceNsxtLbPoolSchema, GetRevisionSchema, List.lookup,
        hrevA, hdesc, hname, hids2, hpas, halg, hms2, hmg2, hmam, hsnat2, htme, htmn, hres,
        bind, Except.bind, pure, Except.pure, throw, throwThe, MonadExceptOf.throw, hr]

/-- C25, at the pool state holding revision 7, with the identifier `id-1`: the create
sends a pool with `Revision` 0, the update sends the same pool with `Revision` 7. -/
theorem lbPool_create_update_same_payload_witness :
    "id-1" ≠ "" ∧
    ∃ reqC reqU,
      (∀ c : APIClient, resourceNsxtLbPoolCreate plainHelpers c
          (revisionState (resourceNsxtLbPoolSchema GetResourceReferencesSchema) 7) =
        createTail (fun code => decide (code = 201 ∨ code = 200))
          "Error during LbPool create: "
          "Unexpected status returned during LbPool create: "
          (Call.CreateLoadBalancerPool reqC) (resourceNsxtLbPoolRead plainHelpers c)
          (revisionState (resourceNsxtLbPoolSchema GetResourceReferencesSchema) 7)
          (c.CreateLoadBalancerPool reqC).1.Id (c.CreateLoadBalancerPool reqC).2.1
          (c.CreateLoadBalancerPool reqC).2.2) ∧
      (∀ c : APIClient, resourceNsxtLbPoolUpdate plainHelpers c
          ((revisionState (resourceNsxtLbPoolSchema GetResourceReferencesSchema) 7).SetId
            "id-1") =
        updateTail (fun err _ => "Error during LbPool update: " ++ fmtErr err)
          (Call.UpdateLoadBalancerPool "id-1" reqU)
          (resourceNsxtLbPoolRead plainHelpers c
            ((revisionState (resourceNsxtLbPoolSchema GetResourceReferencesSchema) 7).SetId
              "id-1"))
          ((revisionState (resourceNsxtLbPoolSchema GetResourceReferencesSchema) 7).SetId
            "id-1")
          (c.UpdateLoadBalancerPool "id-1" reqU).2.1
          (c.UpdateLoadBalancerPool "id-1" reqU).2.2) ∧
      reqC.Revision = 0 ∧ reqU.Revision = 7 ∧ reqU = { reqC with Revision := 7 } := by
  obtain ⟨reqC, reqU, rev, hC, hU, hget, h0, hrevU, heq, _⟩ :=
    lbPool_create_update_same_payload plainHelpers
      (revisionState (resourceNsxtLbPoolSchema GetResourceReferencesSchema) 7) _ "id-1"
      rfl (by decide) rfl
  have hrev : rev = 7 := by
    have h7 : (revisionState (resourceNsxtLbPoolSchema GetResourceReferencesSchema) 7).Get
        "revision" = Value.int 7 := rfl
    rw [h7] at hget
    cases hget
    rfl
  subst hrev
  exact ⟨by decide, reqC, reqU, hC, hU, h0, hrevU, heq⟩

/-- C3: on a state that declares `snat_translation`, `setSnatTranslationInSchema`
reports no error and leaves a state whose `snat_translation` is a list of exactly one
element, stored as built and handed out with the three fields `type`, `ip` and
`port_overload`; the identifier, the attribute table and every other attribute are as
before. The type is `TRANSPARENT` exactly when the translation object is absent (ip and
port overload are then the zero values); for a present object it is `SNAT_IP_POOL`
(with ip the first address, when there is one) or `SNAT_AUTO_MAP`, and the port
overload is that of the object. -/
theorem setSnatTranslationInSchema_writes (d : ResourceData)
    (snat : Option LbSnatTranslation)
    (hs : d.schema.lookup "snat_translation" = some getSnatTranslationSchema) :
    (setSnatTranslationInSchema d snat).2 = none ∧
    (setSnatTranslationInSchema d snat).1.id = d.id ∧
    (setSnatTranslationInSchema d snat).1.schema = d.schema ∧
    (∀ key, key ≠ "snat_translation" →
      (setSnatTranslationInSchema d snat).1.Get key = d.Get key) ∧
    ∃ elem ty ip po,
      index (setSnatTranslationInSchema d snat).1.attrs "snat_translation" =
        Value.list [Value.map elem] ∧
      (setSnatTranslationInSchema d snat).1.Get "snat_translation" =
        Value.list [Value.map [("type", Value.str ty), ("ip", Value.str ip),
          ("port_overload", Value.int po)]] ∧
      index elem "type" = Value.str ty ∧
      (ty = "TRANSPARENT" ↔ snat = none) ∧
      (snat = none → ip = "" ∧ po = 0) ∧
      ∀ t, snat = some t →
        ty = (if t.Type_ = "LbSnatIpPool" then "SNAT_IP_POOL" else "SNAT_AUTO_MAP") ∧
        (t.Type_ = "LbSnatIpPool" → ∀ a rest, t.IpAddresses = a :: rest →
          ip = a.IpAddress ∧ index elem "ip" = Value.str a.IpAddress) ∧
        ((t.Type_ ≠ "LbSnatIpPool" ∨ t.IpAddresses = []) →
          ip = "" ∧ index elem "ip" = Value.nil) ∧
        po = t.PortOverload ∧ index elem "port_overload" = Value.int64 t.PortOverload := by
  have hattr : index (setSnatTranslationInSchema d snat).1.attrs "snat_translation" =
      Value.list ((snatTranslationList snat).map Value.map) := by
    simp [setSnatTranslationInSchema, ResourceData.Set, hs, index_assign_same]
  have hget := (ResourceData.Get_Set_same d "snat_translation" getSnatTranslationSchema
    (Value.list ((snatTranslationList snat).map Value.map)) hs).2
  refine ⟨(ResourceData.Get_Set_same d _ _ _ hs).1, ResourceData.Set_id d _ _,
    ResourceData.Set_schema d _ _,
    fun key hne => ResourceData.Get_Set_other d _ key _ hne, ?_⟩
  cases snat with
  | none =>
    refine ⟨[("type", Value.str "TRANSPARENT")], "TRANSPARENT", "", 0, ?_, ?_, rfl,
      ⟨fun _ => rfl, fun _ => rfl⟩, fun _ => ⟨rfl, rfl⟩, fun t ht => nomatch ht⟩
    · rw [hattr]
      rfl
    · rw [setSnatTranslationInSchema, hget]
      rfl
  | some t =>
    by_cases hp : t.Type_ = "LbSnatIpPool"
    · cases hi : t.IpAddresses with
      | nil =>
        refine ⟨[("type", Value.str "SNAT_IP_POOL"),
          ("port_overload", Value.int64 t.PortOverload)], "SNAT_IP_POOL", "",
          t.PortOverload, ?_, ?_, rfl, ⟨fun hty => absurd hty (by decide), fun hn => (nomatch hn)⟩,
          fun hn => (nomatch hn), ?_⟩
        · rw [hattr]
          simp [snatTranslationList, hp, hi, assign, List.filter]
        · rw [setSnatTranslationInSchema, hget]
          simp [snatTranslationList, hp, hi, getSnatTranslationSchema, readValue,
            readFields, assign, index, List.lookup, List.filter]
        · intro t2 ht
          cases ht
          refine ⟨by simp [hp], ?_, fun _ => ⟨rfl, rfl⟩, rfl, rfl⟩
          intro _ a rest hcons
          rw [hi] at hcons
          cases hcons
      | cons a rest =>
        refine ⟨[("type", Value.str "SNAT_IP_POOL"), ("ip", Value.str a.IpAddress),
          ("port_overload", Value.int64 t.PortOverload)], "SNAT_IP_POOL", a.IpAddress,
          t.PortOverload, ?_, ?_, rfl, ⟨fun hty => absurd hty (by decide), fun hn => (nomatch hn)⟩,
          fun hn => (nomatch hn), ?_⟩
        · rw [hattr]
          simp [snatTranslationList, hp, hi, assign, List.filter]
        · rw [setSnatTranslationInSchema, hget]
          simp [snatTranslationList, hp, hi, getSnatTranslationSchema, readValue,
            readFields, assign, index, List.lookup, List.filter]
        · intro t2 ht
          cases ht
          refine ⟨by simp [hp], ?_, ?_, rfl, rfl⟩
          · intro _ a2 rest2 hcons
            rw [hi] at hcons
            cases hcons
            exact ⟨rfl, rfl⟩
          · intro hor
            rcases hor with hne | hnil
            · exact absurd hp hne
            · rw [hi] at hnil
              cases hnil
    · refine ⟨[("type", Value.str "SNAT_AUTO_MAP"),
        ("port_overload", Value.int64 t.PortOverload)], "SNAT_AUTO_MAP", "",
        t.PortOverload, ?_, ?_, rfl, ⟨fun hty => absurd hty (by decide), fun hn => (nomatch hn)⟩,
        fun hn => (nomatch hn), ?_⟩
      · rw [hattr]
        simp [snatTranslationList, hp, assign, List.filter]
      · rw [setSnatTranslationInSchema, hget]
        simp [snatTranslationList, hp, getSnatTranslationSchema, readValue,
          readFields, assign, index, List.lookup, List.filter]
      · intro t2 ht
        cases ht
        exact ⟨by simp [hp], fun hpool => absurd hpool hp, fun _ => ⟨rfl, rfl⟩, rfl, rfl⟩

/-- C3, at the pool state without attributes and the IP pool object with the address
`192.168.1.1` and port overload 8: no error, and the state left hands out the one
block `SNAT_IP_POOL`, `192.168.1.1`, 8. -/
theorem setSnatTranslationInSchema_writes_witness :
    (setSnatTranslationInSchema (lbPoolData [])
      (some { Type_ := "LbSnatIpPool", IpAddresses := [{ IpAddress := "192.168.1.1" }],
              PortOverload := 8 })).2 = none ∧
    (setSnatTranslationInSchema (lbPoolData [])
      (some { Type_ := "LbSnatIpPool", IpAddresses := [{ IpAddress := "192.168.1.1" }],
              PortOverload := 8 })).1.Get "snat_translation" =
      Value.list [Value.map [("type", Value.str "SNAT_IP_POOL"),
        ("ip", Value.str "192.168.1.1"), ("port_overload", Value.int 8)]] := by
  obtain ⟨herr, _, _, _, elem, ty, ip, po, _, hget, _, _, _, hsome⟩ :=
    setSnatTranslationInSchema_writes (lbPoolData [])
      (some { Type_ := "LbSnatIpPool", IpAddresses := [{ IpAddress := "192.168.1.1" }],
              PortOverload := 8 }) rfl
  obtain ⟨hty, hip, _, hpo, _⟩ := hsome _ rfl
  have hip2 := (hip rfl _ _ rfl).1
  subst hty
  subst hip2
  subst hpo
  exact ⟨herr, hget⟩

end nsxt
